import Mathlib

/-!
# Impact: level loading, body construction and block damage

A shallow embedding of `Level::loadZip`, `Level::tileParam`, `Wall::Wall`,
`Block::Block` and `Block::hit` (sources: `Level.cpp`, `Wall.cpp`, `Block.cpp`,
`Bumper.h`), followed by theorems about them.

Conventions.
* `float32` values are represented by rationals, a literal by the number it denotes;
  rounding is not modelled.
* `int` values are represented by unbounded integers.  C++ leaves signed overflow
  undefined, so the model describes the executions in which none occurs; where the
  source converts between unsigned and signed 32-bit values the wrap is explicit.
* The conversion `int(x)` of a `float` is the truncation toward zero where that fits a
  32-bit `int` (`fitsInt`); C++ leaves the conversion of any other value undefined.
* Rendering members (sprites, shaders, colours of sprites) are left out.
-/

namespace Impact

/-! ## Basic values -/

/-- The conversion `int(x)` of a floating point value: truncation toward zero.  This is
what the conversion yields for the values `fitsInt` admits; for the others C++ leaves it
undefined (an x86-64 build yields `INT_MIN`), and the mathematical truncation stands here. -/
def truncToInt (x : ℚ) : Int :=
  if 0 ≤ x then ⌊x⌋ else ⌈x⌉

/-- Whether the conversion `int(x)` is defined: the truncated value can be represented in
a 32-bit `int`, which is the case exactly for the values strictly between `-2^31 - 1` and
`2^31`. -/
def fitsInt (x : ℚ) : Prop :=
  -2147483649 < x ∧ x < 2147483648

instance (x : ℚ) : Decidable (fitsInt x) :=
  inferInstanceAs (Decidable (-2147483649 < x ∧ x < 2147483648))

/-- An `sf::Time`: a signed count of microseconds. -/
structure Time where
  micros : Int
  deriving DecidableEq, Repr

/-- The function `sf::seconds`: the amount is scaled to microseconds and truncated. -/
def seconds (amount : ℚ) : Time :=
  ⟨truncToInt (amount * 1000000)⟩

/-- The function `sf::milliseconds`. -/
def milliseconds (amount : Int) : Time :=
  ⟨amount * 1000⟩

/-- The method `sf::Time::asMilliseconds`. -/
def Time.asMilliseconds (t : Time) : Int :=
  Int.tdiv t.micros 1000

/-- An `sf::Texture`, reduced to its pixel size (`getSize()`), two `unsigned int`s. -/
structure Texture where
  x : Nat
  y : Nat
  deriving DecidableEq, Repr

/-- An `sf::Color`. -/
structure Color where
  r : Nat
  g : Nat
  b : Nat
  a : Nat
  deriving DecidableEq, Repr

/-- The constant `sf::Color::Black`. -/
def Color.Black : Color := ⟨0, 0, 0, 255⟩

/-- Modelled from the spec: the enumeration `BodyShapeType` is declared outside the
sources at hand; only its member `CircleShape` is named in `Level.cpp`. -/
inductive BodyShapeType where
  | CircleShape
  | other (code : Nat)
  deriving DecidableEq, Repr

/-! ## Tile parameters -/

/-- The record `TileParam`.  Its declaration is outside the sources at hand; the members
are the ones `Level::loadZip` assigns.  A member on which the sources call `isValid()` and
`get()` is an optional value (`none`: not valid), every other member is a plain value. -/
structure TileParam where
  texture : Texture
  textureName : String
  score : Int
  fixed : Option Bool
  friction : Option ℚ
  linearDamping : Option ℚ
  angularDamping : Option ℚ
  restitution : Option ℚ
  density : Option ℚ
  gravityScale : ℚ
  scaleGravityBy : ℚ
  scaleGravityDuration : Time
  scaleBallDensityBy : ℚ
  scaleBallDensityDuration : Time
  minimumHitImpulse : Int
  minimumKillImpulse : Int
  smooth : Bool
  earthquakeDuration : Time
  earthquakeIntensity : ℚ
  bumperImpulse : ℚ
  multiball : Bool
  shapeType : BodyShapeType
  deriving DecidableEq, Repr

/-- Constants and declarations the sources refer to but do not contain. -/
structure Consts where
  /-- The constant `Game::InvScale`, the pixel-to-physics factor. -/
  InvScale : ℚ
  /-- The constant `Game::DefaultKillingsPerKillingSpree`. -/
  DefaultKillingsPerKillingSpree : Int
  /-- The constant `Game::DefaultKillingSpreeBonus`. -/
  DefaultKillingSpreeBonus : Int
  /-- The constant `Game::DefaultKillingSpreeInterval`. -/
  DefaultKillingSpreeInterval : Time
  /-- The constant `Bumper::Name`, declared in `Bumper.h`. -/
  BumperName : String
  /-- The value of a default-constructed `TileParam`. -/
  newTileParam : TileParam

/-! ## The level record -/

/-- The record `Boundary`. -/
structure Boundary where
  left : Int
  top : Int
  right : Int
  bottom : Int
  valid : Bool
  deriving DecidableEq, Repr

/-- Modelled from the spec: the constructor `Boundary()` is outside the sources at hand;
the spec has the validity flag false where a descriptor gives no boundary object. -/
def Boundary.new : Boundary := ⟨0, 0, 0, 0, false⟩

/-- The members of `Level` that `Level::loadZip` reads or writes.  `mMusic` holds the path
of the opened music file, `mBackgroundTexture` the size of the loaded image. -/
structure Level where
  mBackgroundColor : Color
  mBackgroundVisible : Bool
  mBackgroundImageOpacity : ℚ
  mBackgroundTexture : Option Texture
  mFirstGID : Nat
  mMapData : List Nat
  mNumTilesX : Int
  mNumTilesY : Int
  mTileWidth : Int
  mTileHeight : Int
  mLevelNum : Int
  mGravity : ℚ
  mWallRestitution : ℚ
  mExplosionParticlesCollideWithBall : Bool
  mKillingsPerKillingSpree : Int
  mKillingSpreeBonus : Int
  mKillingSpreeInterval : Time
  mSuccessfullyLoaded : Bool
  mMusic : Option String
  mName : String
  mCredits : String
  mAuthor : String
  mCopyright : String
  mInfo : String
  mBoundary : Boundary
  mTiles : List TileParam
  deriving DecidableEq, Repr

/-- The constant `Level::DefaultGravity`. -/
def Level.DefaultGravity : ℚ := 981 / 100

/-- The constant `Level::DefaultWallRestitution`. -/
def Level.DefaultWallRestitution : ℚ := 1

/-- The method `Level::tileParam`: `mTiles.at(index)`, where `at` throws for an index
outside the table (`none`); a negative `int` converts to an index beyond any table. -/
def Level.tileParam (l : Level) (index : Int) : Option TileParam :=
  if index < 0 then none else l.mTiles[index.toNat]?

/-! ## Physics bodies -/

/-- A Box2D shape as the constructors set it up. -/
inductive Shape where
  | box (hx hy : ℚ)
  | circle (px py radius : ℚ)
  deriving DecidableEq, Repr

/-- A `b2FixtureDef` handed to `CreateFixture`. -/
structure FixtureDef where
  shape : Shape
  density : ℚ
  friction : ℚ
  restitution : ℚ
  deriving DecidableEq, Repr

/-- The kind of a Box2D body. -/
inductive B2BodyType where
  | staticBody
  | dynamicBody
  deriving DecidableEq, Repr

/-- A `b2Body`: the members of the `b2BodyDef` it was created from and the fixtures
created on it, in creation order. -/
structure B2Body where
  type : B2BodyType
  angle : ℚ
  linearDamping : ℚ
  angularDamping : ℚ
  gravityScale : ℚ
  allowSleep : Bool
  awake : Bool
  fixedRotation : Bool
  bullet : Bool
  fixtures : List FixtureDef
  deriving DecidableEq, Repr

/-- A default-initialised `b2BodyDef` (Box2D), without fixtures. -/
def B2Body.ofDefaultDef : B2Body :=
  { type := .staticBody, angle := 0, linearDamping := 0, angularDamping := 0,
    gravityScale := 1, allowSleep := true, awake := true, fixedRotation := false,
    bullet := false, fixtures := [] }

/-- The method `b2Body::CreateFixture`. -/
def B2Body.CreateFixture (b : B2Body) (fd : FixtureDef) : B2Body :=
  { b with fixtures := b.fixtures ++ [fd] }

/-- The method `b2Body::SetLinearDamping`. -/
def B2Body.SetLinearDamping (b : B2Body) (d : ℚ) : B2Body :=
  { b with linearDamping := d }

/-- The method `b2Body::SetGravityScale`. -/
def B2Body.SetGravityScale (b : B2Body) (s : ℚ) : B2Body :=
  { b with gravityScale := s }

/-- Modelled from the spec: the base class `Body` (`Body.h`, `Body.cpp`) is outside the
sources at hand.  These are the members the constructors and `hit` use: the name, the copy
of the tile parameters the base constructor keeps, score, remaining energy, whether the
body is still alive, and the Box2D body. -/
structure Body where
  mName : String
  mTileParam : TileParam
  mScore : Int
  mEnergy : Int
  mAlive : Bool
  mBody : B2Body
  deriving DecidableEq, Repr

/-- Modelled from the spec: `Body::hit` is outside the sources at hand.  The spec gives the
shared impact-accounting rule: the integer impulse is subtracted from the remaining energy,
and energy reaching zero or below triggers destruction; the result tells whether the body
was destroyed. -/
def Body.hit (b : Body) (v : Int) : Body × Bool :=
  let e := b.mEnergy - v
  if e ≤ 0 then ({ b with mEnergy := e, mAlive := false }, true)
  else ({ b with mEnergy := e }, false)

/-- A `Wall`: the members its constructor sets. -/
structure Wall where
  mName : String
  mTileParam : TileParam
  mTexture : Texture
  mBody : B2Body
  deriving DecidableEq, Repr

/-- The constant `Wall::Name`. -/
def Wall.Name : String := "Wall"

/-- The constant `Wall::DefaultDensity`. -/
def Wall.DefaultDensity : ℚ := 0

/-- The constant `Wall::DefaultFriction`. -/
def Wall.DefaultFriction : ℚ := 2 / 10

/-- The constant `Wall::DefaultRestitution`. -/
def Wall.DefaultRestitution : ℚ := 5 / 10

/-- The constructor `Wall::Wall`.  `none` stands for the exception `Level::tileParam`
throws when `index` names no slot of the tile table. -/
def Wall.new (c : Consts) (level : Level) (index : Int) (tileParam : TileParam) :
    Option Wall :=
  match level.tileParam index with
  | none => none
  | some slot =>
    let mTexture := slot.texture
    let halfW : ℚ := (1 / 2) * mTexture.x
    let halfH : ℚ := (1 / 2) * mTexture.y
    let bd : B2Body := { B2Body.ofDefaultDef with type := .staticBody }
    let fd : FixtureDef :=
      { shape := .box (halfW * c.InvScale) (halfH * c.InvScale)
        density := match tileParam.density with
          | some v => v
          | none => Wall.DefaultDensity
        restitution := match tileParam.restitution with
          | some v => v
          | none => Wall.DefaultRestitution
        friction := match tileParam.friction with
          | some v => v
          | none => Wall.DefaultFriction }
    some
      { mName := Wall.Name, mTileParam := tileParam, mTexture := mTexture,
        mBody := bd.CreateFixture fd }

/-- A `Block`. -/
structure Block extends Body where
  mGravityScale : ℚ
  mMinimumHitImpulse : Int
  deriving DecidableEq, Repr

/-- The constant `Block::Name`. -/
def Block.Name : String := "Block"

/-- The constant `Block::DefaultDensity`. -/
def Block.DefaultDensity : ℚ := 20

/-- The constant `Block::DefaultFriction`. -/
def Block.DefaultFriction : ℚ := 71 / 100

/-- The constant `Block::DefaultRestitution`. -/
def Block.DefaultRestitution : ℚ := 4 / 100

/-- The constant `Block::DefaultLinearDamping`. -/
def Block.DefaultLinearDamping : ℚ := 5

/-- The constant `Block::DefaultAngularDamping`. -/
def Block.DefaultAngularDamping : ℚ := 5 / 10

/-- The method `Block::setGravityScale`. -/
def Block.setGravityScale (b : Block) (gravityScale : ℚ) : Block :=
  { b with mGravityScale := gravityScale }

/-- The difference `W - H` of two `unsigned int`s: it wraps modulo 2^32. -/
def unsignedSub (W H : Nat) : Nat :=
  ((W : Int) - (H : Int)).emod (2 ^ 32) |>.toNat

/-- The constructor `Block::Block`.  `none` stands for the exception `Level::tileParam`
throws when `index` names no slot of the tile table. -/
def Block.new (c : Consts) (level : Level) (index : Int) (tileParam : TileParam) :
    Option Block :=
  -- Body(Body::BodyType::Block, game, tileParam), mGravityScale(2.f), mMinimumHitImpulse(0)
  let mTileParam := tileParam
  -- mMinimumHitImpulse, setScore, setEnergy, setGravityScale
  let mMinimumHitImpulse := mTileParam.minimumHitImpulse
  let mScore := mTileParam.score
  let mEnergy := mTileParam.minimumKillImpulse
  let mGravityScale := mTileParam.gravityScale
  match level.tileParam index with
  | none => none
  | some slot =>
    let texture := slot.texture
    let W : Nat := texture.x
    let H : Nat := texture.y
    let bd : B2Body :=
      { type := .dynamicBody
        angle := 0
        linearDamping := match mTileParam.linearDamping with
          | some v => v
          | none => Block.DefaultLinearDamping
        angularDamping := match mTileParam.angularDamping with
          | some v => v
          | none => Block.DefaultAngularDamping
        gravityScale := 0
        allowSleep := true
        awake := false
        fixedRotation := false
        bullet := false
        fixtures := [] }
    let hs : ℚ := (1 / 2) * c.InvScale
    let hh : ℚ := hs * H
    let xoff : ℚ := hs * (unsignedSub W H)
    let density : ℚ := match mTileParam.density with
      | some v => v
      | none => Block.DefaultDensity
    let friction : ℚ := match mTileParam.friction with
      | some v => v
      | none => Block.DefaultFriction
    let restitution : ℚ := match mTileParam.restitution with
      | some v => v
      | none => Block.DefaultRestitution
    let fdBox : FixtureDef :=
      { shape := .box xoff hh, density := density, friction := friction,
        restitution := restitution }
    let fdCircleL : FixtureDef :=
      { shape := .circle (-xoff) 0 hh, density := density, friction := friction,
        restitution := restitution }
    let fdCircleR : FixtureDef :=
      { shape := .circle xoff 0 hh, density := density, friction := friction,
        restitution := restitution }
    let mBody := ((bd.CreateFixture fdBox).CreateFixture fdCircleL).CreateFixture fdCircleR
    some
      { mName := Block.Name, mTileParam := mTileParam, mScore := mScore, mEnergy := mEnergy,
        mAlive := true, mBody := mBody, mGravityScale := mGravityScale,
        mMinimumHitImpulse := mMinimumHitImpulse }

/-- The method `Block::hit`: the new state of the block and the returned flag. -/
def Block.hit (b : Block) (impulse : ℚ) : Block × Bool :=
  let v : Int := truncToInt impulse
  let r := b.toBody.hit v
  let destroyed := r.2
  let b1 : Block := { b with toBody := r.1 }
  if !destroyed && decide (v > b1.mMinimumHitImpulse) then
    let body := (b1.mBody.SetLinearDamping 0).SetGravityScale b1.mGravityScale
    ({ b1 with mBody := body }, destroyed)
  else
    (b1, destroyed)

/-- The block after a sequence of calls of `Block::hit`. -/
def Block.hits (b : Block) : List ℚ → Block
  | [] => b
  | x :: xs => Block.hits (b.hit x).1 xs

/-- The flags a sequence of calls of `Block::hit` returns, in order. -/
def Block.hitResults (b : Block) : List ℚ → List Bool
  | [] => []
  | x :: xs => (b.hit x).2 :: Block.hitResults (b.hit x).1 xs

/-- The `b2World`, reduced to what the particle system does with it: the number of bodies
created so far (a body is named by its number) and the arguments of the calls of
`DestroyBody`, in call order. -/
structure World where
  created : Nat
  destroyed : List Nat
  deriving DecidableEq, Repr

/-- The method `b2World::CreateBody`: the new body and the world. -/
def World.CreateBody (w : World) : Nat × World :=
  (w.created, { w with created := w.created + 1 })

/-- The method `b2World::DestroyBody`. -/
def World.DestroyBody (w : World) (body : Nat) : World :=
  { w with destroyed := w.destroyed ++ [body] }

/-- The record `SimpleParticle`, without its sprite. -/
structure SimpleParticle where
  dead : Bool
  lifeTime : Time
  body : Nat
  deriving DecidableEq, Repr

/-- A `ParticleSystem`: its particles and, of the base class `Body`, the lifetime set by
`setLifetime` and whether `kill` has been called. -/
structure ParticleSystem where
  mParticles : List SimpleParticle
  mMaxAge : Time
  mKilled : Bool
  deriving DecidableEq, Repr

/-- The constant `ParticleSystem::sMaxAge`. -/
def ParticleSystem.sMaxAge : Time := milliseconds 1000

/-- The loop of the constructor `ParticleSystem::ParticleSystem` from particle `i` on, for
`n` more particles: each gets `dead = false`, the lifetime drawn for it and a new body.
`randomLifetime i` is the number `randomLifetime(gRNG)` returns for particle `i`. -/
def ParticleSystem.createParticles (randomLifetime : Nat → Int) :
    Nat → Nat → World → List SimpleParticle × World
  | _, 0, world => ([], world)
  | i, n + 1, world =>
    let created := world.CreateBody
    let p : SimpleParticle :=
      { dead := false, lifeTime := milliseconds (randomLifetime i), body := created.1 }
    let rest := ParticleSystem.createParticles randomLifetime (i + 1) n created.2
    (p :: rest.1, rest.2)

/-- The constructor `ParticleSystem::ParticleSystem` for `count` particles (a `count` that
is not negative; `std::vector` throws otherwise); velocities, fixtures and collision
filters are left out.  The source draws the lifetimes from 500 to 1000 milliseconds; here
they are arbitrary. -/
def ParticleSystem.new (world : World) (randomLifetime : Nat → Int) (count : Nat) :
    ParticleSystem × World :=
  let r := ParticleSystem.createParticles randomLifetime 0 count world
  ({ mParticles := r.1, mMaxAge := ParticleSystem.sMaxAge, mKilled := false }, r.2)

/-- The body of the loop of `ParticleSystem::onUpdate` for one particle, at the age
`age()` returns. -/
def SimpleParticle.update (p : SimpleParticle) (age : Time) (world : World) :
    SimpleParticle × World :=
  if age.micros > p.lifeTime.micros ∧ p.dead = false then
    ({ p with dead := true }, world.DestroyBody p.body)
  else
    (p, world)

/-- The loop of `ParticleSystem::onUpdate`, with the accumulator `allDead`.  The iterations
are independent of one another apart from the calls of `DestroyBody` and the reduction of
`allDead`; they are taken in index order. -/
def ParticleSystem.updateParticles (age : Time) :
    List SimpleParticle → World → Bool → List SimpleParticle × World × Bool
  | [], world, allDead => ([], world, allDead)
  | p :: rest, world, allDead =>
    let r := p.update age world
    let t := ParticleSystem.updateParticles age rest r.2 (allDead && r.1.dead)
    (r.1 :: t.1, t.2.1, t.2.2)

/-- Modelled from the spec: `Body::overAge` is outside the sources at hand; the spec has the
swarm terminate "once the swarm's own age exceeds a fixed maximum age ceiling", the
lifetime set by `setLifetime`. -/
def ParticleSystem.overAge (ps : ParticleSystem) (age : Time) : Bool :=
  decide (age.micros > ps.mMaxAge.micros)

/-- The method `ParticleSystem::onUpdate` at the age `age()` returns during the call: the
new state, the world, and whether `kill` was called.  (Modelled from the spec: `Body::kill`
is outside the sources at hand; it records the request for removal.) -/
def ParticleSystem.onUpdate (ps : ParticleSystem) (world : World) (age : Time) :
    ParticleSystem × World × Bool :=
  let r := ParticleSystem.updateParticles age ps.mParticles world true
  let allDead := r.2.2
  let kill := allDead || ps.overAge age
  ({ ps with mParticles := r.1, mKilled := ps.mKilled || kill }, r.2.1, kill)

/-- A sequence of calls of `ParticleSystem::onUpdate` at the given ages: the final state,
the world, and for each call whether `kill` was called. -/
def ParticleSystem.updates (ps : ParticleSystem) (world : World) :
    List Time → ParticleSystem × World × List Bool
  | [] => (ps, world, [])
  | age :: ages =>
    let r := ps.onUpdate world age
    let t := ParticleSystem.updates r.1 r.2.1 ages
    (t.1, t.2.1, r.2.2 :: t.2.2)

/-- The loop of the destructor `ParticleSystem::~ParticleSystem`. -/
def ParticleSystem.destroyParticles : List SimpleParticle → World → World
  | [], world => world
  | p :: rest, world =>
    ParticleSystem.destroyParticles rest (if p.dead = false then world.DestroyBody p.body
      else world)

/-- The destructor `ParticleSystem::~ParticleSystem`. -/
def ParticleSystem.destructor (ps : ParticleSystem) (world : World) : World :=
  ParticleSystem.destroyParticles ps.mParticles world

/-- The greatest of the numbers of a list (0 for the empty list). -/
def greatest : List Int → Int
  | [] => 0
  | [x] => x
  | x :: y :: rest => max x (greatest (y :: rest))

/-- A particle after updates at the ages `ages`, in closed form: it is dead when it was dead
before or one of the ages exceeds its lifetime. -/
def SimpleParticle.after (p : SimpleParticle) (ages : List Time) : SimpleParticle :=
  { p with dead := p.dead || ages.any (fun a => decide (a.micros > p.lifeTime.micros)) }

/-- The number of particles of a list that are not dead and have the body `h`. -/
def ParticleSystem.pending (h : Nat) (ps : List SimpleParticle) : Nat :=
  ps.countP (fun p => decide (p.body = h) && !p.dead)

/-- A particle system constructed in `world` and then updated at the given ages: the state,
the world, and for each update whether `kill` was called. -/
def ParticleSystem.lifecycle (world : World) (randomLifetime : Nat → Int) (count : Nat)
    (ages : List Time) : ParticleSystem × World × List Bool :=
  let s := ParticleSystem.new world randomLifetime count
  s.1.updates s.2 ages

/-- The termination time of the spec, `min(max(L1..LN), C)`, in microseconds. -/
def ParticleSystem.terminationAge (lifetimes : List Time) (ceiling : Time) : Int :=
  min (greatest (lifetimes.map Time.micros)) ceiling.micros

/-! ## Property trees -/

/-- A `boost::property_tree::ptree`: a data string and an ordered list of keyed children.
The XML reader stores the attributes of an element under the child `<xmlattr>`. -/
inductive PTree where
  | node (data : String) (children : List (String × PTree))

/-- The data string of a node. -/
def PTree.data : PTree → String
  | .node d _ => d

/-- The children of a node, in document order. -/
def PTree.children : PTree → List (String × PTree)
  | .node _ cs => cs

/-- The first child with the given key. -/
def PTree.find (t : PTree) (key : String) : Option PTree :=
  match t.children.find? (fun kv => decide (kv.1 = key)) with
  | some kv => some kv.2
  | none => none

/-- The method `get_child` along a path of keys; `none` stands for `ptree_bad_path`. -/
def PTree.get_child (t : PTree) : List String → Option PTree
  | [] => some t
  | k :: ks =>
    match t.find k with
    | none => none
    | some child => child.get_child ks

/-- The method `count`: the number of children with the given key. -/
def PTree.count (t : PTree) (key : String) : Nat :=
  (t.children.filter (fun kv => decide (kv.1 = key))).length

/-- The method `get<T>(path)` for a translator `tr`; `none` stands for a thrown
`ptree_error` (`ptree_bad_path` for a missing node, `ptree_bad_data` for a failed
translation). -/
def PTree.get {α : Type} (t : PTree) (path : List String) (tr : String → Option α) :
    Option α :=
  match t.get_child path with
  | none => none
  | some child => tr child.data

/-- The method `get<std::string>(path)`. -/
def PTree.getString (t : PTree) (path : List String) : Option String :=
  t.get path some

/-- The method `get<T>(path, default)`: the default replaces a missing node and a failed
translation alike. -/
def PTree.getD {α : Type} (t : PTree) (path : List String) (tr : String → Option α)
    (dflt : α) : α :=
  match t.get path tr with
  | none => dflt
  | some v => v

/-- The translators `boost::property_tree` applies to attribute strings, one per target
type (library code, taken as given). -/
structure Translators where
  toInt : String → Option Int
  toInt64 : String → Option Int
  toUInt32 : String → Option Nat
  toFloat : String → Option ℚ
  toBool : String → Option Bool
  toShape : String → Option BodyShapeType

/-- The function `boost::algorithm::to_lower` on ASCII text. -/
def to_lower (s : String) : String :=
  String.mk (s.data.map Char.toLower)

/-! ## The environment of a load -/

/-- What the evaluation of a descriptor takes from outside the sources at hand: constants,
the translators, and the loading of images. -/
structure Library where
  consts : Consts
  tr : Translators
  /-- The method `sf::Texture::loadFromFile`; `none` when it returns false. -/
  loadFromFile : String → Option Texture

/-- What `Level::loadZip` obtains from outside the sources at hand: in addition, the file
system, the codec functions and the memory the decompression buffer is allocated in. -/
structure Env extends Library where
  /-- The setting `gLocalSettings().levelsDir()`. -/
  levelsDir : String
  /-- The file name without directory and extension (`PathStripPath` and
  `PathRemoveExtension`, resp. `basename`). -/
  stripPath : String → String
  /-- The names of the items of the archive; `none` when it cannot be opened. -/
  openZip : String → Option (List String)
  /-- Whether changing into the level directory fails (LINUX_AMD64 build; constantly
  `false` describes the WIN32 build, which has no such step). -/
  chdirFails : String → Bool
  fileExists : String → Bool
  /-- The function `read_xml`; `none` stands for `xml_parser_error`. -/
  read_xml : String → Option PTree
  /-- The function `base64_decode`: the decoded bytes, `none` for a null pointer. -/
  base64_decode : String → Option (List Nat)
  /-- The function `uncompress` of zlib for a destination of the given capacity: the
  return code and the bytes written (`destLen` is their number). -/
  uncompress : List Nat → Nat → Int × List Nat
  /-- The byte found at each offset from the start of the freshly allocated buffer
  `mapData` before anything is written to it. -/
  residue : Nat → Nat

/-- The return code `Z_OK`. -/
def Z_OK : Int := 0

/-- The constant `CHUNKSIZE`. -/
def CHUNKSIZE : Nat := 128 * 1024

/-- The exceptions other than `ptree_error` that the calls in `Level::loadZip` throw. -/
inductive StdException where
  | invalid_argument
  | length_error
  deriving DecidableEq, Repr

/-- How a call of `Level::loadZip` ends, with the level it leaves behind. -/
inductive Outcome where
  /-- The call returns to the caller. -/
  | done (l : Level)
  /-- An exception leaves the call. -/
  | escaped (e : StdException) (l : Level)
  /-- The call writes outside the tile table. -/
  | undefined (l : Level)
  deriving DecidableEq, Repr

/-- How the body of the second `try` block of `Level::loadZip` is left. -/
inductive Flow where
  /-- Control reaches the next statement. -/
  | next (l : Level)
  /-- A `return` statement is executed. -/
  | returned (l : Level)
  /-- A `ptree_error` is thrown (and caught by the handler of the block). -/
  | ptreeError (l : Level)
  /-- Another exception is thrown. -/
  | thrown (e : StdException) (l : Level)
  /-- A write outside the tile table. -/
  | undefined (l : Level)
  deriving DecidableEq, Repr

/-- Sequencing of statements. -/
def Flow.andThen (f : Flow) (k : Level → Flow) : Flow :=
  match f with
  | .next l => k l
  | other => other

/-! ## Level::loadZip -/

/-- The archive loop of `Level::loadZip`: the descriptor is the last item ending in `.tmx`,
the music the last item ending in `.ogg`. -/
def scanItems (levelPath : String) : List String → String × Option String →
    String × Option String
  | [], acc => acc
  | currentItemName :: rest, (levelFilename, music) =>
    if ".tmx".data.isSuffixOf currentItemName.data then
      scanItems levelPath rest (levelPath ++ "/" ++ currentItemName, music)
    else if ".ogg".data.isSuffixOf currentItemName.data then
      scanItems levelPath rest (levelFilename, some (levelPath ++ "/" ++ currentItemName))
    else
      scanItems levelPath rest (levelFilename, music)

/-- The path `<xmlattr>.value` of the value attribute of a property element. -/
def valuePath : List String := ["<xmlattr>", "value"]

/-- One `property` element of `map.properties`, with its lower-cased name. -/
def Level.evalMapProperty (env : Library) (l : Level) (propName : String) (property : PTree) :
    Level :=
  if propName = "credits" then
    { l with mCredits := property.getD valuePath some "" }
  else if propName = "author" then
    { l with mAuthor := property.getD valuePath some "" }
  else if propName = "copyright" then
    { l with mCopyright := property.getD valuePath some "" }
  else if propName = "name" then
    { l with mName := property.getD valuePath some "" }
  else if propName = "gravity" then
    { l with mGravity := property.getD valuePath env.tr.toFloat (981 / 100) }
  else if propName = "wallrestitution" then
    { l with mWallRestitution := property.getD valuePath env.tr.toFloat 1 }
  else if propName = "explosionparticlescollidewithball" then
    { l with mExplosionParticlesCollideWithBall := property.getD valuePath env.tr.toBool false }
  else if propName = "killingspreebonus" then
    { l with mKillingSpreeBonus :=
        property.getD valuePath env.tr.toInt env.consts.DefaultKillingSpreeBonus }
  else if propName = "killingspreeinterval" then
    { l with mKillingSpreeInterval :=
        milliseconds (property.getD valuePath env.tr.toInt
          env.consts.DefaultKillingSpreeInterval.asMilliseconds) }
  else if propName = "killingsperkillingspree" then
    { l with mKillingsPerKillingSpree :=
        property.getD valuePath env.tr.toInt env.consts.DefaultKillingsPerKillingSpree }
  else
    l

/-- The loop over `map.properties`.  A property element without a name attribute throws a
`ptree_error`, which ends the whole first `try` block. -/
def Level.evalMapProperties (env : Library) : List (String × PTree) → Level → Level
  | [], l => l
  | (key, property) :: rest, l =>
    if key = "property" then
      match property.getString ["<xmlattr>", "name"] with
      | none => l
      | some propName =>
        Level.evalMapProperties env rest (l.evalMapProperty env (to_lower propName) property)
    else
      Level.evalMapProperties env rest l

/-- The first `try` block of `Level::loadZip` ("evaluate level properties"), whose handler
swallows any `ptree_error`. -/
def Level.evalLevelProperties (env : Library) (pt : PTree) (l : Level) : Level :=
  let l1 : Level :=
    { l with
      mMapData := []
      mGravity := Level.DefaultGravity
      mWallRestitution := Level.DefaultWallRestitution
      mCredits := ""
      mAuthor := ""
      mCopyright := ""
      mInfo := ""
      mBackgroundColor := Color.Black
      mKillingsPerKillingSpree := env.consts.DefaultKillingsPerKillingSpree
      mKillingSpreeBonus := env.consts.DefaultKillingSpreeBonus
      mKillingSpreeInterval := env.consts.DefaultKillingSpreeInterval
      mExplosionParticlesCollideWithBall := false }
  match pt.get_child ["map", "properties"] with
  | none => l1
  | some layerProperties => Level.evalMapProperties env layerProperties.children l1

/-- The function `isspace` of the C locale. -/
def isspace (c : Char) : Bool :=
  c = ' ' || c = '\t' || c = '\n' || c = '\x0b' || c = '\x0c' || c = '\r'

/-- The value of a hexadecimal digit. -/
def hexDigit (c : Char) : Option Nat :=
  if '0' ≤ c ∧ c ≤ '9' then some (c.toNat - '0'.toNat)
  else if 'a' ≤ c ∧ c ≤ 'f' then some (c.toNat - 'a'.toNat + 10)
  else if 'A' ≤ c ∧ c ≤ 'F' then some (c.toNat - 'A'.toNat + 10)
  else none

/-- The number the leading hexadecimal digits of a text denote. -/
def hexValue : List Char → Nat → Nat
  | [], acc => acc
  | c :: cs, acc =>
    match hexDigit c with
    | some d => hexValue cs (16 * acc + d)
    | none => acc

/-- The call `std::stoul(str, 0, 16)` followed by the conversion to `uint32_t`: leading
white space, an optional sign and an optional `0x` are skipped and the hexadecimal digits
that follow are read; `none` stands for `std::invalid_argument`, thrown when no digit can
be read.  Texts of at most eight digits, as the call site passes, do not overflow. -/
def stoul16 (str : String) : Option Nat :=
  let s1 := str.data.dropWhile isspace
  let signed : Bool × List Char :=
    match s1 with
    | '-' :: r => (true, r)
    | '+' :: r => (false, r)
    | _ => (false, s1)
  let s3 : List Char :=
    match signed.2 with
    | '0' :: x :: d :: r =>
      if (x = 'x' ∨ x = 'X') ∧ (hexDigit d).isSome then d :: r else signed.2
    | _ => signed.2
  match s3 with
  | [] => none
  | c :: _ =>
    if (hexDigit c).isNone then none
    else
      let v := hexValue s3 0 % 2 ^ 32
      some (if signed.1 then (2 ^ 32 - v) % 2 ^ 32 else v)

/-- The background colour attribute, inside its own `try` block whose handler swallows a
`ptree_error` only. -/
def Level.evalBackgroundColor (pt : PTree) (l : Level) : Flow :=
  match pt.getString ["map", "<xmlattr>", "backgroundcolor"] with
  | none => .next l
  | some bgColor =>
    if bgColor.utf8ByteSize = 7 ∧ bgColor.data.head? = some '#' then
      match stoul16 (String.mk (bgColor.data.drop 1)) with
      | none => .thrown .invalid_argument l
      | some rgb =>
        let r := (rgb >>> 16) &&& 0xff
        let g := (rgb >>> 8) &&& 0xff
        let b := rgb &&& 0xff
        .next { l with mBackgroundColor := ⟨r, g, b, 255⟩ }
    else
      .next l

/-- The byte at offset `i` of the buffer `mapData` after `uncompress` has written
`written` to its start. -/
def bufferByte (env : Env) (written : List Nat) (i : Nat) : Nat :=
  match written[i]? with
  | some b => b % 256
  | none => env.residue i % 256

/-- The value `*(mapData + i)`: the `uint32_t` at word index `i` of the buffer
(little-endian host). -/
def bufferWord (env : Env) (written : List Nat) (i : Nat) : Nat :=
  bufferByte env written (4 * i) + 2 ^ 8 * bufferByte env written (4 * i + 1)
    + 2 ^ 16 * bufferByte env written (4 * i + 2) + 2 ^ 24 * bufferByte env written (4 * i + 3)

/-- Decoding and inflating the tile-grid payload, up to and including `if (!ok) return;`.
The loop pushes `*(mapData + i)` for every `i` below `mapDataSize`, the number of bytes
written. -/
def Level.decodeMapData (env : Env) (mapDataB64 : String) (l : Level) : Flow :=
  match env.base64_decode mapDataB64 with
  | none => .next l
  | some compressed =>
    if compressed.length > 0 then
      let rc := (env.uncompress compressed CHUNKSIZE).1
      let written := (env.uncompress compressed CHUNKSIZE).2
      if rc = Z_OK then
        let mapDataSize := written.length
        .next { l with
          mMapData := l.mMapData ++ (List.range mapDataSize).map (bufferWord env written) }
      else
        .returned l
    else
      .next l

/-- The background image layer, inside its own `try` block. -/
def Level.evalBackgroundImage (env : Library) (levelPath : String) (pt : PTree) (l : Level) :
    Level :=
  let visible := pt.getD ["map", "layer", "imagelayer", "<xmlattr>", "visible"] env.tr.toBool true
  let l1 : Level := { l with mBackgroundVisible := visible }
  if visible then
    match pt.getString ["map", "imagelayer", "image", "<xmlattr>", "source"] with
    | none => l1
    | some source =>
      let texture :=
        match env.loadFromFile (levelPath ++ "/" ++ source) with
        | some t => some t
        | none => l1.mBackgroundTexture
      { l1 with
        mBackgroundTexture := texture
        mBackgroundImageOpacity :=
          pt.getD ["map", "imagelayer", "<xmlattr>", "opacity"] env.tr.toFloat 1 }
  else
    l1

/-- The boundary object, inside its own `try` block: the members are assigned one by one
until an attribute is missing or not a number. -/
def Level.evalBoundary (env : Library) (pt : PTree) (l : Level) : Level :=
  let l0 : Level := { l with mBoundary := Boundary.new }
  match pt.get_child ["map", "objectgroup", "object"] with
  | none => l0
  | some object =>
    match object.get ["<xmlattr>", "x"] env.tr.toInt with
    | none => l0
    | some x =>
      let l1 : Level := { l0 with mBoundary := { l0.mBoundary with left := x } }
      match object.get ["<xmlattr>", "y"] env.tr.toInt with
      | none => l1
      | some y =>
        let l2 : Level := { l1 with mBoundary := { l1.mBoundary with top := y } }
        match object.get ["<xmlattr>", "width"] env.tr.toInt with
        | none => l2
        | some width =>
          let l3 : Level :=
            { l2 with mBoundary := { l2.mBoundary with right := l2.mBoundary.left + width } }
          match object.get ["<xmlattr>", "height"] env.tr.toInt with
          | none => l3
          | some height =>
            { l3 with
              mBoundary :=
                { l3.mBoundary with bottom := l3.mBoundary.top + height, valid := true } }

/-- One `property` element of a tile, with its lower-cased name; `none` stands for a
`ptree_error` (thrown only by a `name` property without value). -/
def evalTileProperty (env : Library) (tileParam : TileParam) (propName : String)
    (property : PTree) : Option TileParam :=
  if propName = "name" then
    match property.getString valuePath with
    | none => none
    | some v => some { tileParam with textureName := v }
  else if propName = "points" then
    some { tileParam with score := property.getD valuePath env.tr.toInt64 0 }
  else if propName = "fixed" then
    some { tileParam with fixed := some (property.getD valuePath env.tr.toBool false) }
  else if propName = "friction" then
    some { tileParam with friction := some (property.getD valuePath env.tr.toFloat (5 / 10)) }
  else if propName = "lineardamping" then
    some { tileParam with linearDamping := some (property.getD valuePath env.tr.toFloat 5) }
  else if propName = "angulardamping" then
    some { tileParam with angularDamping := some (property.getD valuePath env.tr.toFloat (4 / 10)) }
  else if propName = "restitution" then
    some { tileParam with restitution := some (property.getD valuePath env.tr.toFloat 1) }
  else if propName = "density" then
    some { tileParam with density := some (property.getD valuePath env.tr.toFloat 20) }
  else if propName = "gravityscale" then
    some { tileParam with gravityScale := property.getD valuePath env.tr.toFloat 1 }
  else if propName = "scalegravityby" then
    some { tileParam with scaleGravityBy := property.getD valuePath env.tr.toFloat 0 }
  else if propName = "scalegravityseconds" then
    some { tileParam with
      scaleGravityDuration := seconds (property.getD valuePath env.tr.toFloat 0) }
  else if propName = "scaleballdensityby" then
    some { tileParam with scaleBallDensityBy := property.getD valuePath env.tr.toFloat 0 }
  else if propName = "scaleballdensityseconds" then
    some { tileParam with
      scaleBallDensityDuration := seconds (property.getD valuePath env.tr.toFloat 0) }
  else if propName = "minimumhitimpulse" then
    some { tileParam with minimumHitImpulse := property.getD valuePath env.tr.toInt 5 }
  else if propName = "minimumkillimpulse" then
    some { tileParam with minimumKillImpulse := property.getD valuePath env.tr.toInt 50 }
  else if propName = "smooth" then
    some { tileParam with smooth := property.getD valuePath env.tr.toBool true }
  else if propName = "earthquakeseconds" then
    some { tileParam with earthquakeDuration := seconds (property.getD valuePath env.tr.toFloat 0) }
  else if propName = "earthquakeintensity" then
    some { tileParam with
      earthquakeIntensity := (5 / 100) * property.getD valuePath env.tr.toFloat 0 }
  else if propName = "impulse" then
    some { tileParam with bumperImpulse := property.getD valuePath env.tr.toFloat 20 }
  else if propName = "multiball" then
    some { tileParam with multiball := property.getD valuePath env.tr.toBool false }
  else if propName = "shape" then
    some { tileParam with
      shapeType := property.getD valuePath env.tr.toShape BodyShapeType.CircleShape }
  else
    some tileParam

/-- The body of the loop over the properties of a tile.  Each property is evaluated in a
`try` block of its own: a `ptree_error` skips that property only. -/
def evalTilePropertyElement (env : Library) (tileParam : TileParam) (pi : String × PTree) :
    TileParam :=
  if pi.1 = "property" then
    match pi.2.getString ["<xmlattr>", "name"] with
    | none => tileParam
    | some propName =>
      match evalTileProperty env tileParam (to_lower propName) pi.2 with
      | none => tileParam
      | some tileParam2 => tileParam2
  else
    tileParam

/-- The loop over the properties of a tile, in document order. -/
def evalTileProperties (env : Library) (tileProperties : List (String × PTree))
    (tileParam : TileParam) : TileParam :=
  tileProperties.foldl (evalTilePropertyElement env) tileParam

/-- The statement after the property loop: an absent `fixed` is derived from the name. -/
def defaultFixed (env : Library) (tileParam : TileParam) : TileParam :=
  if tileParam.fixed.isSome then tileParam
  else
    { tileParam with
      fixed := some (decide (tileParam.textureName = Wall.Name)
        || decide (tileParam.textureName = env.consts.BumperName)) }

/-- The method `std::vector::resize`: the table is cut or filled up with default-constructed
elements. -/
def resize {α : Type} (v : List α) (n : Nat) (dflt : α) : List α :=
  v.take n ++ List.replicate (n - v.length) dflt

/-- The conversion of the `uint32_t` sum `mFirstGID + id` to `int` (two's complement). -/
def toInt32 (n : Int) : Int :=
  (n + 2 ^ 31).emod (2 ^ 32) - 2 ^ 31

/-- The properties of a tile record as the loop and the statement after it leave them. -/
def parseTileProperties (env : Library) (texture : Texture) (tileProperties : PTree) :
    TileParam :=
  defaultFixed env
    (evalTileProperties env tileProperties.children
      { env.consts.newTileParam with texture := texture })

/-- The body of the loop over the children of the tileset for a `tile` element. -/
def Level.evalTile (env : Library) (levelPath : String) (tile : PTree) (l : Level) : Flow :=
  match tile.get ["<xmlattr>", "id"] env.tr.toInt with
  | none => .ptreeError l
  | some localId =>
    let id : Int := toInt32 ((l.mFirstGID : Int) + localId)
    if id + 1 < 0 then .thrown .length_error l
    else
      let l1 : Level :=
        { l with mTiles := resize l.mTiles (id + 1).toNat env.consts.newTileParam }
      match tile.getString ["image", "<xmlattr>", "source"] with
      | none => .ptreeError l1
      | some source =>
        match env.loadFromFile (levelPath ++ "/" ++ source) with
        | none => .returned l1
        | some texture =>
          match tile.get_child ["properties"] with
          | none => .ptreeError l1
          | some tileProperties =>
            let tileParam := parseTileProperties env texture tileProperties
            if id < 0 then .undefined l1
            else .next { l1 with mTiles := l1.mTiles.set id.toNat tileParam }

/-- The loop over the children of the tileset. -/
def Level.evalTiles (env : Library) (levelPath : String) : List (String × PTree) → Level → Flow
  | [], l => .next l
  | (key, tile) :: rest, l =>
    if key = "tile" then
      (l.evalTile env levelPath tile).andThen (Level.evalTiles env levelPath rest)
    else
      Level.evalTiles env levelPath rest l

/-- The tileset: first global id, sizing of the tile table, and the tiles. -/
def Level.evalTileset (env : Library) (levelPath : String) (pt : PTree) (l : Level) : Flow :=
  match pt.get_child ["map", "tileset"] with
  | none => .ptreeError l
  | some tileset =>
    match tileset.get ["<xmlattr>", "firstgid"] env.tr.toUInt32 with
    | none => .ptreeError l
    | some firstgid =>
      let l1 : Level := { l with mFirstGID := firstgid }
      let l2 : Level :=
        { l1 with
          mTiles := resize l1.mTiles (tileset.count "tile" + l1.mFirstGID)
            env.consts.newTileParam }
      Level.evalTiles env levelPath tileset.children l2

/-- The second `try` block of `Level::loadZip`. -/
def Level.parseMap (env : Env) (levelPath : String) (pt : PTree) (l : Level) : Flow :=
  match pt.getString ["map", "layer", "data"] with
  | none => .ptreeError l
  | some mapDataB64 =>
    match pt.get ["map", "<xmlattr>", "tilewidth"] env.tr.toInt with
    | none => .ptreeError l
    | some tilewidth =>
      let l1 : Level := { l with mTileWidth := tilewidth }
      match pt.get ["map", "<xmlattr>", "tileheight"] env.tr.toInt with
      | none => .ptreeError l1
      | some tileheight =>
        let l2 : Level := { l1 with mTileHeight := tileheight }
        match pt.get ["map", "<xmlattr>", "width"] env.tr.toInt with
        | none => .ptreeError l2
        | some width =>
          let l3 : Level := { l2 with mNumTilesX := width }
          match pt.get ["map", "<xmlattr>", "height"] env.tr.toInt with
          | none => .ptreeError l3
          | some height =>
            let l4 : Level := { l3 with mNumTilesY := height }
            ((l4.evalBackgroundColor pt).andThen (Level.decodeMapData env mapDataB64)).andThen
              fun l5 =>
                ((l5.evalBackgroundImage env.toLibrary levelPath pt).evalBoundary
                  env.toLibrary pt).evalTileset env.toLibrary levelPath pt

/-- The end of `Level::loadZip` for each way the second `try` block is left: its handler
turns a `ptree_error` into `ok = false`, and `mSuccessfullyLoaded = ok` follows unless a
`return` or another exception has left the function before. -/
def Flow.toOutcome : Flow → Outcome
  | .next l => .done { l with mSuccessfullyLoaded := true }
  | .ptreeError l => .done { l with mSuccessfullyLoaded := false }
  | .returned l => .done l
  | .thrown e l => .escaped e l
  | .undefined l => .undefined l

/-- The directory the archive is extracted to (`levelPath`): empty while the archive
cannot be opened. -/
def extractionPath (env : Env) (zipFilename : String) : String :=
  match env.openZip zipFilename with
  | some _ => env.levelsDir ++ "/" ++ env.stripPath zipFilename
  | none => ""

/-- The descriptor file (`levelFilename`) and the music file found in the archive. -/
def extractedFiles (env : Env) (zipFilename : String) : String × Option String :=
  match env.openZip zipFilename with
  | some items => scanItems (extractionPath env zipFilename) items ("", none)
  | none => ("", none)

/-- Whether the LINUX_AMD64 build leaves the function because the level directory cannot be
entered. -/
def chdirAborts (env : Env) (zipFilename : String) : Bool :=
  (env.openZip zipFilename).isSome && env.chdirFails (extractionPath env zipFilename)

/-- The method `Level::loadZip`.  The hash of the archive (`calcSHA1`) is left out. -/
def Level.loadZip (env : Env) (l : Level) (zipFilename : String) : Outcome :=
  let l1 : Level :=
    { l with mSuccessfullyLoaded := false, mMusic := none, mName := env.stripPath zipFilename }
  let levelPath : String := extractionPath env zipFilename
  if chdirAborts env zipFilename = true then .done l1
  else
    let levelFilename := (extractedFiles env zipFilename).1
    let l2 : Level := { l1 with mMusic := (extractedFiles env zipFilename).2 }
    if env.fileExists levelFilename = false then .done l2
    else
      let l3 : Level := { l2 with mBackgroundImageOpacity := 1 }
      match env.read_xml levelFilename with
      | none => .done l3
      | some pt =>
        ((l3.evalLevelProperties env.toLibrary pt).parseMap env levelPath pt).toOutcome

/-- The level an outcome leaves behind. -/
def Outcome.level : Outcome → Level
  | .done l => l
  | .escaped _ l => l
  | .undefined l => l

/-- Whether the call returned to its caller. -/
def Outcome.isDone : Outcome → Bool
  | .done _ => true
  | _ => false

/-- Whether a property element is a `property` whose lower-cased name is `name`. -/
def namesProperty (name : String) (pi : String × PTree) : Bool :=
  decide (pi.1 = "property") &&
    match pi.2.getString ["<xmlattr>", "name"] with
    | none => false
    | some propName => decide (to_lower propName = name)

/-- The exception that leaves the call, if any. -/
def Outcome.exception : Outcome → Option StdException
  | .escaped e _ => some e
  | _ => none

/-- The level a flow carries. -/
def Flow.level : Flow → Level
  | .next l => l
  | .returned l => l
  | .ptreeError l => l
  | .thrown _ l => l
  | .undefined l => l

/-- Whether control reaches the next statement. -/
def Flow.isNext : Flow → Bool
  | .next _ => true
  | _ => false

/-- The optional material parameters of a tile as `Level::loadZip` reads them: the
lower-cased property name, the member of `TileParam` it is assigned to, and the fallback
value the source passes to `get` for it. -/
def optionalParameters : List (String × (TileParam → Option ℚ) × ℚ) :=
  [("density", TileParam.density, 20),
    ("friction", TileParam.friction, 5 / 10),
    ("restitution", TileParam.restitution, 1),
    ("lineardamping", TileParam.linearDamping, 5),
    ("angulardamping", TileParam.angularDamping, 4 / 10)]

/-! ## Edits of a descriptor -/

/-- A list with one more element, put in before position `n` (at the end when the list is
shorter). -/
def insertAt {α : Type} (x : α) (n : Nat) (xs : List α) : List α :=
  xs.take n ++ x :: xs.drop n

/-- A node with its list of children changed. -/
def PTree.mapChildren (f : List (String × PTree) → List (String × PTree)) : PTree → PTree
  | .node d cs => .node d (f cs)

/-- The children with `f` applied to the first child of the given key, the one `find`
answers. -/
def replaceFirst (key : String) (f : PTree → PTree) :
    List (String × PTree) → List (String × PTree)
  | [] => []
  | kv :: rest =>
    if kv.1 = key then (kv.1, f kv.2) :: rest else kv :: replaceFirst key f rest

/-- The tree with `f` applied to the node `get_child` answers for the path. -/
def PTree.modifyAt : List String → (PTree → PTree) → PTree → PTree
  | [], f => f
  | k :: ks, f => PTree.mapChildren (replaceFirst k (PTree.modifyAt ks f))

/-- The children with `f` applied to the child at position `i`. -/
def modifyChild (f : PTree → PTree) : Nat → List (String × PTree) → List (String × PTree)
  | _, [] => []
  | 0, kv :: rest => (kv.1, f kv.2) :: rest
  | i + 1, kv :: rest => kv :: modifyChild f i rest

/-- The descriptor with the element `pi` inserted before position `n` of the map-level
property list `map.properties`. -/
def insertMapProperty (pi : String × PTree) (n : Nat) (pt : PTree) : PTree :=
  pt.modifyAt ["map", "properties"] (PTree.mapChildren (insertAt pi n))

/-- The descriptor with the element `pi` inserted before position `n` of the property list
of the child at position `i` of the tileset `map.tileset`. -/
def insertTileProperty (pi : String × PTree) (i n : Nat) (pt : PTree) : PTree :=
  pt.modifyAt ["map", "tileset"]
    (PTree.mapChildren
      (modifyChild (PTree.modifyAt ["properties"] (PTree.mapChildren (insertAt pi n))) i))

/-- The environment in which the descriptor read is the edited one. -/
def Env.editDescriptor (env : Env) (edit : PTree → PTree) : Env :=
  { env with read_xml := fun filename => (env.read_xml filename).map edit }

/-- The property names the loop over `map.properties` compares with. -/
def mapPropertyNames : List String :=
  ["credits", "author", "copyright", "name", "gravity", "wallrestitution",
    "explosionparticlescollidewithball", "killingspreebonus", "killingspreeinterval",
    "killingsperkillingspree"]

/-- The property names the loop over the properties of a tile compares with. -/
def tilePropertyNames : List String :=
  ["name", "points", "fixed", "friction", "lineardamping", "angulardamping", "restitution",
    "density", "gravityscale", "scalegravityby", "scalegravityseconds", "scaleballdensityby",
    "scaleballdensityseconds", "minimumhitimpulse", "minimumkillimpulse", "smooth",
    "earthquakeseconds", "earthquakeintensity", "impulse", "multiball", "shape"]

/-! ## Sample data -/

/-- The attributes of an element. -/
def xmlattr (attrs : List (String × String)) : String × PTree :=
  ("<xmlattr>", .node "" (attrs.map fun kv => (kv.1, PTree.node kv.2 [])))

/-- A `property` element with a name and a value. -/
def propertyElement (name value : String) : String × PTree :=
  ("property", .node "" [xmlattr [("name", name), ("value", value)]])

/-- A `tile` element with an id, an image and properties. -/
def tileElement (id source : String) (properties : List (String × PTree)) : String × PTree :=
  ("tile", .node ""
    [xmlattr [("id", id)],
      ("image", .node "" [xmlattr [("source", source)]]),
      ("properties", .node "" properties)])

/-- A descriptor for a grid of the given width and height 1, with first global id 1. -/
def sampleDescriptor (mapAttrs : List (String × String)) (data : String)
    (tiles : List (String × PTree)) : PTree :=
  .node ""
    [("map", .node ""
      [xmlattr ([("tilewidth", "16"), ("tileheight", "16"), ("height", "1")] ++ mapAttrs),
        ("properties", .node "" [propertyElement "Gravity" "3"]),
        ("tileset", .node "" (xmlattr [("firstgid", "1")] :: tiles)),
        ("layer", .node "" [("data", .node data [])])])]

/-- A decimal digit. -/
def decimalDigit (c : Char) : Option Nat :=
  if '0' ≤ c ∧ c ≤ '9' then some (c.toNat - '0'.toNat) else none

/-- A text of decimal digits. -/
def decimalValue : List Char → Nat → Option Nat
  | [], acc => some acc
  | c :: cs, acc =>
    match decimalDigit c with
    | some d => decimalValue cs (10 * acc + d)
    | none => none

/-- A sample translator for unsigned numbers: decimal digits only. -/
def sampleToNat (s : String) : Option Nat :=
  match s.data with
  | [] => none
  | cs => decimalValue cs 0

/-- A sample translator for signed numbers: an optional minus sign and decimal digits. -/
def sampleToInt (s : String) : Option Int :=
  match s.data with
  | '-' :: cs =>
    match sampleToNat (String.mk cs) with
    | some n => some (-(n : Int))
    | none => none
  | _ =>
    match sampleToNat s with
    | some n => some (n : Int)
    | none => none

/-- Sample translators: whole numbers, and the two words for truth values. -/
def sampleTranslators : Translators :=
  { toInt := sampleToInt
    toInt64 := sampleToInt
    toUInt32 := sampleToNat
    toFloat := fun s =>
      match sampleToInt s with
      | some n => some (n : ℚ)
      | none => none
    toBool := fun s =>
      if s = "true" ∨ s = "1" then some true
      else if s = "false" ∨ s = "0" then some false
      else none
    toShape := fun _ => none }

/-- A tile definition with every optional parameter absent. -/
def sampleTileParam : TileParam :=
  { texture := ⟨4, 2⟩, textureName := "", score := 0, fixed := none, friction := none,
    linearDamping := none, angularDamping := none, restitution := none, density := none,
    gravityScale := 2, scaleGravityBy := 0, scaleGravityDuration := ⟨0⟩,
    scaleBallDensityBy := 0, scaleBallDensityDuration := ⟨0⟩, minimumHitImpulse := 1,
    minimumKillImpulse := 5, smooth := true, earthquakeDuration := ⟨0⟩,
    earthquakeIntensity := 0, bumperImpulse := 0, multiball := false,
    shapeType := .CircleShape }

/-- Sample values for the constants that are declared outside the sources at hand. -/
def sampleConsts : Consts :=
  { InvScale := 1, DefaultKillingsPerKillingSpree := 5, DefaultKillingSpreeBonus := 1000,
    DefaultKillingSpreeInterval := ⟨2500000⟩, BumperName := "Bumper",
    newTileParam := sampleTileParam }

/-- A level as `Level::Level(void)` leaves it, with the given tile table. -/
def sampleLevel (tiles : List TileParam) : Level :=
  { mBackgroundColor := Color.Black, mBackgroundVisible := true, mBackgroundImageOpacity := 1,
    mBackgroundTexture := none, mFirstGID := 0, mMapData := [], mNumTilesX := 40,
    mNumTilesY := 25, mTileWidth := 16, mTileHeight := 16, mLevelNum := 0,
    mGravity := Level.DefaultGravity, mWallRestitution := Level.DefaultWallRestitution,
    mExplosionParticlesCollideWithBall := false,
    mKillingsPerKillingSpree := sampleConsts.DefaultKillingsPerKillingSpree,
    mKillingSpreeBonus := sampleConsts.DefaultKillingSpreeBonus,
    mKillingSpreeInterval := sampleConsts.DefaultKillingSpreeInterval,
    mSuccessfullyLoaded := false, mMusic := none, mName := "", mCredits := "", mAuthor := "",
    mCopyright := "", mInfo := "", mBoundary := Boundary.new, mTiles := tiles }

/-- The block `Block::Block` builds from `sampleTileParam` on a 4 by 2 texture. -/
def sampleBlock : Block :=
  { mName := "Block", mTileParam := sampleTileParam, mScore := 0, mEnergy := 5, mAlive := true,
    mBody :=
      { type := .dynamicBody, angle := 0, linearDamping := 5, angularDamping := 5 / 10,
        gravityScale := 0, allowSleep := true, awake := false, fixedRotation := false,
        bullet := false,
        fixtures :=
          [⟨.box 1 1, 20, 71 / 100, 4 / 100⟩, ⟨.circle (-1) 0 1, 20, 71 / 100, 4 / 100⟩,
            ⟨.circle 1 0 1, 20, 71 / 100, 4 / 100⟩] },
    mGravityScale := 2, mMinimumHitImpulse := 1 }

/-- The deflate stream of the eight bytes of the two grid cells 1 and 0. -/
def sampleCompressed : List Nat := [120, 156, 99, 100, 128, 0, 0, 0, 16, 0, 2]

/-- Sample library: the sample constants and translators; only the image
`levels/0001/wall.png` can be loaded, and is 16 by 16 pixels. -/
def sampleLibrary : Library :=
  { consts := sampleConsts
    tr := sampleTranslators
    loadFromFile := fun f => if f = "levels/0001/wall.png" then some ⟨16, 16⟩ else none }

/-- A sample for `stripPath`: the text after the last `/`, up to its first `.`. -/
def sampleStripPath (path : String) : String :=
  String.mk (((path.data.reverse.takeWhile fun c => c ≠ '/').reverse).takeWhile
    fun c => c ≠ '.')

/-- A sample environment: the archive `0001.zip` holds `level.tmx`, read as `descriptor`,
and the image `wall.png`; the payload text `eJxjZIAAAAAQAAI=` decodes to
`sampleCompressed`, which inflates to the bytes 1 0 0 0 0 0 0 0; every byte of the fresh
buffer is 170. -/
def sampleEnv (descriptor : PTree) : Env :=
  { toLibrary := sampleLibrary
    levelsDir := "levels"
    stripPath := sampleStripPath
    openZip := fun f => if f = "levels/0001.zip" then some ["wall.png", "level.tmx"] else none
    chdirFails := fun _ => false
    fileExists := fun f => decide (f = "levels/0001/level.tmx")
    read_xml := fun f => if f = "levels/0001/level.tmx" then some descriptor else none
    base64_decode := fun s => if s = "eJxjZIAAAAAQAAI=" then some sampleCompressed else some []
    uncompress := fun src _ =>
      if src = sampleCompressed then (Z_OK, [1, 0, 0, 0, 0, 0, 0, 0]) else (-3, [])
    residue := fun _ => 170 }

/-- The `tile` element of the end-to-end scenario: a tile named Wall without physics
properties. -/
def wallTile (id : String) : String × PTree :=
  tileElement id "wall.png" [propertyElement "Name" "Wall"]

/-- The payload text of the sample grid. -/
def samplePayload : String := "eJxjZIAAAAAQAAI="

/-- The descriptor of the end-to-end scenario: a grid 2 by 1, first global id 1, one tile
named Wall, and a payload that decodes to the cells 1 and 0. -/
def scenarioDescriptor : PTree :=
  sampleDescriptor [("width", "2")] samplePayload [wallTile "0"]

/-- A descriptor without tileset, with the sample payload. -/
def descriptorWithoutTileset : PTree :=
  .node ""
    [("map", .node ""
      [xmlattr [("tilewidth", "16"), ("tileheight", "16"), ("height", "1"), ("width", "2")],
        ("layer", .node "" [("data", .node samplePayload [])])])]

/-- A level that has been loaded before: it holds the tile grid 7, 7 and one tile. -/
def loadedLevel : Level :=
  { sampleLevel [sampleTileParam] with
    mMapData := [7, 7], mSuccessfullyLoaded := true, mFirstGID := 1, mName := "0000" }

/-- A tile definition whose texture is taller than wide: 16 by 32 pixels. -/
def tallTileParam : TileParam :=
  { sampleTileParam with texture := ⟨16, 32⟩ }

/-- The end-to-end scenario with a boundary object at (1, 2), 30 wide and 20 high. -/
def boundaryDescriptor : PTree :=
  .node ""
    [("map", .node ""
      [xmlattr [("tilewidth", "16"), ("tileheight", "16"), ("height", "1"), ("width", "2")],
        ("tileset", .node "" [xmlattr [("firstgid", "1")], wallTile "0"]),
        ("layer", .node "" [("data", .node samplePayload [])]),
        ("objectgroup", .node ""
          [("object", .node ""
            [xmlattr [("x", "1"), ("y", "2"), ("width", "30"), ("height", "20")]])])])]

/-- A `property` element with a name but without value attribute. -/
def propertyWithoutValue (name : String) : String × PTree :=
  ("property", .node "" [xmlattr [("name", name)]])

/-- A world in which three bodies have been created and the first one destroyed. -/
def sampleWorld : World := ⟨3, [0]⟩

/-- Lifetimes of 600 ms, 900 ms, 1200 ms, ... for the particles 0, 1, 2, ... -/
def sampleLifetime (i : Nat) : Int := 600 + 300 * i

/-- Ages of four updates, not in increasing order. -/
def sampleAges : List Time := [milliseconds 500, milliseconds 700, milliseconds 650,
  milliseconds 950]

/-- Ages of four updates in increasing order. -/
def increasingAges : List Time := [milliseconds 500, milliseconds 700, milliseconds 950,
  milliseconds 1200]

/-! ## Theorems -/

/-! ### Block::hit -/

theorem Body.hit_flag (b : Body) (v : Int) : (b.hit v).2 = decide (b.mEnergy ≤ v) := by
  unfold Body.hit
  by_cases h : b.mEnergy - v ≤ 0
  · have h2 : b.mEnergy ≤ v := by omega
    simp [h, h2]
  · have h2 : ¬ b.mEnergy ≤ v := by omega
    simp [h, h2]

theorem Body.hit_remaining (b : Body) (v : Int) : (b.hit v).1.mEnergy = b.mEnergy - v := by
  unfold Body.hit
  by_cases h : b.mEnergy - v ≤ 0 <;> simp [h]

theorem Body.hit_mBody (b : Body) (v : Int) : (b.hit v).1.mBody = b.mBody := by
  unfold Body.hit
  by_cases h : b.mEnergy - v ≤ 0 <;> simp [h]

theorem Block.hit_snd (b : Block) (x : ℚ) :
    (b.hit x).2 = decide (b.mEnergy ≤ truncToInt x) := by
  unfold Block.hit
  simp only []
  split <;> exact Body.hit_flag _ _

theorem Block.hit_energy (b : Block) (x : ℚ) :
    (b.hit x).1.mEnergy = b.mEnergy - truncToInt x := by
  unfold Block.hit
  simp only []
  split <;> exact Body.hit_remaining _ _

theorem Block.hit_mGravityScale (b : Block) (x : ℚ) :
    (b.hit x).1.mGravityScale = b.mGravityScale := by
  unfold Block.hit
  simp only []
  split <;> rfl

theorem Block.hit_mMinimumHitImpulse (b : Block) (x : ℚ) :
    (b.hit x).1.mMinimumHitImpulse = b.mMinimumHitImpulse := by
  unfold Block.hit
  simp only []
  split <;> rfl

theorem Block.hitResults_length (b : Block) (xs : List ℚ) :
    (b.hitResults xs).length = xs.length := by
  induction xs generalizing b with
  | nil => rfl
  | cons x xs ih => simp [Block.hitResults, ih]

theorem Block.new_members (c : Consts) (level : Level) (index : Int) (tp : TileParam)
    (b : Block) (h : Block.new c level index tp = some b) :
    b.mEnergy = tp.minimumKillImpulse ∧ b.mGravityScale = tp.gravityScale ∧
      b.mMinimumHitImpulse = tp.minimumHitImpulse := by
  unfold Block.new at h
  cases hs : level.tileParam index with
  | none => simp [hs] at h
  | some slot =>
    simp only [hs, Option.some.injEq] at h
    subst h
    exact ⟨rfl, rfl, rfl⟩

theorem sampleBlock_new :
    Block.new sampleConsts (sampleLevel [sampleTileParam]) 0 sampleTileParam
      = some sampleBlock := by
  have hsub : unsignedSub 4 2 = 2 := by decide
  simp [Block.new, Level.tileParam, sampleLevel, sampleTileParam, sampleBlock, sampleConsts,
    B2Body.CreateFixture, hsub, Block.Name, Block.DefaultDensity, Block.DefaultFriction,
    Block.DefaultRestitution, Block.DefaultLinearDamping, Block.DefaultAngularDamping]

theorem truncToInt_intCast (n : Int) : truncToInt (n : ℚ) = n := by
  unfold truncToInt
  split <;> simp

theorem truncToInt_two : truncToInt 2 = 2 := by
  have h := truncToInt_intCast 2
  simpa using h

theorem truncToInt_three : truncToInt 3 = 3 := by
  have h := truncToInt_intCast 3
  simpa using h

/-- The values the conversion is defined for include 2, 3 and `2^31 - 1/2`; 3000000000 and
`-2^31 - 1` are outside. -/
theorem fitsInt_samples :
    fitsInt 2 ∧ fitsInt 3 ∧ fitsInt (2147483648 - 1 / 2) ∧ fitsInt (-2147483648) ∧
      ¬ fitsInt 3000000000 ∧ ¬ fitsInt 2147483648 ∧ ¬ fitsInt (-2147483649) := by
  unfold fitsInt
  norm_num

/-- The sample block is destroyed by the second of the impulses 2 and 3, not by the first. -/
theorem sampleBlock_hitResults : sampleBlock.hitResults [2, 3] = [false, true] := by
  simp [Block.hitResults, Block.hit_snd, Block.hit_energy, truncToInt_two, truncToInt_three,
    sampleBlock]

/-! ### The damage transition -/

theorem Block.hit_damaged (b : Block) (x : ℚ) (hd : (b.hit x).2 = false)
    (hx : b.mMinimumHitImpulse < truncToInt x) :
    (b.hit x).1.mBody.linearDamping = 0 ∧ (b.hit x).1.mBody.gravityScale = b.mGravityScale := by
  have hb : (b.toBody.hit (truncToInt x)).2 = false := by
    rw [Block.hit_snd] at hd
    rw [Body.hit_flag]
    exact hd
  unfold Block.hit
  simp [hb, hx, B2Body.SetLinearDamping, B2Body.SetGravityScale]

theorem Block.hit_keeps_damaged (b : Block) (x : ℚ) (h0 : b.mBody.linearDamping = 0)
    (hg : b.mBody.gravityScale = b.mGravityScale) :
    (b.hit x).1.mBody.linearDamping = 0 ∧
      (b.hit x).1.mBody.gravityScale = (b.hit x).1.mGravityScale := by
  unfold Block.hit
  simp only []
  split
  · simp [B2Body.SetLinearDamping, B2Body.SetGravityScale]
  · simp [Body.hit_mBody, h0, hg]

theorem Block.hits_keeps_damaged (xs : List ℚ) (b : Block) (h0 : b.mBody.linearDamping = 0)
    (hg : b.mBody.gravityScale = b.mGravityScale) :
    (b.hits xs).mBody.linearDamping = 0 ∧ (b.hits xs).mBody.gravityScale = b.mGravityScale := by
  induction xs generalizing b with
  | nil => exact ⟨h0, hg⟩
  | cons x xs ih =>
    have h := Block.hit_keeps_damaged b x h0 hg
    have h2 := ih (b.hit x).1 h.1 h.2
    rw [Block.hit_mGravityScale] at h2
    exact h2

theorem Block.hits_mGravityScale (xs : List ℚ) (b : Block) :
    (b.hits xs).mGravityScale = b.mGravityScale := by
  induction xs generalizing b with
  | nil => rfl
  | cons x xs ih => simp [Block.hits, ih, Block.hit_mGravityScale]

theorem Block.hits_mMinimumHitImpulse (xs : List ℚ) (b : Block) :
    (b.hits xs).mMinimumHitImpulse = b.mMinimumHitImpulse := by
  induction xs generalizing b with
  | nil => rfl
  | cons x xs ih => simp [Block.hits, ih, Block.hit_mMinimumHitImpulse]

/-- C2 (block damage transition).  For every block, a hit that does not destroy it and
whose truncated impulse is strictly greater than its minimum hit impulse leaves the body
with linear damping 0 and with gravity scale equal to the block's configured gravity scale;
after any further hits (in particular non-destroying ones, below the threshold or not)
linear damping and gravity scale still have exactly those values.  For a block built by
`Block::Block` from a tile definition, after any earlier hits, the threshold and the
configured gravity scale are the tile's `minimumHitImpulse` and `gravityScale`. -/
theorem Block.damage_transition (b : Block) (x : ℚ) (post : List ℚ)
    (hd : (b.hit x).2 = false) (hx : b.mMinimumHitImpulse < truncToInt x) :
    ((b.hit x).1.mBody.linearDamping = 0 ∧ (b.hit x).1.mBody.gravityScale = b.mGravityScale) ∧
    (((b.hit x).1.hits post).mBody.linearDamping = 0 ∧
      ((b.hit x).1.hits post).mBody.gravityScale = b.mGravityScale) ∧
    (∀ (c : Consts) (level : Level) (index : Int) (tp : TileParam) (b0 : Block)
      (pre : List ℚ), Block.new c level index tp = some b0 → b = b0.hits pre →
      b.mMinimumHitImpulse = tp.minimumHitImpulse ∧ b.mGravityScale = tp.gravityScale) := by
  have h1 := Block.hit_damaged b x hd hx
  have hG : (b.hit x).1.mGravityScale = b.mGravityScale := Block.hit_mGravityScale b x
  have h2 := Block.hits_keeps_damaged post (b.hit x).1 h1.1 (by rw [h1.2, hG])
  refine ⟨h1, ⟨h2.1, by rw [h2.2, hG]⟩, ?_⟩
  intro c level index tp b0 pre hnew hb
  obtain ⟨-, hG0, hM0⟩ := Block.new_members c level index tp b0 hnew
  rw [hb, Block.hits_mMinimumHitImpulse, Block.hits_mGravityScale]
  exact ⟨hM0, hG0⟩

/-- Witness for C2: the sample block (threshold 1, budget 5) hit by impulse 2, then 2. -/
theorem Block.damage_transition_witness :
    ((sampleBlock.hit 2).2 = false ∧ sampleBlock.mMinimumHitImpulse < truncToInt 2) ∧
    (((sampleBlock.hit 2).1.mBody.linearDamping = 0 ∧
      (sampleBlock.hit 2).1.mBody.gravityScale = sampleBlock.mGravityScale) ∧
    (((sampleBlock.hit 2).1.hits [2]).mBody.linearDamping = 0 ∧
      ((sampleBlock.hit 2).1.hits [2]).mBody.gravityScale = sampleBlock.mGravityScale) ∧
    (∀ (c : Consts) (level : Level) (index : Int) (tp : TileParam) (b0 : Block)
      (pre : List ℚ), Block.new c level index tp = some b0 → sampleBlock = b0.hits pre →
      sampleBlock.mMinimumHitImpulse = tp.minimumHitImpulse ∧
        sampleBlock.mGravityScale = tp.gravityScale)) :=
  have hd : (sampleBlock.hit 2).2 = false := by
    rw [Block.hit_snd, truncToInt_two]
    decide
  have hx : sampleBlock.mMinimumHitImpulse < truncToInt 2 := by
    rw [truncToInt_two]
    decide
  ⟨⟨hd, hx⟩, Block.damage_transition sampleBlock 2 [2] hd hx⟩

/-! ### Tile properties -/

theorem ite_some_imp {α : Type} (P : α → Prop) {c : Prop} [Decidable c] {a b : Option α}
    (ha : ∀ t, a = some t → P t) (hb : ∀ t, b = some t → P t) :
    ∀ t, (if c then a else b) = some t → P t := by
  intro t h
  split at h
  · exact ha t h
  · exact hb t h

theorem ite_some_neg {α : Type} (P : α → Prop) {c : Prop} [Decidable c] {a b : Option α}
    (hc : ¬ c) (hb : ∀ t, b = some t → P t) :
    ∀ t, (if c then a else b) = some t → P t := by
  intro t h
  rw [if_neg hc] at h
  exact hb t h

theorem evalTileProperty_fixed_eq (env : Library) (tp tp2 : TileParam) (propName : String)
    (property : PTree) (hn : propName ≠ "fixed")
    (h : evalTileProperty env tp propName property = some tp2) : tp2.fixed = tp.fixed := by
  revert tp2
  unfold evalTileProperty
  repeat' first
    | refine ite_some_neg (fun t : TileParam => t.fixed = tp.fixed) hn ?_
    | refine ite_some_imp (fun t : TileParam => t.fixed = tp.fixed) ?_ ?_
    | (intro t h; cases h; rfl)
    | (intro t h; cases hv : property.getString valuePath <;> simp only [hv] at h <;>
        cases h; rfl)

theorem evalTileProperty_name_eq (env : Library) (tp tp2 : TileParam) (propName : String)
    (property : PTree) (hn : propName ≠ "name")
    (h : evalTileProperty env tp propName property = some tp2) :
    tp2.textureName = tp.textureName := by
  revert tp2
  unfold evalTileProperty
  repeat' first
    | refine ite_some_neg (fun t : TileParam => t.textureName = tp.textureName) hn ?_
    | refine ite_some_imp (fun t : TileParam => t.textureName = tp.textureName) ?_ ?_
    | (intro t h; cases h; rfl)

theorem evalTilePropertyElement_fixed_eq (env : Library) (tp : TileParam) (pi : String × PTree)
    (hn : namesProperty "fixed" pi = false) :
    (evalTilePropertyElement env tp pi).fixed = tp.fixed := by
  unfold evalTilePropertyElement
  unfold namesProperty at hn
  by_cases hk : pi.1 = "property"
  · simp only [hk, if_true]
    cases hname : pi.2.getString ["<xmlattr>", "name"] with
    | none => rfl
    | some propName =>
      simp only [hk, hname, decide_True, Bool.true_and, decide_eq_false_iff_not] at hn
      simp only []
      cases hv : evalTileProperty env tp (to_lower propName) pi.2 with
      | none => rfl
      | some tp2 => exact evalTileProperty_fixed_eq env tp tp2 _ _ hn hv
  · simp [hk]

theorem evalTilePropertyElement_name_eq (env : Library) (tp : TileParam) (pi : String × PTree)
    (hn : namesProperty "name" pi = false) :
    (evalTilePropertyElement env tp pi).textureName = tp.textureName := by
  unfold evalTilePropertyElement
  unfold namesProperty at hn
  by_cases hk : pi.1 = "property"
  · simp only [hk, if_true]
    cases hname : pi.2.getString ["<xmlattr>", "name"] with
    | none => rfl
    | some propName =>
      simp only [hk, hname, decide_True, Bool.true_and, decide_eq_false_iff_not] at hn
      simp only []
      cases hv : evalTileProperty env tp (to_lower propName) pi.2 with
      | none => rfl
      | some tp2 => exact evalTileProperty_name_eq env tp tp2 _ _ hn hv
  · simp [hk]

theorem evalTileProperties_fixed_eq (env : Library) (props : List (String × PTree))
    (tp : TileParam) (hn : ∀ pi ∈ props, namesProperty "fixed" pi = false) :
    (evalTileProperties env props tp).fixed = tp.fixed := by
  induction props generalizing tp with
  | nil => rfl
  | cons pi rest ih =>
    simp only [evalTileProperties, List.foldl_cons] at ih ⊢
    rw [ih _ (fun q hq => hn q (List.mem_cons_of_mem _ hq))]
    exact evalTilePropertyElement_fixed_eq env tp pi (hn pi (List.mem_cons_self _ _))

theorem evalTileProperties_name_eq (env : Library) (props : List (String × PTree))
    (tp : TileParam) (hn : ∀ pi ∈ props, namesProperty "name" pi = false) :
    (evalTileProperties env props tp).textureName = tp.textureName := by
  induction props generalizing tp with
  | nil => rfl
  | cons pi rest ih =>
    simp only [evalTileProperties, List.foldl_cons] at ih ⊢
    rw [ih _ (fun q hq => hn q (List.mem_cons_of_mem _ hq))]
    exact evalTilePropertyElement_name_eq env tp pi (hn pi (List.mem_cons_self _ _))

theorem evalTileProperties_append (env : Library) (pre post : List (String × PTree))
    (tp : TileParam) :
    evalTileProperties env (pre ++ post) tp
      = evalTileProperties env post (evalTileProperties env pre tp) := by
  simp [evalTileProperties, List.foldl_append]

theorem evalTileProperties_cons (env : Library) (pi : String × PTree)
    (post : List (String × PTree)) (tp : TileParam) :
    evalTileProperties env (pi :: post) tp
      = evalTileProperties env post (evalTilePropertyElement env tp pi) := by
  simp [evalTileProperties]

theorem evalTilePropertyElement_fixed (env : Library) (tp : TileParam) (pi : String × PTree)
    (hn : namesProperty "fixed" pi = true) :
    (evalTilePropertyElement env tp pi).fixed
      = some (pi.2.getD valuePath env.tr.toBool false) := by
  unfold namesProperty at hn
  unfold evalTilePropertyElement
  cases hname : pi.2.getString ["<xmlattr>", "name"] with
  | none => simp [hname] at hn
  | some propName =>
    simp only [hname, Bool.and_eq_true, decide_eq_true_eq] at hn
    simp [hn.1, hn.2, evalTileProperty]

theorem evalTilePropertyElement_name (env : Library) (tp : TileParam) (pi : String × PTree)
    (v : String) (hn : namesProperty "name" pi = true)
    (hv : pi.2.getString valuePath = some v) :
    (evalTilePropertyElement env tp pi).textureName = v := by
  unfold namesProperty at hn
  unfold evalTilePropertyElement
  cases hname : pi.2.getString ["<xmlattr>", "name"] with
  | none => simp [hname] at hn
  | some propName =>
    simp only [hname, Bool.and_eq_true, decide_eq_true_eq] at hn
    simp [hn.1, hn.2, evalTileProperty, hv]

theorem defaultFixed_textureName (env : Library) (tp : TileParam) :
    (defaultFixed env tp).textureName = tp.textureName := by
  unfold defaultFixed
  split <;> rfl

theorem defaultFixed_of_none (env : Library) (tp : TileParam) (h : tp.fixed = none) :
    (defaultFixed env tp).fixed
      = some (decide (tp.textureName = Wall.Name ∨ tp.textureName = env.consts.BumperName)) := by
  unfold defaultFixed
  simp [h, Bool.decide_or]

theorem defaultFixed_of_some (env : Library) (tp : TileParam) (b : Bool) (h : tp.fixed = some b) :
    (defaultFixed env tp).fixed = some b := by
  unfold defaultFixed
  simp [h]

/-- C3 (fixed-flag defaulting).  For the properties of a tile record as `Level::loadZip`
parses them, in whatever order they stand (a default-constructed `TileParam` having no
`fixed` value): (1) without a `fixed` property the resulting `fixed` is true exactly when the
resulting name equals `Wall::Name` or `Bumper::Name`; (2) the resulting name is the value of
the `name` property, wherever it stands; (3) without a `name` property the name is that of a
default-constructed `TileParam`, so that `fixed` comes out false when that name is empty and
`Bumper::Name` is not; (4) a `fixed` property with an explicit value `b`, wherever it stands,
makes `fixed` equal to `b` regardless of the name. -/
theorem fixed_defaulting (env : Library) (texture : Texture) (tileProperties : PTree)
    (hnew : env.consts.newTileParam.fixed = none) :
    ((∀ pi ∈ tileProperties.children, namesProperty "fixed" pi = false) →
      (parseTileProperties env texture tileProperties).fixed
        = some (decide ((parseTileProperties env texture tileProperties).textureName = Wall.Name
            ∨ (parseTileProperties env texture tileProperties).textureName
              = env.consts.BumperName))) ∧
    (∀ pre pi post v, tileProperties.children = pre ++ pi :: post →
      namesProperty "name" pi = true → pi.2.getString valuePath = some v →
      (∀ q ∈ post, namesProperty "name" q = false) →
      (parseTileProperties env texture tileProperties).textureName = v) ∧
    ((∀ pi ∈ tileProperties.children, namesProperty "name" pi = false) →
      (parseTileProperties env texture tileProperties).textureName
          = env.consts.newTileParam.textureName ∧
        ((∀ pi ∈ tileProperties.children, namesProperty "fixed" pi = false) →
          env.consts.newTileParam.textureName = "" → env.consts.BumperName ≠ "" →
          (parseTileProperties env texture tileProperties).fixed = some false)) ∧
    (∀ pre pi post b, tileProperties.children = pre ++ pi :: post →
      namesProperty "fixed" pi = true → pi.2.get valuePath env.tr.toBool = some b →
      (∀ q ∈ post, namesProperty "fixed" q = false) →
      (parseTileProperties env texture tileProperties).fixed = some b) := by
  have hnofixed : (∀ pi ∈ tileProperties.children, namesProperty "fixed" pi = false) →
      (parseTileProperties env texture tileProperties).fixed
        = some (decide ((parseTileProperties env texture tileProperties).textureName = Wall.Name
            ∨ (parseTileProperties env texture tileProperties).textureName
              = env.consts.BumperName)) := by
    intro h
    unfold parseTileProperties
    rw [defaultFixed_textureName]
    apply defaultFixed_of_none
    rw [evalTileProperties_fixed_eq env _ _ h]
    exact hnew
  have hnoname : (∀ pi ∈ tileProperties.children, namesProperty "name" pi = false) →
      (parseTileProperties env texture tileProperties).textureName
          = env.consts.newTileParam.textureName := by
    intro h
    unfold parseTileProperties
    rw [defaultFixed_textureName, evalTileProperties_name_eq env _ _ h]
  refine ⟨hnofixed, ?_, ?_, ?_⟩
  · intro pre pi post v hc hn hv hpost
    unfold parseTileProperties
    rw [defaultFixed_textureName, hc, evalTileProperties_append, evalTileProperties_cons,
      evalTileProperties_name_eq env _ _ hpost]
    exact evalTilePropertyElement_name env _ pi v hn hv
  · intro h
    refine ⟨hnoname h, ?_⟩
    intro hf he hb
    rw [hnofixed hf, hnoname h, he]
    have hw : ¬ ("" = Wall.Name) := by decide
    have hb2 : ¬ ("" = env.consts.BumperName) := fun h2 => hb h2.symm
    simp [hw, hb2]
  · intro pre pi post b hc hn hv hpost
    unfold parseTileProperties
    apply defaultFixed_of_some
    rw [hc, evalTileProperties_append, evalTileProperties_cons,
      evalTileProperties_fixed_eq env _ _ hpost, evalTilePropertyElement_fixed env _ pi hn]
    unfold PTree.getD
    rw [hv]

/-- Witness for C3: the sample constants, whose default tile has no `fixed` value. -/
theorem fixed_defaulting_witness :
    sampleLibrary.consts.newTileParam.fixed = none ∧
    (((∀ pi ∈ (PTree.node "" [propertyElement "Name" "Wall"]).children,
        namesProperty "fixed" pi = false) →
      (parseTileProperties sampleLibrary ⟨16, 16⟩
          (.node "" [propertyElement "Name" "Wall"])).fixed
        = some (decide ((parseTileProperties sampleLibrary ⟨16, 16⟩
              (.node "" [propertyElement "Name" "Wall"])).textureName = Wall.Name
            ∨ (parseTileProperties sampleLibrary ⟨16, 16⟩
              (.node "" [propertyElement "Name" "Wall"])).textureName
              = sampleLibrary.consts.BumperName))) ∧
    (∀ pre pi post v,
      (PTree.node "" [propertyElement "Name" "Wall"]).children = pre ++ pi :: post →
      namesProperty "name" pi = true → pi.2.getString valuePath = some v →
      (∀ q ∈ post, namesProperty "name" q = false) →
      (parseTileProperties sampleLibrary ⟨16, 16⟩
        (.node "" [propertyElement "Name" "Wall"])).textureName = v) ∧
    ((∀ pi ∈ (PTree.node "" [propertyElement "Name" "Wall"]).children,
        namesProperty "name" pi = false) →
      (parseTileProperties sampleLibrary ⟨16, 16⟩
          (.node "" [propertyElement "Name" "Wall"])).textureName
          = sampleLibrary.consts.newTileParam.textureName ∧
        ((∀ pi ∈ (PTree.node "" [propertyElement "Name" "Wall"]).children,
            namesProperty "fixed" pi = false) →
          sampleLibrary.consts.newTileParam.textureName = "" →
          sampleLibrary.consts.BumperName ≠ "" →
          (parseTileProperties sampleLibrary ⟨16, 16⟩
            (.node "" [propertyElement "Name" "Wall"])).fixed = some false)) ∧
    (∀ pre pi post b,
      (PTree.node "" [propertyElement "Name" "Wall"]).children = pre ++ pi :: post →
      namesProperty "fixed" pi = true →
      pi.2.get valuePath sampleLibrary.tr.toBool = some b →
      (∀ q ∈ post, namesProperty "fixed" q = false) →
      (parseTileProperties sampleLibrary ⟨16, 16⟩
        (.node "" [propertyElement "Name" "Wall"])).fixed = some b)) :=
  ⟨rfl, fixed_defaulting sampleLibrary ⟨16, 16⟩
    (.node "" [propertyElement "Name" "Wall"]) rfl⟩

/-- Sample evaluations of the tile properties: a tile named Wall is fixed, an explicit
value overrides the name in either order, and a tile named Block is not fixed. -/
theorem parseTileProperties_samples :
    (parseTileProperties sampleLibrary ⟨16, 16⟩
      (.node "" [propertyElement "Name" "Wall"])).fixed = some true ∧
    (parseTileProperties sampleLibrary ⟨16, 16⟩
      (.node "" [propertyElement "Name" "Wall", propertyElement "FIXED" "0"])).fixed
        = some false ∧
    (parseTileProperties sampleLibrary ⟨16, 16⟩
      (.node "" [propertyElement "fixed" "1", propertyElement "Name" "Block"])).fixed
        = some true ∧
    (parseTileProperties sampleLibrary ⟨16, 16⟩
      (.node "" [propertyElement "Name" "Block"])).fixed = some false := by
  decide

/-- A member that no property other than `name` assigns keeps its value through any
properties that do not carry that name. -/
theorem evalTileProperties_preserves {β : Type} (f : TileParam → β) (name : String)
    (env : Library)
    (hstep : ∀ (tp tp2 : TileParam) (propName : String) (property : PTree),
      propName ≠ name → evalTileProperty env tp propName property = some tp2 → f tp2 = f tp)
    (props : List (String × PTree)) (tp : TileParam)
    (hn : ∀ pi ∈ props, namesProperty name pi = false) :
    f (evalTileProperties env props tp) = f tp := by
  induction props generalizing tp with
  | nil => rfl
  | cons pi rest ih =>
    rw [evalTileProperties_cons, ih _ (fun q hq => hn q (List.mem_cons_of_mem _ hq))]
    have hpi := hn pi (List.mem_cons_self _ _)
    unfold evalTilePropertyElement
    unfold namesProperty at hpi
    by_cases hk : pi.1 = "property"
    · simp only [hk, if_true]
      cases hname : pi.2.getString ["<xmlattr>", "name"] with
      | none => rfl
      | some propName =>
        simp only [hk, hname, decide_True, Bool.true_and, decide_eq_false_iff_not] at hpi
        simp only []
        cases hv : evalTileProperty env tp (to_lower propName) pi.2 with
        | none => rfl
        | some tp2 => exact hstep tp tp2 _ _ hpi hv
    · simp [hk]

theorem evalTileProperty_density_eq (env : Library) (tp tp2 : TileParam) (propName : String)
    (property : PTree) (hn : propName ≠ "density")
    (h : evalTileProperty env tp propName property = some tp2) : tp2.density = tp.density := by
  revert tp2
  unfold evalTileProperty
  repeat' first
    | refine ite_some_neg (fun t : TileParam => t.density = tp.density) hn ?_
    | refine ite_some_imp (fun t : TileParam => t.density = tp.density) ?_ ?_
    | (intro t h; cases h; rfl)
    | (intro t h; cases hv : property.getString valuePath <;> simp only [hv] at h <;>
        cases h; rfl)

theorem evalTileProperty_friction_eq (env : Library) (tp tp2 : TileParam) (propName : String)
    (property : PTree) (hn : propName ≠ "friction")
    (h : evalTileProperty env tp propName property = some tp2) :
    tp2.friction = tp.friction := by
  revert tp2
  unfold evalTileProperty
  repeat' first
    | refine ite_some_neg (fun t : TileParam => t.friction = tp.friction) hn ?_
    | refine ite_some_imp (fun t : TileParam => t.friction = tp.friction) ?_ ?_
    | (intro t h; cases h; rfl)
    | (intro t h; cases hv : property.getString valuePath <;> simp only [hv] at h <;>
        cases h; rfl)

theorem evalTileProperty_restitution_eq (env : Library) (tp tp2 : TileParam)
    (propName : String) (property : PTree) (hn : propName ≠ "restitution")
    (h : evalTileProperty env tp propName property = some tp2) :
    tp2.restitution = tp.restitution := by
  revert tp2
  unfold evalTileProperty
  repeat' first
    | refine ite_some_neg (fun t : TileParam => t.restitution = tp.restitution) hn ?_
    | refine ite_some_imp (fun t : TileParam => t.restitution = tp.restitution) ?_ ?_
    | (intro t h; cases h; rfl)
    | (intro t h; cases hv : property.getString valuePath <;> simp only [hv] at h <;>
        cases h; rfl)

theorem defaultFixed_material (env : Library) (tp : TileParam) :
    (defaultFixed env tp).density = tp.density ∧ (defaultFixed env tp).friction = tp.friction ∧
      (defaultFixed env tp).restitution = tp.restitution := by
  unfold defaultFixed
  split <;> exact ⟨rfl, rfl, rfl⟩

/-- A tile record without density, friction and restitution properties has these optional
parameters as a default-constructed `TileParam` has them. -/
theorem parseTileProperties_material (env : Library) (texture : Texture)
    (tileProperties : PTree)
    (hd : ∀ pi ∈ tileProperties.children, namesProperty "density" pi = false)
    (hf : ∀ pi ∈ tileProperties.children, namesProperty "friction" pi = false)
    (hr : ∀ pi ∈ tileProperties.children, namesProperty "restitution" pi = false) :
    (parseTileProperties env texture tileProperties).density = env.consts.newTileParam.density ∧
    (parseTileProperties env texture tileProperties).friction
      = env.consts.newTileParam.friction ∧
    (parseTileProperties env texture tileProperties).restitution
      = env.consts.newTileParam.restitution := by
  unfold parseTileProperties
  obtain ⟨h1, h2, h3⟩ := defaultFixed_material env
    (evalTileProperties env tileProperties.children
      { env.consts.newTileParam with texture := texture })
  rw [h1, h2, h3]
  refine ⟨?_, ?_, ?_⟩
  · exact evalTileProperties_preserves TileParam.density "density" env
      (evalTileProperty_density_eq env) _ _ hd
  · exact evalTileProperties_preserves TileParam.friction "friction" env
      (evalTileProperty_friction_eq env) _ _ hf
  · exact evalTileProperties_preserves TileParam.restitution "restitution" env
      (evalTileProperty_restitution_eq env) _ _ hr

/-! ### Defaults applied by the constructors -/

/-- C4 (per-variant default resolution).  Whenever `index` names a slot of the tile table,
`Wall::Wall` creates exactly one fixture, a box, with density, friction and restitution
equal to the tile's value when set and to 0, 0.2 and 0.5 otherwise; `Block::Block` creates
exactly three fixtures, a box and two circles, sharing density, friction and restitution,
each equal to the tile's value when set and to 20, 0.71 and 0.04 otherwise, and gives the
body the tile's linear and angular damping when set and 5 and 0.5 otherwise.  In particular
a tile without density, friction and restitution yields a wall fixture with exactly 0, 0.2
and 0.5, and so does a tile record parsed by `Level::loadZip` that carries no such
properties (a default-constructed `TileParam` having none of the three set). -/
theorem default_resolution (c : Consts) (level : Level) (index : Int) (tp slot : TileParam)
    (hslot : level.tileParam index = some slot) :
    (∃ w hx hy, Wall.new c level index tp = some w ∧
      w.mBody.fixtures =
        [⟨.box hx hy, tp.density.getD 0, tp.friction.getD 0.2, tp.restitution.getD 0.5⟩]) ∧
    (∃ b xoff hh, Block.new c level index tp = some b ∧
      b.mBody.fixtures =
        [⟨.box xoff hh, tp.density.getD 20, tp.friction.getD 0.71,
            tp.restitution.getD 0.04⟩,
          ⟨.circle (-xoff) 0 hh, tp.density.getD 20, tp.friction.getD 0.71,
            tp.restitution.getD 0.04⟩,
          ⟨.circle xoff 0 hh, tp.density.getD 20, tp.friction.getD 0.71,
            tp.restitution.getD 0.04⟩] ∧
      b.mBody.linearDamping = tp.linearDamping.getD 5 ∧
      b.mBody.angularDamping = tp.angularDamping.getD 0.5) ∧
    (tp.density = none → tp.friction = none → tp.restitution = none →
      ∃ w hx hy, Wall.new c level index tp = some w ∧
        w.mBody.fixtures = [⟨.box hx hy, 0, 0.2, 0.5⟩]) ∧
    (∀ (env : Library) (texture : Texture) (tileProperties : PTree),
      env.consts.newTileParam.density = none → env.consts.newTileParam.friction = none →
      env.consts.newTileParam.restitution = none →
      (∀ pi ∈ tileProperties.children, namesProperty "density" pi = false) →
      (∀ pi ∈ tileProperties.children, namesProperty "friction" pi = false) →
      (∀ pi ∈ tileProperties.children, namesProperty "restitution" pi = false) →
      ∃ w hx hy,
        Wall.new c level index (parseTileProperties env texture tileProperties) = some w ∧
        w.mBody.fixtures = [⟨.box hx hy, 0, 0.2, 0.5⟩]) := by
  have hw : ∀ t : TileParam, ∃ w hx hy, Wall.new c level index t = some w ∧
      w.mBody.fixtures =
        [⟨.box hx hy, t.density.getD 0, t.friction.getD 0.2, t.restitution.getD 0.5⟩] := by
    intro t
    refine ⟨_, (1 / 2) * slot.texture.x * c.InvScale, (1 / 2) * slot.texture.y * c.InvScale,
      by simp only [Wall.new, hslot]; rfl, ?_⟩
    simp only [B2Body.CreateFixture, B2Body.ofDefaultDef, List.nil_append]
    cases t.density <;> cases t.friction <;> cases t.restitution <;>
      norm_num [Wall.DefaultDensity, Wall.DefaultFriction, Wall.DefaultRestitution]
  have hnone : ∀ t : TileParam, t.density = none → t.friction = none →
      t.restitution = none → ∃ w hx hy, Wall.new c level index t = some w ∧
        w.mBody.fixtures = [⟨.box hx hy, 0, 0.2, 0.5⟩] := by
    intro t h1 h2 h3
    obtain ⟨w, hx, hy, hw1, hw2⟩ := hw t
    refine ⟨w, hx, hy, hw1, ?_⟩
    rw [hw2, h1, h2, h3]
    rfl
  refine ⟨hw tp, ?_, hnone tp, ?_⟩
  · refine ⟨_, (1 / 2) * c.InvScale * unsignedSub slot.texture.x slot.texture.y,
      (1 / 2) * c.InvScale * slot.texture.y, by simp only [Block.new, hslot]; rfl, ?_, ?_, ?_⟩
    · simp only [B2Body.CreateFixture, List.nil_append, List.cons_append]
      cases tp.density <;> cases tp.friction <;> cases tp.restitution <;>
        norm_num [Block.DefaultDensity, Block.DefaultFriction, Block.DefaultRestitution]
    · simp only [B2Body.CreateFixture]
      cases tp.linearDamping <;> simp [Block.DefaultLinearDamping]
    · simp only [B2Body.CreateFixture]
      cases tp.angularDamping <;> norm_num [Block.DefaultAngularDamping]
  · intro env texture tileProperties h1 h2 h3 hd hf hr
    obtain ⟨e1, e2, e3⟩ := parseTileProperties_material env texture tileProperties hd hf hr
    exact hnone _ (by rw [e1, h1]) (by rw [e2, h2]) (by rw [e3, h3])

/-- Witness for C4: the sample tile, whose optional parameters are all absent. -/
theorem default_resolution_witness :
    (sampleLevel [sampleTileParam]).tileParam 0 = some sampleTileParam ∧
    ((∃ w hx hy, Wall.new sampleConsts (sampleLevel [sampleTileParam]) 0 sampleTileParam
          = some w ∧
      w.mBody.fixtures =
        [⟨.box hx hy, sampleTileParam.density.getD 0, sampleTileParam.friction.getD 0.2,
          sampleTileParam.restitution.getD 0.5⟩]) ∧
    (∃ b xoff hh, Block.new sampleConsts (sampleLevel [sampleTileParam]) 0 sampleTileParam
          = some b ∧
      b.mBody.fixtures =
        [⟨.box xoff hh, sampleTileParam.density.getD 20, sampleTileParam.friction.getD 0.71,
            sampleTileParam.restitution.getD 0.04⟩,
          ⟨.circle (-xoff) 0 hh, sampleTileParam.density.getD 20,
            sampleTileParam.friction.getD 0.71, sampleTileParam.restitution.getD 0.04⟩,
          ⟨.circle xoff 0 hh, sampleTileParam.density.getD 20,
            sampleTileParam.friction.getD 0.71, sampleTileParam.restitution.getD 0.04⟩] ∧
      b.mBody.linearDamping = sampleTileParam.linearDamping.getD 5 ∧
      b.mBody.angularDamping = sampleTileParam.angularDamping.getD 0.5) ∧
    (sampleTileParam.density = none → sampleTileParam.friction = none →
      sampleTileParam.restitution = none →
      ∃ w hx hy, Wall.new sampleConsts (sampleLevel [sampleTileParam]) 0 sampleTileParam
          = some w ∧
        w.mBody.fixtures = [⟨.box hx hy, 0, 0.2, 0.5⟩]) ∧
    (∀ (env : Library) (texture : Texture) (tileProperties : PTree),
      env.consts.newTileParam.density = none → env.consts.newTileParam.friction = none →
      env.consts.newTileParam.restitution = none →
      (∀ pi ∈ tileProperties.children, namesProperty "density" pi = false) →
      (∀ pi ∈ tileProperties.children, namesProperty "friction" pi = false) →
      (∀ pi ∈ tileProperties.children, namesProperty "restitution" pi = false) →
      ∃ w hx hy,
        Wall.new sampleConsts (sampleLevel [sampleTileParam]) 0
          (parseTileProperties env texture tileProperties) = some w ∧
        w.mBody.fixtures = [⟨.box hx hy, 0, 0.2, 0.5⟩])) :=
  ⟨rfl, default_resolution sampleConsts (sampleLevel [sampleTileParam]) 0 sampleTileParam
    sampleTileParam rfl⟩

/-! ### The tile grid plays no part in the rest of the load -/

theorem Level.ite_flag {c : Prop} [Decidable c] {a b : Level} {v : Bool}
    (ha : a.mSuccessfullyLoaded = v) (hb : b.mSuccessfullyLoaded = v) :
    (if c then a else b).mSuccessfullyLoaded = v := by
  split
  · exact ha
  · exact hb

theorem Level.evalMapProperty_flag (env : Library) (l : Level) (propName : String)
    (property : PTree) :
    (l.evalMapProperty env propName property).mSuccessfullyLoaded = l.mSuccessfullyLoaded := by
  unfold Level.evalMapProperty
  repeat' first
    | rfl
    | refine Level.ite_flag ?_ ?_

theorem Level.evalMapProperties_flag (env : Library) (props : List (String × PTree))
    (l : Level) :
    (Level.evalMapProperties env props l).mSuccessfullyLoaded = l.mSuccessfullyLoaded := by
  induction props generalizing l with
  | nil => rfl
  | cons kv rest ih =>
    obtain ⟨key, property⟩ := kv
    unfold Level.evalMapProperties
    split
    · split
      · rfl
      · rw [ih, Level.evalMapProperty_flag]
    · exact ih l

theorem Level.evalLevelProperties_flag (env : Library) (pt : PTree) (l : Level) :
    (l.evalLevelProperties env pt).mSuccessfullyLoaded = l.mSuccessfullyLoaded := by
  unfold Level.evalLevelProperties
  dsimp only
  split
  · rfl
  · rw [Level.evalMapProperties_flag]

theorem Level.evalBackgroundColor_flag (pt : PTree) (l : Level) :
    (l.evalBackgroundColor pt).level.mSuccessfullyLoaded = l.mSuccessfullyLoaded := by
  unfold Level.evalBackgroundColor
  repeat' split
  all_goals rfl

theorem Level.decodeMapData_flag (env : Env) (mapDataB64 : String) (l : Level) :
    (l.decodeMapData env mapDataB64).level.mSuccessfullyLoaded = l.mSuccessfullyLoaded := by
  unfold Level.decodeMapData
  split
  · rfl
  · split
    · dsimp only
      split <;> rfl
    · rfl

theorem Level.evalBackgroundImage_flag (env : Library) (levelPath : String) (pt : PTree)
    (l : Level) :
    (l.evalBackgroundImage env levelPath pt).mSuccessfullyLoaded = l.mSuccessfullyLoaded := by
  unfold Level.evalBackgroundImage
  dsimp only
  repeat' split
  all_goals rfl

theorem Level.evalBoundary_flag (env : Library) (pt : PTree) (l : Level) :
    (l.evalBoundary env pt).mSuccessfullyLoaded = l.mSuccessfullyLoaded := by
  unfold Level.evalBoundary
  dsimp only
  repeat' split
  all_goals rfl

theorem Level.evalTile_flag (env : Library) (levelPath : String) (tile : PTree) (l : Level) :
    (l.evalTile env levelPath tile).level.mSuccessfullyLoaded = l.mSuccessfullyLoaded := by
  unfold Level.evalTile
  dsimp only
  repeat' split
  all_goals rfl

theorem Flow.andThen_flag (f : Flow) (k : Level → Flow)
    (h : ∀ l, (k l).level.mSuccessfullyLoaded = l.mSuccessfullyLoaded) :
    (f.andThen k).level.mSuccessfullyLoaded = f.level.mSuccessfullyLoaded := by
  cases f with
  | next l => exact h l
  | returned l => rfl
  | ptreeError l => rfl
  | thrown e l => rfl
  | undefined l => rfl

theorem Level.evalTiles_flag (env : Library) (levelPath : String)
    (tiles : List (String × PTree)) (l : Level) :
    (Level.evalTiles env levelPath tiles l).level.mSuccessfullyLoaded
      = l.mSuccessfullyLoaded := by
  induction tiles generalizing l with
  | nil => rfl
  | cons kv rest ih =>
    obtain ⟨key, tile⟩ := kv
    unfold Level.evalTiles
    split
    · rw [Flow.andThen_flag _ _ ih, Level.evalTile_flag]
    · exact ih l

theorem Level.evalTileset_flag (env : Library) (levelPath : String) (pt : PTree) (l : Level) :
    (l.evalTileset env levelPath pt).level.mSuccessfullyLoaded = l.mSuccessfullyLoaded := by
  unfold Level.evalTileset
  split
  · rfl
  · split
    · rfl
    · dsimp only
      rw [Level.evalTiles_flag]

theorem Level.afterDecode_flag (env : Library) (levelPath : String) (pt : PTree) (l : Level) :
    (((l.evalBackgroundImage env levelPath pt).evalBoundary env pt).evalTileset
        env levelPath pt).level.mSuccessfullyLoaded = l.mSuccessfullyLoaded := by
  rw [Level.evalTileset_flag, Level.evalBoundary_flag, Level.evalBackgroundImage_flag]

theorem Level.parseMap_flag (env : Env) (levelPath : String) (pt : PTree) (l : Level) :
    (l.parseMap env levelPath pt).level.mSuccessfullyLoaded = l.mSuccessfullyLoaded := by
  unfold Level.parseMap
  split
  · rfl
  · split
    · rfl
    · try dsimp only
      split
      · rfl
      · try dsimp only
        split
        · rfl
        · try dsimp only
          split
          · rfl
          · try dsimp only
            rw [Flow.andThen_flag _ _ (Level.afterDecode_flag env.toLibrary levelPath pt),
              Flow.andThen_flag _ _ (Level.decodeMapData_flag env _),
              Level.evalBackgroundColor_flag]

theorem Flow.toOutcome_flag (f : Flow) :
    f.toOutcome.level.mSuccessfullyLoaded = (f.isNext || (f.level.mSuccessfullyLoaded
      && !decide (f = .ptreeError f.level))) := by
  cases f <;> simp [Flow.toOutcome, Outcome.level, Flow.isNext, Flow.level]

/-- The success flag after `Level::loadZip` is true only if the second `try` block of a
descriptor that was read has been passed to its end. -/
theorem Level.loadZip_flag (env : Env) (l : Level) (zipFilename : String)
    (h : (Level.loadZip env l zipFilename).level.mSuccessfullyLoaded = true) :
    ∃ pt, env.read_xml (extractedFiles env zipFilename).1 = some pt ∧
      (Level.parseMap env (extractionPath env zipFilename) pt
        (Level.evalLevelProperties env.toLibrary pt
          { l with
            mSuccessfullyLoaded := false
            mMusic := (extractedFiles env zipFilename).2
            mName := env.stripPath zipFilename
            mBackgroundImageOpacity := 1 })).isNext = true := by
  unfold Level.loadZip at h
  dsimp only at h
  split at h
  · simp [Outcome.level] at h
  · split at h
    · simp [Outcome.level] at h
    · cases hx : env.read_xml (extractedFiles env zipFilename).1 with
      | none => simp [hx, Outcome.level] at h
      | some pt =>
        refine ⟨pt, rfl, ?_⟩
        simp only [hx] at h
        rw [Flow.toOutcome_flag, Level.parseMap_flag, Level.evalLevelProperties_flag] at h
        simpa using h

theorem Flow.isNext_andThen (f : Flow) (k : Level → Flow)
    (h : (f.andThen k).isNext = true) : ∃ l, f = .next l ∧ (k l).isNext = true := by
  cases f with
  | next l => exact ⟨l, rfl, h⟩
  | returned l => simp [Flow.andThen, Flow.isNext] at h
  | ptreeError l => simp [Flow.andThen, Flow.isNext] at h
  | thrown e l => simp [Flow.andThen, Flow.isNext] at h
  | undefined l => simp [Flow.andThen, Flow.isNext] at h

/-- What passing the second `try` block to its end requires: the payload element and the
tileset element are present, and the payload either decodes to no bytes or inflates with
return code `Z_OK`. -/
theorem Level.parseMap_isNext (env : Env) (levelPath : String) (pt : PTree) (l : Level)
    (h : (l.parseMap env levelPath pt).isNext = true) :
    (∃ mapDataB64, pt.getString ["map", "layer", "data"] = some mapDataB64 ∧
      ∀ compressed, env.base64_decode mapDataB64 = some compressed → 0 < compressed.length →
        (env.uncompress compressed CHUNKSIZE).1 = Z_OK) ∧
    (pt.get_child ["map", "tileset"]).isSome = true := by
  unfold Level.parseMap at h
  cases hd : pt.getString ["map", "layer", "data"] with
  | none => simp [hd, Flow.isNext] at h
  | some mapDataB64 =>
    simp only [hd] at h
    split at h
    · simp [Flow.isNext] at h
    · try dsimp only at h
      split at h
      · simp [Flow.isNext] at h
      · try dsimp only at h
        split at h
        · simp [Flow.isNext] at h
        · try dsimp only at h
          split at h
          · simp [Flow.isNext] at h
          · try dsimp only at h
            obtain ⟨l5, h5, hrest⟩ := Flow.isNext_andThen _ _ h
            have h5b := congrArg Flow.isNext h5
            obtain ⟨l4, -, hdec⟩ := Flow.isNext_andThen _ _ h5b
            constructor
            · refine ⟨mapDataB64, rfl, ?_⟩
              intro compressed hb hlen
              unfold Level.decodeMapData at hdec
              simp only [hb, hlen, gt_iff_lt, if_true] at hdec
              by_contra hrc
              simp [hrc, Flow.isNext] at hdec
            · unfold Level.evalTileset at hrest
              cases ht : pt.get_child ["map", "tileset"] with
              | none => simp [ht, Flow.isNext] at hrest
              | some tileset => rfl

/-- The cases of an undecodable payload that are fatal.  If the descriptor that is read has
no payload element, or no tileset element, or its payload decodes to bytes which the
decompressor does not inflate with `Z_OK`, then `Level::loadZip` leaves the success flag
false. -/
theorem Level.loadZip_fatal_cases (env : Env) (l : Level) (zipFilename : String)
    (h : ∀ pt, env.read_xml (extractedFiles env zipFilename).1 = some pt →
      pt.getString ["map", "layer", "data"] = none
      ∨ pt.get_child ["map", "tileset"] = none
      ∨ ∃ mapDataB64 compressed, pt.getString ["map", "layer", "data"] = some mapDataB64 ∧
          env.base64_decode mapDataB64 = some compressed ∧ 0 < compressed.length ∧
          (env.uncompress compressed CHUNKSIZE).1 ≠ Z_OK) :
    (Level.loadZip env l zipFilename).level.mSuccessfullyLoaded = false := by
  by_contra hne
  have ht : (Level.loadZip env l zipFilename).level.mSuccessfullyLoaded = true := by
    simpa using hne
  obtain ⟨pt, hx, hnext⟩ := Level.loadZip_flag env l zipFilename ht
  obtain ⟨⟨mapDataB64, hdata, hdec⟩, hts⟩ := Level.parseMap_isNext env _ pt _ hnext
  rcases h pt hx with h1 | h2 | ⟨b64, compressed, h3, h4, h5, h6⟩
  · rw [h1] at hdata
    exact Option.noConfusion hdata
  · rw [h2] at hts
    exact Bool.noConfusion hts
  · rw [h3] at hdata
    cases hdata
    exact h6 (hdec compressed h4 h5)

/-- Within the bytes written by the decompressor, an entry of the buffer is the
little-endian word of four of them, whatever the buffer held before. -/
theorem bufferWord_of_written (env : Env) (written : List Nat) (i : Nat)
    (h : 4 * i + 3 < written.length) :
    bufferWord env written i
      = written.getD (4 * i) 0 % 256 + 2 ^ 8 * (written.getD (4 * i + 1) 0 % 256)
        + 2 ^ 16 * (written.getD (4 * i + 2) 0 % 256)
        + 2 ^ 24 * (written.getD (4 * i + 3) 0 % 256) := by
  have hb : ∀ j, j < written.length → bufferByte env written j = written.getD j 0 % 256 := by
    intro j hj
    unfold bufferByte
    simp [List.getD, List.getElem?_eq_getElem hj]
  unfold bufferWord
  rw [hb _ (by omega), hb _ (by omega), hb _ (by omega), hb _ h]

/-! ### Evaluations of Level::loadZip -/

/-- A payload that inflates successfully is stored with one entry per byte written. -/
theorem Level.decodeMapData_of_ok (env : Env) (mapDataB64 : String) (l : Level)
    (compressed : List Nat) (hb : env.base64_decode mapDataB64 = some compressed)
    (hlen : 0 < compressed.length) (hrc : (env.uncompress compressed CHUNKSIZE).1 = Z_OK) :
    Level.decodeMapData env mapDataB64 l
      = .next { l with
          mMapData := l.mMapData ++
            (List.range (env.uncompress compressed CHUNKSIZE).2.length).map
              (bufferWord env (env.uncompress compressed CHUNKSIZE).2) } := by
  unfold Level.decodeMapData
  simp [hb, hlen, hrc]

/-- C5 (tile grid decoding), evaluated on the end-to-end scenario.  The payload inflates
successfully to the n = 8 bytes of the two cells 1 and 0 of a grid 2 by 1, and the load
succeeds; the stored tile grid has 8 entries, one per byte, instead of n / 4 = 2: the two
cells followed by six words of the unwritten part of the buffer. -/
theorem mapData_one_entry_per_byte :
    (sampleEnv scenarioDescriptor).base64_decode samplePayload = some sampleCompressed ∧
    (sampleEnv scenarioDescriptor).uncompress sampleCompressed CHUNKSIZE
      = (Z_OK, [1, 0, 0, 0, 0, 0, 0, 0]) ∧
    (Level.loadZip (sampleEnv scenarioDescriptor) (sampleLevel [])
      "levels/0001.zip").level.mSuccessfullyLoaded = true ∧
    (Level.loadZip (sampleEnv scenarioDescriptor) (sampleLevel [])
      "levels/0001.zip").level.mNumTilesX = 2 ∧
    (Level.loadZip (sampleEnv scenarioDescriptor) (sampleLevel [])
      "levels/0001.zip").level.mNumTilesY = 1 ∧
    (Level.loadZip (sampleEnv scenarioDescriptor) (sampleLevel [])
      "levels/0001.zip").level.mMapData
      = [1, 0, 2863311530, 2863311530, 2863311530, 2863311530, 2863311530, 2863311530] := by
  decide

/-- C7 (undecodable payload is fatal), evaluated on a descriptor whose payload text decodes
to no bytes: the decompression is skipped, the call returns, and the load is reported as
successful with an empty tile grid. -/
theorem empty_decoding_accepted :
    (sampleEnv (sampleDescriptor [("width", "2")] "????" [wallTile "0"])).base64_decode "????"
      = some [] ∧
    (Level.loadZip (sampleEnv (sampleDescriptor [("width", "2")] "????" [wallTile "0"]))
      (sampleLevel []) "levels/0001.zip").isDone = true ∧
    (Level.loadZip (sampleEnv (sampleDescriptor [("width", "2")] "????" [wallTile "0"]))
      (sampleLevel []) "levels/0001.zip").level.mSuccessfullyLoaded = true ∧
    (Level.loadZip (sampleEnv (sampleDescriptor [("width", "2")] "????" [wallTile "0"]))
      (sampleLevel []) "levels/0001.zip").level.mMapData = [] := by
  decide

/-- Counterexample to C8: a level holding the tile grid 7, 7 loads a descriptor without
tileset; the load fails, and the tile grid is no longer the one held before. -/
theorem failed_load_overwrites_level :
    (Level.loadZip (sampleEnv descriptorWithoutTileset) loadedLevel
      "levels/0001.zip").isDone = true ∧
    (Level.loadZip (sampleEnv descriptorWithoutTileset) loadedLevel
      "levels/0001.zip").level.mSuccessfullyLoaded = false ∧
    loadedLevel.mMapData = [7, 7] ∧
    (Level.loadZip (sampleEnv descriptorWithoutTileset) loadedLevel
      "levels/0001.zip").level.mMapData ≠ loadedLevel.mMapData := by
  decide

/-- C8, as amended: a load attempt that fails before the descriptor is evaluated (the level
directory cannot be entered, no descriptor file is found, or the descriptor is not
well-formed XML) returns with the success flag false and leaves tile grid, gravity, wall
restitution, background colour, killing-spree tunables, the credits, author, copyright and
info strings, boundary, first global id and tile table as they were before the call; the
level name has become the base name of the archive. -/
theorem early_failure_keeps_level (env : Env) (l : Level) (zipFilename : String)
    (h : chdirAborts env zipFilename = true
      ∨ env.fileExists (extractedFiles env zipFilename).1 = false
      ∨ env.read_xml (extractedFiles env zipFilename).1 = none) :
    (Level.loadZip env l zipFilename).isDone = true ∧
    (Level.loadZip env l zipFilename).level.mSuccessfullyLoaded = false ∧
    (Level.loadZip env l zipFilename).level.mName = env.stripPath zipFilename ∧
    (Level.loadZip env l zipFilename).level.mMapData = l.mMapData ∧
    (Level.loadZip env l zipFilename).level.mGravity = l.mGravity ∧
    (Level.loadZip env l zipFilename).level.mWallRestitution = l.mWallRestitution ∧
    (Level.loadZip env l zipFilename).level.mBackgroundColor = l.mBackgroundColor ∧
    (Level.loadZip env l zipFilename).level.mKillingsPerKillingSpree
      = l.mKillingsPerKillingSpree ∧
    (Level.loadZip env l zipFilename).level.mKillingSpreeBonus = l.mKillingSpreeBonus ∧
    (Level.loadZip env l zipFilename).level.mKillingSpreeInterval = l.mKillingSpreeInterval ∧
    (Level.loadZip env l zipFilename).level.mCredits = l.mCredits ∧
    (Level.loadZip env l zipFilename).level.mAuthor = l.mAuthor ∧
    (Level.loadZip env l zipFilename).level.mCopyright = l.mCopyright ∧
    (Level.loadZip env l zipFilename).level.mInfo = l.mInfo ∧
    (Level.loadZip env l zipFilename).level.mBoundary = l.mBoundary ∧
    (Level.loadZip env l zipFilename).level.mFirstGID = l.mFirstGID ∧
    (Level.loadZip env l zipFilename).level.mTiles = l.mTiles := by
  unfold Level.loadZip
  by_cases h1 : chdirAborts env zipFilename = true
  · simp [h1, Outcome.isDone, Outcome.level]
  · by_cases h2 : env.fileExists (extractedFiles env zipFilename).1 = false
    · simp [h1, h2, Outcome.isDone, Outcome.level]
    · have h3 : env.read_xml (extractedFiles env zipFilename).1 = none := by
        rcases h with h | h | h
        · exact absurd h h1
        · exact absurd h h2
        · exact h
      simp [h1, h2, h3, Outcome.isDone, Outcome.level]

/-- Witness for C8 as amended: an archive that cannot be opened, on the loaded level. -/
theorem early_failure_keeps_level_witness :
    (chdirAborts (sampleEnv scenarioDescriptor) "levels/0002.zip" = true
      ∨ (sampleEnv scenarioDescriptor).fileExists
          (extractedFiles (sampleEnv scenarioDescriptor) "levels/0002.zip").1 = false
      ∨ (sampleEnv scenarioDescriptor).read_xml
          (extractedFiles (sampleEnv scenarioDescriptor) "levels/0002.zip").1 = none) ∧
    ((Level.loadZip (sampleEnv scenarioDescriptor) loadedLevel "levels/0002.zip").isDone = true ∧
    (Level.loadZip (sampleEnv scenarioDescriptor) loadedLevel
      "levels/0002.zip").level.mSuccessfullyLoaded = false ∧
    (Level.loadZip (sampleEnv scenarioDescriptor) loadedLevel
      "levels/0002.zip").level.mName
        = (sampleEnv scenarioDescriptor).stripPath "levels/0002.zip" ∧
    (Level.loadZip (sampleEnv scenarioDescriptor) loadedLevel
      "levels/0002.zip").level.mMapData = loadedLevel.mMapData ∧
    (Level.loadZip (sampleEnv scenarioDescriptor) loadedLevel
      "levels/0002.zip").level.mGravity = loadedLevel.mGravity ∧
    (Level.loadZip (sampleEnv scenarioDescriptor) loadedLevel
      "levels/0002.zip").level.mWallRestitution = loadedLevel.mWallRestitution ∧
    (Level.loadZip (sampleEnv scenarioDescriptor) loadedLevel
      "levels/0002.zip").level.mBackgroundColor = loadedLevel.mBackgroundColor ∧
    (Level.loadZip (sampleEnv scenarioDescriptor) loadedLevel
      "levels/0002.zip").level.mKillingsPerKillingSpree = loadedLevel.mKillingsPerKillingSpree ∧
    (Level.loadZip (sampleEnv scenarioDescriptor) loadedLevel
      "levels/0002.zip").level.mKillingSpreeBonus = loadedLevel.mKillingSpreeBonus ∧
    (Level.loadZip (sampleEnv scenarioDescriptor) loadedLevel
      "levels/0002.zip").level.mKillingSpreeInterval = loadedLevel.mKillingSpreeInterval ∧
    (Level.loadZip (sampleEnv scenarioDescriptor) loadedLevel
      "levels/0002.zip").level.mCredits = loadedLevel.mCredits ∧
    (Level.loadZip (sampleEnv scenarioDescriptor) loadedLevel
      "levels/0002.zip").level.mAuthor = loadedLevel.mAuthor ∧
    (Level.loadZip (sampleEnv scenarioDescriptor) loadedLevel
      "levels/0002.zip").level.mCopyright = loadedLevel.mCopyright ∧
    (Level.loadZip (sampleEnv scenarioDescriptor) loadedLevel
      "levels/0002.zip").level.mInfo = loadedLevel.mInfo ∧
    (Level.loadZip (sampleEnv scenarioDescriptor) loadedLevel
      "levels/0002.zip").level.mBoundary = loadedLevel.mBoundary ∧
    (Level.loadZip (sampleEnv scenarioDescriptor) loadedLevel
      "levels/0002.zip").level.mFirstGID = loadedLevel.mFirstGID ∧
    (Level.loadZip (sampleEnv scenarioDescriptor) loadedLevel
      "levels/0002.zip").level.mTiles = loadedLevel.mTiles) :=
  ⟨Or.inr (Or.inl (by decide)),
    early_failure_keeps_level (sampleEnv scenarioDescriptor) loadedLevel "levels/0002.zip"
      (Or.inr (Or.inl (by decide)))⟩

/-- C9 (single boolean outcome), evaluated on two descriptors.  With the background colour
`#zzzzzz` the exception `std::invalid_argument` of `std::stoul` leaves `Level::loadZip`;
with first global id 1 and a tile of id -3 the exception `std::length_error` of
`std::vector::resize` does. -/
theorem exception_leaves_loadZip :
    (Level.loadZip
      (sampleEnv (sampleDescriptor [("width", "2"), ("backgroundcolor", "#zzzzzz")]
        samplePayload [wallTile "0"]))
      (sampleLevel []) "levels/0001.zip").exception = some .invalid_argument ∧
    (Level.loadZip
      (sampleEnv (sampleDescriptor [("width", "2")] samplePayload [wallTile "-3"]))
      (sampleLevel []) "levels/0001.zip").exception = some .length_error := by
  decide

/-- C10 (tile table completeness), evaluated on a tileset with first global id 1 whose
tile records have the local ids 1 and 0, in this order.  The parse succeeds, but the table
ends with 2 slots instead of 1 + 1 + 1 = 3, and `Level::tileParam(1 + 1)` throws: the record
with local id 1 is lost when the table is resized for the record with local id 0. -/
theorem tile_table_shrinks :
    (Level.loadZip
      (sampleEnv (sampleDescriptor [("width", "2")] samplePayload [wallTile "1", wallTile "0"]))
      (sampleLevel []) "levels/0001.zip").isDone = true ∧
    (Level.loadZip
      (sampleEnv (sampleDescriptor [("width", "2")] samplePayload [wallTile "1", wallTile "0"]))
      (sampleLevel []) "levels/0001.zip").level.mSuccessfullyLoaded = true ∧
    (Level.loadZip
      (sampleEnv (sampleDescriptor [("width", "2")] samplePayload [wallTile "1", wallTile "0"]))
      (sampleLevel []) "levels/0001.zip").level.mFirstGID = 1 ∧
    (Level.loadZip
      (sampleEnv (sampleDescriptor [("width", "2")] samplePayload [wallTile "1", wallTile "0"]))
      (sampleLevel []) "levels/0001.zip").level.mTiles.length = 2 ∧
    (Level.loadZip
      (sampleEnv (sampleDescriptor [("width", "2")] samplePayload [wallTile "1", wallTile "0"]))
      (sampleLevel []) "levels/0001.zip").level.tileParam (1 + 1) = none := by
  decide

/-- The end-to-end scenario: the load succeeds, the grid starts with the cells 1 and 0, and
slot 1 of the tile table holds a tile named Wall that is fixed and has no density, friction
or restitution of its own. -/
theorem scenario_loaded :
    (Level.loadZip (sampleEnv scenarioDescriptor) (sampleLevel [])
      "levels/0001.zip").level.mSuccessfullyLoaded = true ∧
    (Level.loadZip (sampleEnv scenarioDescriptor) (sampleLevel [])
      "levels/0001.zip").level.mName = "0001" ∧
    (Level.loadZip (sampleEnv scenarioDescriptor) (sampleLevel [])
      "levels/0001.zip").level.mMapData.take 2 = [1, 0] ∧
    ((Level.loadZip (sampleEnv scenarioDescriptor) (sampleLevel [])
      "levels/0001.zip").level.tileParam 1).map TileParam.textureName = some "Wall" ∧
    ((Level.loadZip (sampleEnv scenarioDescriptor) (sampleLevel [])
      "levels/0001.zip").level.tileParam 1).map TileParam.fixed = some (some true) ∧
    ((Level.loadZip (sampleEnv scenarioDescriptor) (sampleLevel [])
      "levels/0001.zip").level.tileParam 1).map TileParam.density = some none ∧
    ((Level.loadZip (sampleEnv scenarioDescriptor) (sampleLevel [])
      "levels/0001.zip").level.tileParam 1).map TileParam.friction = some none ∧
    ((Level.loadZip (sampleEnv scenarioDescriptor) (sampleLevel [])
      "levels/0001.zip").level.tileParam 1).map TileParam.restitution = some none ∧
    ((Level.loadZip (sampleEnv scenarioDescriptor) (sampleLevel [])
      "levels/0001.zip").level.tileParam 1).map TileParam.texture = some ⟨16, 16⟩ := by
  decide

/-! ### The threshold of the damage transition -/

theorem truncToInt_le_of_lt (x : ℚ) (m : Int) (hm : 0 ≤ m) (hx : x < m + 1) :
    truncToInt x ≤ m := by
  unfold truncToInt
  split
  · have h : ⌊x⌋ < m + 1 := by
      rw [Int.floor_lt]
      push_cast
      exact hx
    omega
  · rename_i hneg
    have h0 : x ≤ ((0 : Int) : ℚ) := by
      push_cast
      exact le_of_lt (not_le.mp hneg)
    have h : ⌈x⌉ ≤ 0 := Int.ceil_le.mpr h0
    omega

theorem Block.hit_below_threshold (b : Block) (x : ℚ)
    (h : ¬ b.mMinimumHitImpulse < truncToInt x) : (b.hit x).1.mBody = b.mBody := by
  unfold Block.hit
  have h2 : ¬ truncToInt x > b.mMinimumHitImpulse := h
  simp [h2, Body.hit_mBody]

/-- C16 (truncated threshold comparison).  For every block whose minimum hit impulse `m` is
not negative and every hit whose impulse `x` satisfies `x < m + 1`, the truncation of `x`
toward zero is at most `m`, and `Block::hit` leaves the linear damping and the gravity scale
of the body unchanged (whether or not the hit destroys the block); for any impulse, a change
of either value by `Block::hit` requires the truncated impulse to be strictly greater than
`m`.  For a block built by `Block::Block`, `m` is the tile's `minimumHitImpulse`. -/
theorem Block.truncated_threshold (b : Block) (x : ℚ) (hm : 0 ≤ b.mMinimumHitImpulse)
    (hx : x < b.mMinimumHitImpulse + 1) :
    truncToInt x ≤ b.mMinimumHitImpulse ∧
    (b.hit x).1.mBody.linearDamping = b.mBody.linearDamping ∧
    (b.hit x).1.mBody.gravityScale = b.mBody.gravityScale ∧
    (∀ y : ℚ, ((b.hit y).1.mBody.linearDamping ≠ b.mBody.linearDamping
        ∨ (b.hit y).1.mBody.gravityScale ≠ b.mBody.gravityScale) →
      b.mMinimumHitImpulse < truncToInt y) ∧
    (∀ (c : Consts) (level : Level) (index : Int) (tp : TileParam) (b0 : Block)
      (pre : List ℚ), Block.new c level index tp = some b0 → b = b0.hits pre →
      b.mMinimumHitImpulse = tp.minimumHitImpulse) := by
  have ht := truncToInt_le_of_lt x b.mMinimumHitImpulse hm hx
  have hb := Block.hit_below_threshold b x (not_lt.mpr ht)
  refine ⟨ht, by rw [hb], by rw [hb], ?_, ?_⟩
  · intro y hy
    by_contra hlt
    have hby := Block.hit_below_threshold b y hlt
    rw [hby] at hy
    rcases hy with h | h <;> exact h rfl
  · intro c level index tp b0 pre hnew hb0
    rw [hb0, Block.hits_mMinimumHitImpulse]
    exact (Block.new_members c level index tp b0 hnew).2.2

/-- Witness for C16: the sample block (threshold 1) hit by the impulse 3/2. -/
theorem Block.truncated_threshold_witness :
    (0 ≤ sampleBlock.mMinimumHitImpulse ∧ (3 / 2 : ℚ) < sampleBlock.mMinimumHitImpulse + 1) ∧
    (truncToInt (3 / 2) ≤ sampleBlock.mMinimumHitImpulse ∧
    (sampleBlock.hit (3 / 2)).1.mBody.linearDamping = sampleBlock.mBody.linearDamping ∧
    (sampleBlock.hit (3 / 2)).1.mBody.gravityScale = sampleBlock.mBody.gravityScale ∧
    (∀ y : ℚ, ((sampleBlock.hit y).1.mBody.linearDamping ≠ sampleBlock.mBody.linearDamping
        ∨ (sampleBlock.hit y).1.mBody.gravityScale ≠ sampleBlock.mBody.gravityScale) →
      sampleBlock.mMinimumHitImpulse < truncToInt y) ∧
    (∀ (c : Consts) (level : Level) (index : Int) (tp : TileParam) (b0 : Block)
      (pre : List ℚ), Block.new c level index tp = some b0 → sampleBlock = b0.hits pre →
      sampleBlock.mMinimumHitImpulse = tp.minimumHitImpulse)) :=
  have hm : 0 ≤ sampleBlock.mMinimumHitImpulse := by decide
  have hx : (3 / 2 : ℚ) < sampleBlock.mMinimumHitImpulse + 1 := by
    simp only [sampleBlock]
    norm_num
  ⟨⟨hm, hx⟩, Block.truncated_threshold sampleBlock (3 / 2) hm hx⟩

/-! ### The shape of a block -/

theorem unsignedSub_of_le (W H : Nat) (hW : W < 2 ^ 32) (hWH : H ≤ W) :
    unsignedSub W H = W - H := by
  unfold unsignedSub
  have h1 : ((W : Int) - (H : Int)) = ((W - H : Nat) : Int) := by omega
  have h2 : (W - H : Nat) < 2 ^ 32 := by omega
  rw [h1]
  have h3 : (((W - H : Nat) : Int)).emod (2 ^ 32) = ((W - H : Nat) : Int) := by
    apply Int.emod_eq_of_lt
    · omega
    · have : ((2 : Int) ^ 32) = ((2 ^ 32 : Nat) : Int) := by norm_num
      rw [this]
      exact_mod_cast h2
  rw [h3]
  simp

/-- C15 (block capsule geometry).  For a tile texture of pixel width `W` and height `H`
(32-bit unsigned values) with `W ≥ H` and pixel-to-physics factor `s`, `Block::Block` creates
exactly three fixtures: a box with half-width `s * (W - H) / 2` and half-height `s * H / 2`,
and two circles of radius `s * H / 2` centred at `(-s * (W - H) / 2, 0)` and
`(s * (W - H) / 2, 0)`; box half-width plus cap radius is `s * W / 2`. -/
theorem Block.capsule_geometry (c : Consts) (level : Level) (index : Int) (tp slot : TileParam)
    (hslot : level.tileParam index = some slot) (hW : slot.texture.x < 2 ^ 32)
    (hWH : slot.texture.y ≤ slot.texture.x) :
    (∃ b d f r, Block.new c level index tp = some b ∧
      b.mBody.fixtures =
        [⟨.box (c.InvScale * ((slot.texture.x : ℚ) - slot.texture.y) / 2)
            (c.InvScale * slot.texture.y / 2), d, f, r⟩,
          ⟨.circle (-(c.InvScale * ((slot.texture.x : ℚ) - slot.texture.y) / 2)) 0
            (c.InvScale * slot.texture.y / 2), d, f, r⟩,
          ⟨.circle (c.InvScale * ((slot.texture.x : ℚ) - slot.texture.y) / 2) 0
            (c.InvScale * slot.texture.y / 2), d, f, r⟩]) ∧
    c.InvScale * ((slot.texture.x : ℚ) - slot.texture.y) / 2 + c.InvScale * slot.texture.y / 2
      = c.InvScale * slot.texture.x / 2 := by
  constructor
  · refine ⟨_, tp.density.getD Block.DefaultDensity, tp.friction.getD Block.DefaultFriction,
      tp.restitution.getD Block.DefaultRestitution, by simp only [Block.new, hslot]; rfl, ?_⟩
    simp only [B2Body.CreateFixture, List.nil_append, List.cons_append]
    rw [unsignedSub_of_le _ _ hW hWH, Nat.cast_sub hWH]
    have d1 : (match tp.density with
        | some v => v
        | none => Block.DefaultDensity) = tp.density.getD Block.DefaultDensity := by
      cases tp.density <;> rfl
    have d2 : (match tp.friction with
        | some v => v
        | none => Block.DefaultFriction) = tp.friction.getD Block.DefaultFriction := by
      cases tp.friction <;> rfl
    have d3 : (match tp.restitution with
        | some v => v
        | none => Block.DefaultRestitution)
          = tp.restitution.getD Block.DefaultRestitution := by
      cases tp.restitution <;> rfl
    rw [d1, d2, d3]
    have e1 : (1 / 2 : ℚ) * c.InvScale * ((slot.texture.x : ℚ) - slot.texture.y)
        = c.InvScale * ((slot.texture.x : ℚ) - slot.texture.y) / 2 := by ring
    have e2 : (1 / 2 : ℚ) * c.InvScale * (slot.texture.y : ℚ)
        = c.InvScale * slot.texture.y / 2 := by ring
    rw [e1, e2]
  · ring

/-- Witness for C15: the sample tile, 4 by 2 pixels. -/
theorem Block.capsule_geometry_witness :
    ((sampleLevel [sampleTileParam]).tileParam 0 = some sampleTileParam ∧
      sampleTileParam.texture.x < 2 ^ 32 ∧
      sampleTileParam.texture.y ≤ sampleTileParam.texture.x) ∧
    ((∃ b d f r, Block.new sampleConsts (sampleLevel [sampleTileParam]) 0 sampleTileParam
        = some b ∧
      b.mBody.fixtures =
        [⟨.box (sampleConsts.InvScale
              * ((sampleTileParam.texture.x : ℚ) - sampleTileParam.texture.y) / 2)
            (sampleConsts.InvScale * sampleTileParam.texture.y / 2), d, f, r⟩,
          ⟨.circle (-(sampleConsts.InvScale
              * ((sampleTileParam.texture.x : ℚ) - sampleTileParam.texture.y) / 2)) 0
            (sampleConsts.InvScale * sampleTileParam.texture.y / 2), d, f, r⟩,
          ⟨.circle (sampleConsts.InvScale
              * ((sampleTileParam.texture.x : ℚ) - sampleTileParam.texture.y) / 2) 0
            (sampleConsts.InvScale * sampleTileParam.texture.y / 2), d, f, r⟩]) ∧
    sampleConsts.InvScale * ((sampleTileParam.texture.x : ℚ) - sampleTileParam.texture.y) / 2
        + sampleConsts.InvScale * sampleTileParam.texture.y / 2
      = sampleConsts.InvScale * sampleTileParam.texture.x / 2) :=
  ⟨⟨rfl, by decide, by decide⟩,
    Block.capsule_geometry sampleConsts (sampleLevel [sampleTileParam]) 0 sampleTileParam
      sampleTileParam rfl (by decide) (by decide)⟩

/-- Wherever the tile is at least as wide as tall and the factor `s` is not negative, the
box half-width stays within half the tile width. -/
theorem Block.box_within_tile (s : ℚ) (W H : Nat) (hs : 0 ≤ s) (hW : W < 2 ^ 32)
    (hWH : H ≤ W) : (1 / 2 : ℚ) * s * unsignedSub W H ≤ s * W / 2 := by
  rw [unsignedSub_of_le W H hW hWH, Nat.cast_sub hWH]
  have hH : (0 : ℚ) ≤ H := Nat.cast_nonneg H
  nlinarith [mul_nonneg hs hH]

/-- C18 (block shape within the tile width), evaluated on a tile 16 pixels wide and 32
pixels tall with factor 1: the unsigned difference 16 - 32 wraps to 4294967280, the box gets
the half-width 2147483640, and half the tile width is 8. -/
theorem Block.tall_tile_box :
    unsignedSub 16 32 = 4294967280 ∧
    (Block.new sampleConsts (sampleLevel [tallTileParam]) 0 sampleTileParam).map
        (fun b => b.mBody.fixtures.head?.map FixtureDef.shape)
      = some (some (.box 2147483640 16)) ∧
    ¬ ((2147483640 : ℚ) ≤ sampleConsts.InvScale * 16 / 2) := by
  have hsub : unsignedSub 16 32 = 4294967280 := by decide
  refine ⟨hsub, ?_, ?_⟩
  · simp [Block.new, Level.tileParam, sampleLevel, tallTileParam, sampleTileParam, sampleConsts,
      B2Body.CreateFixture, hsub]
    norm_num
  · simp only [sampleConsts]
    norm_num

/-! ### The boundary -/

theorem Level.evalTile_mBoundary (env : Library) (levelPath : String) (tile : PTree)
    (l : Level) : (l.evalTile env levelPath tile).level.mBoundary = l.mBoundary := by
  unfold Level.evalTile
  dsimp only
  repeat' split
  all_goals rfl

theorem Flow.andThen_mBoundary (f : Flow) (k : Level → Flow)
    (h : ∀ l, (k l).level.mBoundary = l.mBoundary) :
    (f.andThen k).level.mBoundary = f.level.mBoundary := by
  cases f with
  | next l => exact h l
  | returned l => rfl
  | ptreeError l => rfl
  | thrown e l => rfl
  | undefined l => rfl

theorem Level.evalTiles_mBoundary (env : Library) (levelPath : String)
    (tiles : List (String × PTree)) (l : Level) :
    (Level.evalTiles env levelPath tiles l).level.mBoundary = l.mBoundary := by
  induction tiles generalizing l with
  | nil => rfl
  | cons kv rest ih =>
    obtain ⟨key, tile⟩ := kv
    unfold Level.evalTiles
    split
    · rw [Flow.andThen_mBoundary _ _ ih, Level.evalTile_mBoundary]
    · exact ih l

theorem Level.evalTileset_mBoundary (env : Library) (levelPath : String) (pt : PTree)
    (l : Level) : (l.evalTileset env levelPath pt).level.mBoundary = l.mBoundary := by
  unfold Level.evalTileset
  split
  · rfl
  · split
    · rfl
    · dsimp only
      rw [Level.evalTiles_mBoundary]

theorem Flow.toOutcome_mBoundary (f : Flow) :
    f.toOutcome.level.mBoundary = f.level.mBoundary := by
  cases f <;> rfl

/-- A second `try` block that is passed to its end has gone through the statements after
the payload. -/
theorem Level.parseMap_next_form (env : Env) (levelPath : String) (pt : PTree) (l : Level)
    (h : (l.parseMap env levelPath pt).isNext = true) :
    ∃ l5 : Level, l.parseMap env levelPath pt
      = ((l5.evalBackgroundImage env.toLibrary levelPath pt).evalBoundary
          env.toLibrary pt).evalTileset env.toLibrary levelPath pt := by
  unfold Level.parseMap at h ⊢
  split at h
  · simp [Flow.isNext] at h
  · split at h
    · simp [Flow.isNext] at h
    · try dsimp only at h
      split at h
      · simp [Flow.isNext] at h
      · try dsimp only at h
        split at h
        · simp [Flow.isNext] at h
        · try dsimp only at h
          split at h
          · simp [Flow.isNext] at h
          · try dsimp only at h
            obtain ⟨l5, h5, -⟩ := Flow.isNext_andThen _ _ h
            refine ⟨l5, ?_⟩
            simp only [*]
            rfl

/-- The boundary a successful load leaves is the one the boundary statements produce. -/
theorem Level.loadZip_mBoundary (env : Env) (l : Level) (zipFilename : String)
    (h : (Level.loadZip env l zipFilename).level.mSuccessfullyLoaded = true) :
    ∃ (pt : PTree) (l6 : Level), env.read_xml (extractedFiles env zipFilename).1 = some pt ∧
      (Level.loadZip env l zipFilename).level.mBoundary
        = (l6.evalBoundary env.toLibrary pt).mBoundary := by
  obtain ⟨pt, hx, hnext⟩ := Level.loadZip_flag env l zipFilename h
  obtain ⟨l5, hform⟩ := Level.parseMap_next_form env _ pt _ hnext
  refine ⟨pt, l5.evalBackgroundImage env.toLibrary (extractionPath env zipFilename) pt, hx, ?_⟩
  have hz : Level.loadZip env l zipFilename
      = (Level.parseMap env (extractionPath env zipFilename) pt
        (Level.evalLevelProperties env.toLibrary pt
          { l with
            mSuccessfullyLoaded := false
            mMusic := (extractedFiles env zipFilename).2
            mName := env.stripPath zipFilename
            mBackgroundImageOpacity := 1 })).toOutcome := by
    unfold Level.loadZip at h ⊢
    dsimp only at h ⊢
    split at h
    · simp [Outcome.level] at h
    · rename_i hc
      rw [if_neg hc]
      split at h
      · simp [Outcome.level] at h
      · rename_i hf
        rw [if_neg hf]
        simp only [hx]
  rw [hz, Flow.toOutcome_mBoundary, hform, Level.evalTileset_mBoundary]

theorem Level.evalBoundary_complete (env : Library) (pt object : PTree) (l : Level)
    (x y width height : Int)
    (ho : pt.get_child ["map", "objectgroup", "object"] = some object)
    (hx : object.get ["<xmlattr>", "x"] env.tr.toInt = some x)
    (hy : object.get ["<xmlattr>", "y"] env.tr.toInt = some y)
    (hw : object.get ["<xmlattr>", "width"] env.tr.toInt = some width)
    (hh : object.get ["<xmlattr>", "height"] env.tr.toInt = some height) :
    (l.evalBoundary env pt).mBoundary = ⟨x, y, x + width, y + height, true⟩ := by
  unfold Level.evalBoundary
  simp only [ho, hx, hy, hw, hh]

theorem Level.evalBoundary_incomplete (env : Library) (pt : PTree) (l : Level)
    (h : pt.get_child ["map", "objectgroup", "object"] = none
      ∨ ∃ object, pt.get_child ["map", "objectgroup", "object"] = some object ∧
        (object.get ["<xmlattr>", "x"] env.tr.toInt = none
          ∨ object.get ["<xmlattr>", "y"] env.tr.toInt = none
          ∨ object.get ["<xmlattr>", "width"] env.tr.toInt = none
          ∨ object.get ["<xmlattr>", "height"] env.tr.toInt = none)) :
    (l.evalBoundary env pt).mBoundary.valid = false := by
  unfold Level.evalBoundary
  rcases h with h | ⟨object, ho, h⟩
  · simp only [h]
    rfl
  · simp only [ho]
    cases hx : object.get ["<xmlattr>", "x"] env.tr.toInt with
    | none => rfl
    | some x =>
      cases hy : object.get ["<xmlattr>", "y"] env.tr.toInt with
      | none => rfl
      | some y =>
        cases hw : object.get ["<xmlattr>", "width"] env.tr.toInt with
        | none => rfl
        | some width =>
          cases hh : object.get ["<xmlattr>", "height"] env.tr.toInt with
          | none => rfl
          | some height =>
            rw [hx, hy, hw, hh] at h
            simp at h

/-- C13 (boundary parsing).  Whatever level was held before: when `Level::loadZip` succeeds,
a descriptor was read, and (1) if its boundary object carries the integer attributes x, y,
width and height, the resulting boundary has left = x, top = y, right = x + width,
bottom = y + height and valid = true; (2) if it has no boundary object, or the object lacks
one of the four attributes (or it is not a number), the resulting boundary has
valid = false. -/
theorem boundary_parsing (env : Env) (l : Level) (zipFilename : String)
    (h : (Level.loadZip env l zipFilename).level.mSuccessfullyLoaded = true) :
    ∃ pt, env.read_xml (extractedFiles env zipFilename).1 = some pt ∧
      (∀ (object : PTree) (x y width height : Int),
        pt.get_child ["map", "objectgroup", "object"] = some object →
        object.get ["<xmlattr>", "x"] env.tr.toInt = some x →
        object.get ["<xmlattr>", "y"] env.tr.toInt = some y →
        object.get ["<xmlattr>", "width"] env.tr.toInt = some width →
        object.get ["<xmlattr>", "height"] env.tr.toInt = some height →
        (Level.loadZip env l zipFilename).level.mBoundary
          = ⟨x, y, x + width, y + height, true⟩) ∧
      ((pt.get_child ["map", "objectgroup", "object"] = none
        ∨ ∃ object, pt.get_child ["map", "objectgroup", "object"] = some object ∧
          (object.get ["<xmlattr>", "x"] env.tr.toInt = none
            ∨ object.get ["<xmlattr>", "y"] env.tr.toInt = none
            ∨ object.get ["<xmlattr>", "width"] env.tr.toInt = none
            ∨ object.get ["<xmlattr>", "height"] env.tr.toInt = none)) →
        (Level.loadZip env l zipFilename).level.mBoundary.valid = false) := by
  obtain ⟨pt, l6, hx, hb⟩ := Level.loadZip_mBoundary env l zipFilename h
  refine ⟨pt, hx, ?_, ?_⟩
  · intro object x y width height ho h1 h2 h3 h4
    rw [hb]
    exact Level.evalBoundary_complete env.toLibrary pt object l6 x y width height ho h1 h2 h3 h4
  · intro hi
    rw [hb]
    exact Level.evalBoundary_incomplete env.toLibrary pt l6 hi

/-- Witness for C13: the scenario with a boundary object, loaded into the loaded level. -/
theorem boundary_parsing_witness :
    (Level.loadZip (sampleEnv boundaryDescriptor) loadedLevel
      "levels/0001.zip").level.mSuccessfullyLoaded = true ∧
    (∃ pt, (sampleEnv boundaryDescriptor).read_xml
        (extractedFiles (sampleEnv boundaryDescriptor) "levels/0001.zip").1 = some pt ∧
      (∀ (object : PTree) (x y width height : Int),
        pt.get_child ["map", "objectgroup", "object"] = some object →
        object.get ["<xmlattr>", "x"] (sampleEnv boundaryDescriptor).tr.toInt = some x →
        object.get ["<xmlattr>", "y"] (sampleEnv boundaryDescriptor).tr.toInt = some y →
        object.get ["<xmlattr>", "width"] (sampleEnv boundaryDescriptor).tr.toInt
          = some width →
        object.get ["<xmlattr>", "height"] (sampleEnv boundaryDescriptor).tr.toInt
          = some height →
        (Level.loadZip (sampleEnv boundaryDescriptor) loadedLevel
          "levels/0001.zip").level.mBoundary = ⟨x, y, x + width, y + height, true⟩) ∧
      ((pt.get_child ["map", "objectgroup", "object"] = none
        ∨ ∃ object, pt.get_child ["map", "objectgroup", "object"] = some object ∧
          (object.get ["<xmlattr>", "x"] (sampleEnv boundaryDescriptor).tr.toInt = none
            ∨ object.get ["<xmlattr>", "y"] (sampleEnv boundaryDescriptor).tr.toInt = none
            ∨ object.get ["<xmlattr>", "width"] (sampleEnv boundaryDescriptor).tr.toInt = none
            ∨ object.get ["<xmlattr>", "height"] (sampleEnv boundaryDescriptor).tr.toInt
              = none)) →
        (Level.loadZip (sampleEnv boundaryDescriptor) loadedLevel
          "levels/0001.zip").level.mBoundary.valid = false)) :=
  ⟨by decide,
    boundary_parsing (sampleEnv boundaryDescriptor) loadedLevel "levels/0001.zip" (by decide)⟩

/-- Sample evaluations of the boundary: the object of `boundaryDescriptor` gives the
rectangle from (1, 2) to (31, 22); the scenario without object gives an invalid boundary. -/
theorem boundary_samples :
    (Level.loadZip (sampleEnv boundaryDescriptor) loadedLevel
      "levels/0001.zip").level.mBoundary = ⟨1, 2, 31, 22, true⟩ ∧
    (Level.loadZip (sampleEnv scenarioDescriptor)
      { loadedLevel with mBoundary := ⟨1, 2, 31, 22, true⟩ }
      "levels/0001.zip").level.mBoundary.valid = false := by
  decide

/-! ### Optional parameters at parse time -/

theorem evalTileProperty_linearDamping_eq (env : Library) (tp tp2 : TileParam)
    (propName : String) (property : PTree) (hn : propName ≠ "lineardamping")
    (h : evalTileProperty env tp propName property = some tp2) :
    tp2.linearDamping = tp.linearDamping := by
  revert tp2
  unfold evalTileProperty
  repeat' first
    | refine ite_some_neg (fun t : TileParam => t.linearDamping = tp.linearDamping) hn ?_
    | refine ite_some_imp (fun t : TileParam => t.linearDamping = tp.linearDamping) ?_ ?_
    | (intro t h; cases h; rfl)
    | (intro t h; cases hv : property.getString valuePath <;> simp only [hv] at h <;>
        cases h; rfl)

theorem evalTileProperty_angularDamping_eq (env : Library) (tp tp2 : TileParam)
    (propName : String) (property : PTree) (hn : propName ≠ "angulardamping")
    (h : evalTileProperty env tp propName property = some tp2) :
    tp2.angularDamping = tp.angularDamping := by
  revert tp2
  unfold evalTileProperty
  repeat' first
    | refine ite_some_neg (fun t : TileParam => t.angularDamping = tp.angularDamping) hn ?_
    | refine ite_some_imp (fun t : TileParam => t.angularDamping = tp.angularDamping) ?_ ?_
    | (intro t h; cases h; rfl)
    | (intro t h; cases hv : property.getString valuePath <;> simp only [hv] at h <;>
        cases h; rfl)

theorem namesProperty_elim (name : String) (pi : String × PTree)
    (h : namesProperty name pi = true) :
    pi.1 = "property" ∧ ∃ propName, pi.2.getString ["<xmlattr>", "name"] = some propName ∧
      to_lower propName = name := by
  unfold namesProperty at h
  cases hname : pi.2.getString ["<xmlattr>", "name"] with
  | none => simp [hname] at h
  | some propName =>
    simp only [hname, Bool.and_eq_true, decide_eq_true_eq] at h
    exact ⟨h.1, propName, rfl, h.2⟩

theorem evalTilePropertyElement_density (env : Library) (tp : TileParam) (pi : String × PTree)
    (hn : namesProperty "density" pi = true) :
    (evalTilePropertyElement env tp pi).density
      = some (pi.2.getD valuePath env.tr.toFloat 20) := by
  obtain ⟨hk, propName, hname, hlow⟩ := namesProperty_elim _ _ hn
  unfold evalTilePropertyElement
  simp [hk, hname, hlow, evalTileProperty]

theorem evalTilePropertyElement_friction (env : Library) (tp : TileParam)
    (pi : String × PTree) (hn : namesProperty "friction" pi = true) :
    (evalTilePropertyElement env tp pi).friction
      = some (pi.2.getD valuePath env.tr.toFloat (5 / 10)) := by
  obtain ⟨hk, propName, hname, hlow⟩ := namesProperty_elim _ _ hn
  unfold evalTilePropertyElement
  simp [hk, hname, hlow, evalTileProperty]

theorem evalTilePropertyElement_restitution (env : Library) (tp : TileParam)
    (pi : String × PTree) (hn : namesProperty "restitution" pi = true) :
    (evalTilePropertyElement env tp pi).restitution
      = some (pi.2.getD valuePath env.tr.toFloat 1) := by
  obtain ⟨hk, propName, hname, hlow⟩ := namesProperty_elim _ _ hn
  unfold evalTilePropertyElement
  simp [hk, hname, hlow, evalTileProperty]

theorem evalTilePropertyElement_linearDamping (env : Library) (tp : TileParam)
    (pi : String × PTree) (hn : namesProperty "lineardamping" pi = true) :
    (evalTilePropertyElement env tp pi).linearDamping
      = some (pi.2.getD valuePath env.tr.toFloat 5) := by
  obtain ⟨hk, propName, hname, hlow⟩ := namesProperty_elim _ _ hn
  unfold evalTilePropertyElement
  simp [hk, hname, hlow, evalTileProperty]

theorem evalTilePropertyElement_angularDamping (env : Library) (tp : TileParam)
    (pi : String × PTree) (hn : namesProperty "angulardamping" pi = true) :
    (evalTilePropertyElement env tp pi).angularDamping
      = some (pi.2.getD valuePath env.tr.toFloat (4 / 10)) := by
  obtain ⟨hk, propName, hname, hlow⟩ := namesProperty_elim _ _ hn
  unfold evalTilePropertyElement
  simp [hk, hname, hlow, evalTileProperty]

/-- A list with an element satisfying `p` splits at the last such element. -/
theorem exists_last_split {α : Type} (p : α → Bool) (l : List α)
    (h : ∃ a ∈ l, p a = true) :
    ∃ pre a post, l = pre ++ a :: post ∧ p a = true ∧ ∀ q ∈ post, p q = false := by
  induction l with
  | nil =>
    obtain ⟨a, ha, -⟩ := h
    simp at ha
  | cons b rest ih =>
    by_cases hr : ∃ a ∈ rest, p a = true
    · obtain ⟨pre, a, post, e, ha, hpost⟩ := ih hr
      exact ⟨b :: pre, a, post, by rw [e]; rfl, ha, hpost⟩
    · have hb : p b = true := by
        obtain ⟨a, ha, hpa⟩ := h
        rcases List.mem_cons.mp ha with e | e
        · rw [← e]; exact hpa
        · exact absurd ⟨a, e, hpa⟩ hr
      refine ⟨[], b, rest, rfl, hb, ?_⟩
      intro q hq
      by_contra hne
      exact hr ⟨q, hq, by simpa using hne⟩

/-- What the parser does with one optional parameter, given how single properties treat
the member `f`: properties of other names keep it, a property of the name `name` sets it to
its value or else to the fallback `dflt`. -/
theorem parseTileProperties_optional (env : Library) (texture : Texture)
    (tileProperties : PTree) (f : TileParam → Option ℚ) (name : String) (dflt : ℚ)
    (hkeep : ∀ (tp tp2 : TileParam) (propName : String) (property : PTree),
      propName ≠ name → evalTileProperty env tp propName property = some tp2 → f tp2 = f tp)
    (hset : ∀ (tp : TileParam) (pi : String × PTree), namesProperty name pi = true →
      f (evalTilePropertyElement env tp pi) = some (pi.2.getD valuePath env.tr.toFloat dflt))
    (hfix : ∀ tp : TileParam, f (defaultFixed env tp) = f tp)
    (hstart : f { env.consts.newTileParam with texture := texture } = none) :
    ((∀ pi ∈ tileProperties.children, namesProperty name pi = false) →
      f (parseTileProperties env texture tileProperties) = none) ∧
    (∀ pre pi post, tileProperties.children = pre ++ pi :: post →
      namesProperty name pi = true → (∀ q ∈ post, namesProperty name q = false) →
      f (parseTileProperties env texture tileProperties)
        = some (pi.2.getD valuePath env.tr.toFloat dflt)) ∧
    ((f (parseTileProperties env texture tileProperties)).isSome = true ↔
      ∃ pi ∈ tileProperties.children, namesProperty name pi = true) := by
  have h1 : (∀ pi ∈ tileProperties.children, namesProperty name pi = false) →
      f (parseTileProperties env texture tileProperties) = none := by
    intro hn
    unfold parseTileProperties
    rw [hfix, evalTileProperties_preserves f name env hkeep _ _ hn]
    exact hstart
  have h2 : ∀ pre pi post, tileProperties.children = pre ++ pi :: post →
      namesProperty name pi = true → (∀ q ∈ post, namesProperty name q = false) →
      f (parseTileProperties env texture tileProperties)
        = some (pi.2.getD valuePath env.tr.toFloat dflt) := by
    intro pre pi post hc hn hpost
    unfold parseTileProperties
    rw [hfix, hc, evalTileProperties_append, evalTileProperties_cons,
      evalTileProperties_preserves f name env hkeep _ _ hpost]
    exact hset _ pi hn
  refine ⟨h1, h2, ?_⟩
  constructor
  · intro hs
    by_contra hne
    have hall : ∀ pi ∈ tileProperties.children, namesProperty name pi = false := by
      intro pi hpi
      by_contra hp
      exact hne ⟨pi, hpi, by simpa using hp⟩
    rw [h1 hall] at hs
    exact Bool.noConfusion hs
  · intro hex
    obtain ⟨pre, pi, post, hc, hn, hpost⟩ := exists_last_split (namesProperty name) _ hex
    rw [h2 pre pi post hc hn hpost]
    rfl

theorem defaultFixed_damping (env : Library) (tp : TileParam) :
    (defaultFixed env tp).linearDamping = tp.linearDamping ∧
      (defaultFixed env tp).angularDamping = tp.angularDamping := by
  unfold defaultFixed
  split <;> exact ⟨rfl, rfl⟩

/-- Counterexample to C11: a tile record whose `friction` property has the unparsable value
`abc`, and one whose `friction` property has no value attribute, both end with friction Set,
to the fallback 0.5 of the parser. -/
theorem unparsable_value_sets_fallback :
    (propertyElement "friction" "abc").2.get valuePath sampleLibrary.tr.toFloat = none ∧
    (propertyWithoutValue "friction").2.get valuePath sampleLibrary.tr.toFloat = none ∧
    sampleLibrary.consts.newTileParam.friction = none ∧
    (parseTileProperties sampleLibrary ⟨16, 16⟩
      (.node "" [propertyElement "friction" "abc"])).friction = some 0.5 ∧
    (parseTileProperties sampleLibrary ⟨16, 16⟩
      (.node "" [propertyWithoutValue "friction"])).friction = some 0.5 := by
  have e1 : (propertyElement "friction" "abc").2.get valuePath sampleLibrary.tr.toFloat
      = none := by decide
  have e2 : (propertyWithoutValue "friction").2.get valuePath sampleLibrary.tr.toFloat
      = none := by decide
  have hgen := fun (props : PTree) => parseTileProperties_optional sampleLibrary ⟨16, 16⟩ props
    TileParam.friction "friction" (5 / 10) (evalTileProperty_friction_eq sampleLibrary)
    (evalTilePropertyElement_friction sampleLibrary)
    (fun tp => (defaultFixed_material sampleLibrary tp).2.1) rfl
  refine ⟨e1, e2, rfl, ?_, ?_⟩
  · rw [(hgen (.node "" [propertyElement "friction" "abc"])).2.1 [] _ [] rfl (by decide)
      (by simp)]
    unfold PTree.getD
    rw [e1]
    norm_num
  · rw [(hgen (.node "" [propertyWithoutValue "friction"])).2.1 [] _ [] rfl (by decide)
      (by simp)]
    unfold PTree.getD
    rw [e2]
    norm_num

/-- C11, as amended: for every tile record and each optional parameter among density,
friction, restitution, linear damping and angular damping (a default-constructed `TileParam`
having it Unset): without a property element of that name the parameter is Unset after
parsing; with one, wherever it stands, the parameter is Set, to the explicit value when the
value attribute is present and parsable and otherwise to the fallback of the parser
(density 20, friction 0.5, restitution 1, linear damping 5, angular damping 0.4); so the
parameter is Set exactly when the record contains a property element of that name. -/
theorem optional_parameters_at_parse (env : Library) (texture : Texture)
    (tileProperties : PTree) (entry : String × (TileParam → Option ℚ) × ℚ)
    (hentry : entry ∈ optionalParameters) (hnew : entry.2.1 env.consts.newTileParam = none) :
    ((∀ pi ∈ tileProperties.children, namesProperty entry.1 pi = false) →
      entry.2.1 (parseTileProperties env texture tileProperties) = none) ∧
    (∀ pre pi post, tileProperties.children = pre ++ pi :: post →
      namesProperty entry.1 pi = true → (∀ q ∈ post, namesProperty entry.1 q = false) →
      entry.2.1 (parseTileProperties env texture tileProperties)
          = some (pi.2.getD valuePath env.tr.toFloat entry.2.2) ∧
        (∀ v, pi.2.get valuePath env.tr.toFloat = some v →
          entry.2.1 (parseTileProperties env texture tileProperties) = some v) ∧
        (pi.2.get valuePath env.tr.toFloat = none →
          entry.2.1 (parseTileProperties env texture tileProperties) = some entry.2.2)) ∧
    ((entry.2.1 (parseTileProperties env texture tileProperties)).isSome = true ↔
      ∃ pi ∈ tileProperties.children, namesProperty entry.1 pi = true) := by
  have hgen : ∀ (f : TileParam → Option ℚ) (name : String) (dflt : ℚ),
      (∀ (tp tp2 : TileParam) (propName : String) (property : PTree),
        propName ≠ name → evalTileProperty env tp propName property = some tp2 →
        f tp2 = f tp) →
      (∀ (tp : TileParam) (pi : String × PTree), namesProperty name pi = true →
        f (evalTilePropertyElement env tp pi)
          = some (pi.2.getD valuePath env.tr.toFloat dflt)) →
      (∀ tp : TileParam, f (defaultFixed env tp) = f tp) →
      f { env.consts.newTileParam with texture := texture } = none →
      ((∀ pi ∈ tileProperties.children, namesProperty name pi = false) →
        f (parseTileProperties env texture tileProperties) = none) ∧
      (∀ pre pi post, tileProperties.children = pre ++ pi :: post →
        namesProperty name pi = true → (∀ q ∈ post, namesProperty name q = false) →
        f (parseTileProperties env texture tileProperties)
            = some (pi.2.getD valuePath env.tr.toFloat dflt) ∧
          (∀ v, pi.2.get valuePath env.tr.toFloat = some v →
            f (parseTileProperties env texture tileProperties) = some v) ∧
          (pi.2.get valuePath env.tr.toFloat = none →
            f (parseTileProperties env texture tileProperties) = some dflt)) ∧
      ((f (parseTileProperties env texture tileProperties)).isSome = true ↔
        ∃ pi ∈ tileProperties.children, namesProperty name pi = true) := by
    intro f name dflt hkeep hset hfix hstart
    obtain ⟨h1, h2, h3⟩ := parseTileProperties_optional env texture tileProperties f name dflt
      hkeep hset hfix hstart
    refine ⟨h1, ?_, h3⟩
    intro pre pi post hc hn hpost
    have e := h2 pre pi post hc hn hpost
    refine ⟨e, ?_, ?_⟩
    · intro v hv
      rw [e]
      unfold PTree.getD
      rw [hv]
    · intro hv
      rw [e]
      unfold PTree.getD
      rw [hv]
  simp only [optionalParameters, List.mem_cons, List.mem_singleton, List.not_mem_nil,
    or_false] at hentry
  rcases hentry with e | e | e | e | e
  · subst e
    exact hgen _ _ _ (evalTileProperty_density_eq env) (evalTilePropertyElement_density env)
      (fun tp => (defaultFixed_material env tp).1) hnew
  · subst e
    exact hgen _ _ _ (evalTileProperty_friction_eq env) (evalTilePropertyElement_friction env)
      (fun tp => (defaultFixed_material env tp).2.1) hnew
  · subst e
    exact hgen _ _ _ (evalTileProperty_restitution_eq env)
      (evalTilePropertyElement_restitution env)
      (fun tp => (defaultFixed_material env tp).2.2) hnew
  · subst e
    exact hgen _ _ _ (evalTileProperty_linearDamping_eq env)
      (evalTilePropertyElement_linearDamping env)
      (fun tp => (defaultFixed_damping env tp).1) hnew
  · subst e
    exact hgen _ _ _ (evalTileProperty_angularDamping_eq env)
      (evalTilePropertyElement_angularDamping env)
      (fun tp => (defaultFixed_damping env tp).2) hnew

/-- Witness for C11 as amended: friction, for the sample tile with an unparsable value. -/
theorem optional_parameters_at_parse_witness :
    ((("friction", TileParam.friction, 5 / 10) : String × (TileParam → Option ℚ) × ℚ)
        ∈ optionalParameters ∧
      TileParam.friction sampleLibrary.consts.newTileParam = none) ∧
    (((∀ pi ∈ (PTree.node "" [propertyElement "friction" "abc"]).children,
        namesProperty "friction" pi = false) →
      TileParam.friction (parseTileProperties sampleLibrary ⟨16, 16⟩
        (.node "" [propertyElement "friction" "abc"])) = none) ∧
    (∀ pre pi post,
      (PTree.node "" [propertyElement "friction" "abc"]).children = pre ++ pi :: post →
      namesProperty "friction" pi = true → (∀ q ∈ post, namesProperty "friction" q = false) →
      TileParam.friction (parseTileProperties sampleLibrary ⟨16, 16⟩
          (.node "" [propertyElement "friction" "abc"]))
          = some (pi.2.getD valuePath sampleLibrary.tr.toFloat (5 / 10)) ∧
        (∀ v, pi.2.get valuePath sampleLibrary.tr.toFloat = some v →
          TileParam.friction (parseTileProperties sampleLibrary ⟨16, 16⟩
            (.node "" [propertyElement "friction" "abc"])) = some v) ∧
        (pi.2.get valuePath sampleLibrary.tr.toFloat = none →
          TileParam.friction (parseTileProperties sampleLibrary ⟨16, 16⟩
            (.node "" [propertyElement "friction" "abc"])) = some (5 / 10))) ∧
    ((TileParam.friction (parseTileProperties sampleLibrary ⟨16, 16⟩
        (.node "" [propertyElement "friction" "abc"]))).isSome = true ↔
      ∃ pi ∈ (PTree.node "" [propertyElement "friction" "abc"]).children,
        namesProperty "friction" pi = true)) :=
  ⟨⟨List.mem_cons_of_mem _ (List.mem_cons_self _ _), rfl⟩,
    optional_parameters_at_parse sampleLibrary ⟨16, 16⟩
      (.node "" [propertyElement "friction" "abc"]) ("friction", TileParam.friction, 5 / 10)
      (List.mem_cons_of_mem _ (List.mem_cons_self _ _)) rfl⟩

/-! ### Particle systems -/

theorem SimpleParticle.update_fst (p : SimpleParticle) (age : Time) (world : World) :
    (p.update age world).1 = p.after [age] := by
  obtain ⟨d, L, b⟩ := p
  unfold SimpleParticle.update SimpleParticle.after
  by_cases h : age.micros > L.micros <;> cases d <;> simp [h]

theorem SimpleParticle.after_nil (p : SimpleParticle) : p.after [] = p := by
  simp [SimpleParticle.after]

theorem SimpleParticle.after_after (p : SimpleParticle) (as bs : List Time) :
    (p.after as).after bs = p.after (as ++ bs) := by
  simp [SimpleParticle.after, Bool.or_assoc]

theorem SimpleParticle.update_log (p : SimpleParticle) (age : Time) (world : World)
    (h : Nat) :
    ∃ D : List Nat, (p.update age world).2 = { world with destroyed := world.destroyed ++ D } ∧
      D.count h + ParticleSystem.pending h [(p.update age world).1]
        = ParticleSystem.pending h [p] := by
  obtain ⟨d, L, b⟩ := p
  unfold SimpleParticle.update
  by_cases hc : age.micros > L.micros ∧ d = false
  · refine ⟨[b], ?_, ?_⟩
    · simp [hc, World.DestroyBody]
    · obtain ⟨h1, h2⟩ := hc
      subst h2
      by_cases hb : b = h <;> simp [h1, ParticleSystem.pending, hb, List.count_cons]
  · refine ⟨[], ?_, ?_⟩
    · simp [hc]
    · simp [hc]

theorem ParticleSystem.pending_cons (h : Nat) (p : SimpleParticle) (ps : List SimpleParticle) :
    ParticleSystem.pending h (p :: ps)
      = ParticleSystem.pending h [p] + ParticleSystem.pending h ps := by
  unfold ParticleSystem.pending
  rw [List.countP_cons, List.countP_cons, List.countP_nil]
  omega

theorem ParticleSystem.updateParticles_closed (age : Time) (h : Nat) :
    ∀ (ps : List SimpleParticle) (world : World) (allDead : Bool),
      (ParticleSystem.updateParticles age ps world allDead).1
          = ps.map (fun p => p.after [age]) ∧
        (ParticleSystem.updateParticles age ps world allDead).2.2
          = (allDead && (ps.map (fun p => p.after [age])).all SimpleParticle.dead) ∧
        ∃ D : List Nat, (ParticleSystem.updateParticles age ps world allDead).2.1
            = { world with destroyed := world.destroyed ++ D } ∧
          D.count h + ParticleSystem.pending h (ps.map (fun p => p.after [age]))
            = ParticleSystem.pending h ps := by
  intro ps
  induction ps with
  | nil =>
    intro world allDead
    refine ⟨rfl, by simp [ParticleSystem.updateParticles], [], by
      simp [ParticleSystem.updateParticles], rfl⟩
  | cons p rest ih =>
    intro world allDead
    obtain ⟨i1, i2, D2, i3, i4⟩ := ih (p.update age world).2
      (allDead && (p.update age world).1.dead)
    obtain ⟨D1, u1, u2⟩ := p.update_log age world h
    have hf := p.update_fst age world
    refine ⟨?_, ?_, D1 ++ D2, ?_, ?_⟩
    · show (p.update age world).1 :: _ = _
      rw [i1, hf]
      rfl
    · show (ParticleSystem.updateParticles age rest _ _).2.2 = _
      rw [i2, hf]
      simp [Bool.and_assoc]
    · show (ParticleSystem.updateParticles age rest _ _).2.1 = _
      rw [i3, u1]
      simp
    · rw [List.map_cons, ParticleSystem.pending_cons, ParticleSystem.pending_cons h p,
        List.count_append, ← i4, ← u2, hf]
      omega

theorem ParticleSystem.updates_closed (h : Nat) :
    ∀ (ages : List Time) (ps : ParticleSystem) (world : World),
      (ps.updates world ages).1.mParticles = ps.mParticles.map (fun p => p.after ages) ∧
        (ps.updates world ages).1.mMaxAge = ps.mMaxAge ∧
        ∃ D : List Nat, (ps.updates world ages).2.1
            = { world with destroyed := world.destroyed ++ D } ∧
          D.count h + ParticleSystem.pending h (ps.mParticles.map (fun p => p.after ages))
            = ParticleSystem.pending h ps.mParticles := by
  intro ages
  induction ages with
  | nil =>
    intro ps world
    refine ⟨?_, rfl, [], ?_, ?_⟩
    · simp [ParticleSystem.updates, SimpleParticle.after_nil]
    · simp [ParticleSystem.updates]
    · simp [SimpleParticle.after_nil]
  | cons age ages ih =>
    intro ps world
    obtain ⟨c1, _, D1, c3, c4⟩ :=
      ParticleSystem.updateParticles_closed age h ps.mParticles world true
    obtain ⟨i1, i2, D2, i3, i4⟩ := ih (ps.onUpdate world age).1 (ps.onUpdate world age).2.1
    have e1 : (ps.onUpdate world age).1.mParticles
        = ps.mParticles.map (fun p => p.after [age]) := c1
    have e2 : (ps.onUpdate world age).2.1
        = { world with destroyed := world.destroyed ++ D1 } := c3
    have e3 : (ps.onUpdate world age).1.mMaxAge = ps.mMaxAge := rfl
    have hmap : (ps.mParticles.map (fun p => p.after [age])).map (fun p => p.after ages)
        = ps.mParticles.map (fun p => p.after (age :: ages)) := by
      rw [List.map_map]
      apply List.map_congr_left
      intro p _
      exact p.after_after [age] ages
    refine ⟨?_, ?_, D1 ++ D2, ?_, ?_⟩
    · show (ParticleSystem.updates _ _ ages).1.mParticles = _
      rw [i1, e1, hmap]
    · show (ParticleSystem.updates _ _ ages).1.mMaxAge = _
      rw [i2, e3]
    · show (ParticleSystem.updates _ _ ages).2.1 = _
      rw [i3, e2]
      simp
    · rw [e1, hmap] at i4
      rw [List.count_append]
      omega

theorem ParticleSystem.updates_kill (ages : List Time) :
    ∀ (ps : ParticleSystem) (world : World) (k : Nat) (hk : k < ages.length),
      (ps.updates world ages).2.2[k]?
        = some (((ps.updates world (ages.take k)).1.onUpdate
            (ps.updates world (ages.take k)).2.1 ages[k]).2.2) := by
  induction ages with
  | nil => intro ps world k hk; exact absurd hk (Nat.not_lt_zero k)
  | cons age ages ih =>
    intro ps world k hk
    cases k with
    | zero => simp [ParticleSystem.updates]
    | succ k =>
      have hk2 : k < ages.length := Nat.lt_of_succ_lt_succ hk
      have hi := ih (ps.onUpdate world age).1 (ps.onUpdate world age).2.1 k hk2
      simpa [ParticleSystem.updates] using hi

theorem ParticleSystem.destroyParticles_log (h : Nat) :
    ∀ (ps : List SimpleParticle) (world : World),
      ∃ D : List Nat, ParticleSystem.destroyParticles ps world
          = { world with destroyed := world.destroyed ++ D } ∧
        D.count h = ParticleSystem.pending h ps := by
  intro ps
  induction ps with
  | nil => intro world; exact ⟨[], by simp [ParticleSystem.destroyParticles], rfl⟩
  | cons p rest ih =>
    intro world
    obtain ⟨d, L, b⟩ := p
    cases d with
    | true =>
      obtain ⟨D, i1, i2⟩ := ih world
      refine ⟨D, ?_, ?_⟩
      · simpa [ParticleSystem.destroyParticles] using i1
      · rw [ParticleSystem.pending_cons, i2]
        simp [ParticleSystem.pending]
    | false =>
      obtain ⟨D, i1, i2⟩ := ih (world.DestroyBody b)
      refine ⟨b :: D, ?_, ?_⟩
      · simp only [World.DestroyBody] at i1
        simp only [ParticleSystem.destroyParticles, World.DestroyBody, if_true]
        rw [i1]
        simp
      · rw [ParticleSystem.pending_cons, List.count_cons, i2]
        by_cases hb : b = h <;> simp [ParticleSystem.pending, hb]
        omega

theorem ParticleSystem.createParticles_closed (randomLifetime : Nat → Int) :
    ∀ (n i : Nat) (world : World),
      (ParticleSystem.createParticles randomLifetime i n world).1
          = (List.range n).map (fun j =>
              ({ dead := false, lifeTime := milliseconds (randomLifetime (i + j)),
                 body := world.created + j } : SimpleParticle)) ∧
        (ParticleSystem.createParticles randomLifetime i n world).2
          = { world with created := world.created + n } := by
  intro n
  induction n with
  | zero => intro i world; exact ⟨rfl, rfl⟩
  | succ n ih =>
    intro i world
    obtain ⟨i1, i2⟩ := ih (i + 1) world.CreateBody.2
    constructor
    · show _ :: (ParticleSystem.createParticles randomLifetime (i + 1) n _).1 = _
      rw [i1, List.range_succ_eq_map, List.map_cons, List.map_map]
      simp only [World.CreateBody, Nat.add_zero, List.cons.injEq, true_and]
      apply List.map_congr_left
      intro j _
      simp only [Function.comp, Nat.succ_eq_add_one]
      rw [show i + 1 + j = i + (j + 1) by omega,
        show world.created + 1 + j = world.created + (j + 1) by omega]
    · show (ParticleSystem.createParticles randomLifetime (i + 1) n _).2 = _
      rw [i2]
      simp only [World.CreateBody]
      rw [show world.created + 1 + n = world.created + (n + 1) by omega]

theorem countP_range_single (q : Nat → Bool) (i : Nat) :
    ∀ n : Nat, (List.range n).countP (fun j => decide (j = i) && q j)
      = if i < n ∧ q i = true then 1 else 0 := by
  intro n
  induction n with
  | zero => simp
  | succ n ih =>
    rw [List.range_succ, List.countP_append, ih]
    by_cases h1 : i < n
    · have h2 : ¬ n = i := by omega
      have h3 : i < n + 1 := by omega
      simp [h1, h2, h3]
    · by_cases h2 : n = i
      · subst h2
        by_cases hq : q n = true <;> simp [hq]
      · have h3 : ¬ i < n + 1 := by omega
        simp [h1, h2, h3]

theorem greatest_lt_iff (x : Int) :
    ∀ l : List Int, l ≠ [] → (greatest l < x ↔ ∀ y ∈ l, y < x) := by
  intro l
  induction l with
  | nil => intro h; exact absurd rfl h
  | cons a rest ih =>
    intro _
    cases rest with
    | nil => simp [greatest]
    | cons b rest =>
      have hi := ih (by simp)
      simp only [greatest, max_lt_iff, hi, List.mem_cons, forall_eq_or_imp]

theorem any_take_of_increasing (ages : List Time)
    (hinc : ages.Pairwise (fun a b => a.micros ≤ b.micros)) (k : Nat) (hk : k < ages.length)
    (L : Int) :
    (ages.take (k + 1)).any (fun a => decide (a.micros > L)) = decide (ages[k].micros > L) := by
  have hsplit : ages = ages.take k ++ ages[k] :: ages.drop (k + 1) := by
    rw [← List.drop_eq_getElem_cons hk, List.take_append_drop]
  have htake : ages.take (k + 1) = ages.take k ++ [ages[k]] := by
    rw [List.take_succ, List.getElem?_eq_getElem hk]
    rfl
  rw [hsplit] at hinc
  rw [List.pairwise_append] at hinc
  obtain ⟨_, _, hcross⟩ := hinc
  rw [htake, List.any_append]
  by_cases hgt : ages[k].micros > L
  · simp [hgt]
  · have hnone : (ages.take k).any (fun a => decide (a.micros > L)) = false := by
      rw [List.any_eq_false]
      intro a ha
      have := hcross a ha ages[k] (List.mem_cons_self _ _)
      simp only [decide_eq_true_eq]
      omega
    simp [hgt, hnone]

theorem ParticleSystem.onUpdate_kill (ps : ParticleSystem) (world : World) (age : Time) :
    (ps.onUpdate world age).2.2
      = ((ps.mParticles.map (fun p => p.after [age])).all SimpleParticle.dead
          || decide (age.micros > ps.mMaxAge.micros)) := by
  obtain ⟨_, c2, _⟩ := ParticleSystem.updateParticles_closed age 0 ps.mParticles world true
  show ((ParticleSystem.updateParticles age ps.mParticles world true).2.2
    || ps.overAge age) = _
  rw [c2]
  simp [ParticleSystem.overAge]

theorem ParticleSystem.kill_of_increasing (ps : ParticleSystem) (world : World)
    (ages : List Time) (hne : ps.mParticles ≠ [])
    (hlive : ∀ p ∈ ps.mParticles, p.dead = false)
    (hinc : ages.Pairwise (fun a b => a.micros ≤ b.micros)) (k : Nat) (hk : k < ages.length) :
    (ps.updates world ages).2.2[k]?
      = some (decide (ages[k].micros
          > min (greatest (ps.mParticles.map (fun p => p.lifeTime.micros)))
              ps.mMaxAge.micros)) := by
  rw [ParticleSystem.updates_kill ages ps world k hk, ParticleSystem.onUpdate_kill]
  obtain ⟨u1, u2, _⟩ := ParticleSystem.updates_closed 0 (ages.take k) ps world
  rw [u1, u2]
  have htake : ages.take (k + 1) = ages.take k ++ [ages[k]] := by
    rw [List.take_succ, List.getElem?_eq_getElem hk]
    rfl
  have hall : ((ps.mParticles.map (fun p => p.after (ages.take k))).map
        (fun p => p.after [ages[k]])).all SimpleParticle.dead
      = decide (greatest (ps.mParticles.map (fun p => p.lifeTime.micros))
          < ages[k].micros) := by
    rw [Bool.eq_iff_iff, decide_eq_true_iff, greatest_lt_iff _ _ (by simpa using hne)]
    simp only [List.all_eq_true, List.mem_map, forall_exists_index, and_imp,
      forall_apply_eq_imp_iff₂]
    constructor
    · intro h p hp
      have h1 := h p hp
      rw [SimpleParticle.after_after, ← htake] at h1
      have h2 : (p.after (ages.take (k + 1))).dead
          = decide (ages[k].micros > p.lifeTime.micros) := by
        simp only [SimpleParticle.after, hlive p hp, Bool.false_or]
        exact any_take_of_increasing ages hinc k hk _
      rw [h2] at h1
      simpa using h1
    · intro h p hp
      rw [SimpleParticle.after_after, ← htake]
      have h2 : (p.after (ages.take (k + 1))).dead
          = decide (ages[k].micros > p.lifeTime.micros) := by
        simp only [SimpleParticle.after, hlive p hp, Bool.false_or]
        exact any_take_of_increasing ages hinc k hk _
      rw [h2]
      simpa using h p hp
  rw [hall]
  congr 1
  rw [Bool.eq_iff_iff]
  simp only [Bool.or_eq_true, decide_eq_true_eq, gt_iff_lt, min_lt_iff]

theorem ParticleSystem.new_particles (world : World) (randomLifetime : Nat → Int)
    (count : Nat) :
    (ParticleSystem.new world randomLifetime count).1.mParticles
        = (List.range count).map (fun j =>
            ({ dead := false, lifeTime := milliseconds (randomLifetime j),
               body := world.created + j } : SimpleParticle)) ∧
      (ParticleSystem.new world randomLifetime count).1.mMaxAge = ParticleSystem.sMaxAge ∧
      (ParticleSystem.new world randomLifetime count).2
        = { world with created := world.created + count } := by
  obtain ⟨c1, c2⟩ := ParticleSystem.createParticles_closed randomLifetime count 0 world
  refine ⟨?_, rfl, c2⟩
  show (ParticleSystem.createParticles randomLifetime 0 count world).1 = _
  rw [c1]
  simp

theorem ParticleSystem.lifecycle_particle (world : World) (randomLifetime : Nat → Int)
    (count : Nat) (ages : List Time) (i : Nat) (hi : i < count) :
    (ParticleSystem.lifecycle world randomLifetime count ages).1.mParticles[i]?
      = some { dead := ages.any (fun a =>
                 decide (a.micros > (milliseconds (randomLifetime i)).micros)),
               lifeTime := milliseconds (randomLifetime i), body := world.created + i } := by
  obtain ⟨n1, _, _⟩ := ParticleSystem.new_particles world randomLifetime count
  obtain ⟨u1, _, _⟩ := ParticleSystem.updates_closed 0 ages
    (ParticleSystem.new world randomLifetime count).1
    (ParticleSystem.new world randomLifetime count).2
  show ((ParticleSystem.new world randomLifetime count).1.updates _ ages).1.mParticles[i]? = _
  rw [u1, n1, List.map_map, List.getElem?_map, List.getElem?_range hi]
  simp [SimpleParticle.after]

theorem ParticleSystem.lifecycle_pending (world : World) (randomLifetime : Nat → Int)
    (count : Nat) (ages : List Time) (i : Nat) (hi : i < count) :
    ParticleSystem.pending (world.created + i)
        (ParticleSystem.lifecycle world randomLifetime count ages).1.mParticles
      = if ages.any (fun a => decide (a.micros > (milliseconds (randomLifetime i)).micros))
        then 0 else 1 := by
  obtain ⟨n1, _, _⟩ := ParticleSystem.new_particles world randomLifetime count
  obtain ⟨u1, _, _⟩ := ParticleSystem.updates_closed 0 ages
    (ParticleSystem.new world randomLifetime count).1
    (ParticleSystem.new world randomLifetime count).2
  show ParticleSystem.pending _
    ((ParticleSystem.new world randomLifetime count).1.updates _ ages).1.mParticles = _
  rw [u1, n1, List.map_map]
  unfold ParticleSystem.pending
  rw [List.countP_map]
  have hcongr : ∀ j ∈ List.range count,
      ((fun p : SimpleParticle => decide (p.body = world.created + i) && !p.dead) ∘
        ((fun p : SimpleParticle => p.after ages) ∘ fun j =>
          ({ dead := false, lifeTime := milliseconds (randomLifetime j),
             body := world.created + j } : SimpleParticle))) j = true ↔
      ((fun j => decide (j = i) && !(ages.any (fun a =>
          decide (a.micros > (milliseconds (randomLifetime j)).micros)))) j) = true := by
    intro j _
    simp [SimpleParticle.after]
  rw [List.countP_congr hcongr, countP_range_single]
  by_cases hany : ages.any (fun a =>
      decide (a.micros > (milliseconds (randomLifetime i)).micros)) = true
  · simp [hany]
  · simp only [Bool.not_eq_true] at hany
    simp [hany, hi]

theorem ParticleSystem.lifecycle_log (world : World) (randomLifetime : Nat → Int)
    (count : Nat) (ages : List Time) (h : Nat) :
    ∃ D : List Nat, (ParticleSystem.lifecycle world randomLifetime count ages).2.1.destroyed
        = world.destroyed ++ D ∧
      D.count h + ParticleSystem.pending h
          (ParticleSystem.lifecycle world randomLifetime count ages).1.mParticles
        = ParticleSystem.pending h
          (ParticleSystem.lifecycle world randomLifetime count []).1.mParticles := by
  obtain ⟨_, _, n3⟩ := ParticleSystem.new_particles world randomLifetime count
  obtain ⟨u1, _, D, u3, u4⟩ := ParticleSystem.updates_closed h ages
    (ParticleSystem.new world randomLifetime count).1
    (ParticleSystem.new world randomLifetime count).2
  refine ⟨D, ?_, ?_⟩
  · show ((ParticleSystem.new world randomLifetime count).1.updates _ ages).2.1.destroyed = _
    rw [u3, n3]
  · show _ + ParticleSystem.pending h
      ((ParticleSystem.new world randomLifetime count).1.updates _ ages).1.mParticles
      = ParticleSystem.pending h (ParticleSystem.new world randomLifetime count).1.mParticles
    rw [u1]
    exact u4

/-- C17 (each particle body is destroyed exactly once).  For a particle system of `count`
particles constructed in any world and updated at any ages, and each particle `i`: its body
is the `i`-th body created; the calls of `DestroyBody` made by the updates and the
destructor name that body exactly once; after the first `k` updates the call has been made
exactly when one of their ages exceeded the lifetime of the particle (so it is made by the
first such update, and by the destructor when there is none); and the dead flag, once true,
stays true. -/
theorem ParticleSystem.body_destroyed_once (world : World) (randomLifetime : Nat → Int)
    (count : Nat) (ages : List Time) (i : Nat) (hi : i < count) :
    (ParticleSystem.new world randomLifetime count).1.mParticles[i]?
        = some ⟨false, milliseconds (randomLifetime i), world.created + i⟩ ∧
    (∃ D : List Nat,
      ((ParticleSystem.lifecycle world randomLifetime count ages).1.destructor
          (ParticleSystem.lifecycle world randomLifetime count ages).2.1).destroyed
        = world.destroyed ++ D ∧ D.count (world.created + i) = 1) ∧
    (∀ k : Nat, ∃ D : List Nat,
      (ParticleSystem.lifecycle world randomLifetime count (ages.take k)).2.1.destroyed
        = world.destroyed ++ D ∧
      D.count (world.created + i)
        = if (ages.take k).any (fun a =>
            decide (a.micros > (milliseconds (randomLifetime i)).micros)) then 1 else 0) ∧
    (∀ j k : Nat, j ≤ k →
      ((ParticleSystem.lifecycle world randomLifetime count (ages.take j)).1.mParticles[i]?).map
          SimpleParticle.dead = some true →
      ((ParticleSystem.lifecycle world randomLifetime count (ages.take k)).1.mParticles[i]?).map
          SimpleParticle.dead = some true) := by
  have hstart := ParticleSystem.lifecycle_pending world randomLifetime count [] i hi
  simp only [List.any_nil] at hstart
  refine ⟨?_, ?_, ?_, ?_⟩
  · have := ParticleSystem.lifecycle_particle world randomLifetime count [] i hi
    simpa [ParticleSystem.lifecycle, ParticleSystem.updates] using this
  · obtain ⟨D1, l1, l2⟩ :=
      ParticleSystem.lifecycle_log world randomLifetime count ages (world.created + i)
    obtain ⟨D2, d1, d2⟩ := ParticleSystem.destroyParticles_log (world.created + i)
      (ParticleSystem.lifecycle world randomLifetime count ages).1.mParticles
      (ParticleSystem.lifecycle world randomLifetime count ages).2.1
    refine ⟨D1 ++ D2, ?_, ?_⟩
    · show (ParticleSystem.destroyParticles _ _).destroyed = _
      rw [d1]
      simp [l1]
    · rw [List.count_append, d2]
      rw [hstart] at l2
      simpa using l2
  · intro k
    obtain ⟨D1, l1, l2⟩ := ParticleSystem.lifecycle_log world randomLifetime count
      (ages.take k) (world.created + i)
    refine ⟨D1, l1, ?_⟩
    rw [hstart, ParticleSystem.lifecycle_pending world randomLifetime count _ i hi] at l2
    split at l2 <;> rename_i hc <;> simp [hc] at l2 ⊢ <;> omega
  · intro j k hjk
    rw [ParticleSystem.lifecycle_particle world randomLifetime count _ i hi,
      ParticleSystem.lifecycle_particle world randomLifetime count _ i hi]
    simp only [Option.map_some', Option.some.injEq, List.any_eq_true]
    rintro ⟨a, ha, hgt⟩
    refine ⟨a, ?_, hgt⟩
    have hsub : ages.take j = (ages.take k).take j := by
      rw [List.take_take, Nat.min_eq_left hjk]
    rw [hsub] at ha
    exact List.mem_of_mem_take ha

/-- Witness for C17: two particles with lifetimes 600 ms and 900 ms, updated at the ages
500, 700, 650 and 950 ms; the particle 0. -/
theorem ParticleSystem.body_destroyed_once_witness :
    0 < 2 ∧
    ((ParticleSystem.new sampleWorld sampleLifetime 2).1.mParticles[0]?
        = some ⟨false, milliseconds (sampleLifetime 0), sampleWorld.created + 0⟩ ∧
    (∃ D : List Nat,
      ((ParticleSystem.lifecycle sampleWorld sampleLifetime 2 sampleAges).1.destructor
          (ParticleSystem.lifecycle sampleWorld sampleLifetime 2 sampleAges).2.1).destroyed
        = sampleWorld.destroyed ++ D ∧ D.count (sampleWorld.created + 0) = 1) ∧
    (∀ k : Nat, ∃ D : List Nat,
      (ParticleSystem.lifecycle sampleWorld sampleLifetime 2 (sampleAges.take k)).2.1.destroyed
        = sampleWorld.destroyed ++ D ∧
      D.count (sampleWorld.created + 0)
        = if (sampleAges.take k).any (fun a =>
            decide (a.micros > (milliseconds (sampleLifetime 0)).micros)) then 1 else 0) ∧
    (∀ j k : Nat, j ≤ k →
      ((ParticleSystem.lifecycle sampleWorld sampleLifetime 2
          (sampleAges.take j)).1.mParticles[0]?).map SimpleParticle.dead = some true →
      ((ParticleSystem.lifecycle sampleWorld sampleLifetime 2
          (sampleAges.take k)).1.mParticles[0]?).map SimpleParticle.dead = some true)) :=
  ⟨by decide, ParticleSystem.body_destroyed_once sampleWorld sampleLifetime 2 sampleAges 0
    (by decide)⟩

/-- The sample swarm evaluated: at the ages 500, 700, 650, 950 ms the two particles
(lifetimes 600 and 900 ms, bodies 3 and 4) die in the second and the fourth update, which
calls `kill`; the destructor adds no call. -/
theorem ParticleSystem.lifecycle_samples :
    (ParticleSystem.lifecycle sampleWorld sampleLifetime 2 sampleAges).2.2
      = [false, false, false, true] ∧
    (ParticleSystem.lifecycle sampleWorld sampleLifetime 2 sampleAges).2.1.destroyed
      = [0, 3, 4] ∧
    ((ParticleSystem.lifecycle sampleWorld sampleLifetime 2 sampleAges).1.destructor
      (ParticleSystem.lifecycle sampleWorld sampleLifetime 2 sampleAges).2.1).destroyed
      = [0, 3, 4] ∧
    ((ParticleSystem.lifecycle sampleWorld sampleLifetime 2 [milliseconds 700]).1.destructor
      (ParticleSystem.lifecycle sampleWorld sampleLifetime 2 [milliseconds 700]).2.1).destroyed
      = [0, 3, 4] ∧
    (ParticleSystem.lifecycle sampleWorld sampleLifetime 2 increasingAges).2.2
      = [false, false, true, true] ∧
    (ParticleSystem.lifecycle sampleWorld sampleLifetime 3 increasingAges).2.2
      = [false, false, false, true] := by
  decide

theorem take_succ_getElem (ages : List Time) (k : Nat) (hk : k < ages.length) :
    ages.take (k + 1) = ages.take k ++ [ages[k]] := by
  rw [List.take_succ, List.getElem?_eq_getElem hk]
  rfl

/-- C14 (particle swarm termination).  For a particle system of `count ≥ 1` particles, whose
lifetimes are the numbers of milliseconds drawn in the constructor and whose ceiling is
`sMaxAge`, updated at ages in increasing order (equal ages allowed): update `k` calls
`kill` exactly when its age exceeds `min(max(L1..LN), C)`, so the first call comes at the
first update whose age exceeds that time and at no earlier one; and each particle is marked
dead at the first update whose age exceeds its own lifetime. -/
theorem ParticleSystem.swarm_termination (world : World) (randomLifetime : Nat → Int)
    (count : Nat) (ages : List Time) (hN : 1 ≤ count)
    (hinc : ages.Pairwise (fun a b => a.micros ≤ b.micros)) :
    ((ParticleSystem.new world randomLifetime count).1.mParticles.map SimpleParticle.lifeTime
        = (List.range count).map (fun i => milliseconds (randomLifetime i)) ∧
      (ParticleSystem.new world randomLifetime count).1.mMaxAge = ParticleSystem.sMaxAge) ∧
    (∀ (k : Nat) (hk : k < ages.length),
      (ParticleSystem.lifecycle world randomLifetime count ages).2.2[k]?
        = some (decide (ages[k].micros > ParticleSystem.terminationAge
            ((List.range count).map (fun i => milliseconds (randomLifetime i)))
            ParticleSystem.sMaxAge))) ∧
    (∀ (k : Nat) (hk : k < ages.length),
      ((ParticleSystem.lifecycle world randomLifetime count ages).2.2[k]? = some true ∧
        ∀ j : Nat, j < k →
          (ParticleSystem.lifecycle world randomLifetime count ages).2.2[j]? = some false) ↔
      (ages[k].micros > ParticleSystem.terminationAge
            ((List.range count).map (fun i => milliseconds (randomLifetime i)))
            ParticleSystem.sMaxAge ∧
        ∀ a ∈ ages.take k, a.micros ≤ ParticleSystem.terminationAge
            ((List.range count).map (fun i => milliseconds (randomLifetime i)))
            ParticleSystem.sMaxAge)) ∧
    (∀ i : Nat, i < count → ∀ (k : Nat) (hk : k < ages.length),
      (((ParticleSystem.lifecycle world randomLifetime count (ages.take k)).1.mParticles[i]?).map
            SimpleParticle.dead = some false ∧
        ((ParticleSystem.lifecycle world randomLifetime count
            (ages.take (k + 1))).1.mParticles[i]?).map SimpleParticle.dead = some true) ↔
      (ages[k].micros > (milliseconds (randomLifetime i)).micros ∧
        ∀ a ∈ ages.take k, a.micros ≤ (milliseconds (randomLifetime i)).micros)) := by
  obtain ⟨n1, n2, _⟩ := ParticleSystem.new_particles world randomLifetime count
  have hL : (ParticleSystem.new world randomLifetime count).1.mParticles.map
      SimpleParticle.lifeTime
        = (List.range count).map (fun i => milliseconds (randomLifetime i)) := by
    rw [n1, List.map_map]
    rfl
  have hkill : ∀ (k : Nat) (hk : k < ages.length),
      (ParticleSystem.lifecycle world randomLifetime count ages).2.2[k]?
        = some (decide (ages[k].micros > ParticleSystem.terminationAge
            ((List.range count).map (fun i => milliseconds (randomLifetime i)))
            ParticleSystem.sMaxAge)) := by
    intro k hk
    have hne : (ParticleSystem.new world randomLifetime count).1.mParticles ≠ [] := by
      rw [n1]
      intro h0
      have := congrArg List.length h0
      simp at this
      omega
    have hlive : ∀ p ∈ (ParticleSystem.new world randomLifetime count).1.mParticles,
        p.dead = false := by
      rw [n1]
      intro p hp
      rw [List.mem_map] at hp
      obtain ⟨j, _, rfl⟩ := hp
      rfl
    have h := ParticleSystem.kill_of_increasing
      (ParticleSystem.new world randomLifetime count).1
      (ParticleSystem.new world randomLifetime count).2 ages hne hlive hinc k hk
    rw [n2] at h
    have hmap : (ParticleSystem.new world randomLifetime count).1.mParticles.map
        (fun p => p.lifeTime.micros)
          = ((List.range count).map (fun i => milliseconds (randomLifetime i))).map
              Time.micros := by
      rw [← hL, List.map_map]
      rfl
    rw [hmap] at h
    exact h
  refine ⟨⟨hL, n2⟩, hkill, ?_, ?_⟩
  · intro k hk
    rw [hkill k hk]
    constructor
    · rintro ⟨h1, h2⟩
      refine ⟨by simpa using h1, ?_⟩
      intro a ha
      obtain ⟨j, hj, rfl⟩ := List.mem_iff_getElem.mp ha
      rw [List.length_take] at hj
      have hjk : j < k := by omega
      have hjl : j < ages.length := by omega
      have h3 := h2 j hjk
      rw [hkill j hjl] at h3
      rw [List.getElem_take]
      simpa using h3
    · rintro ⟨h1, h2⟩
      refine ⟨by simpa using h1, ?_⟩
      intro j hjk
      have hjl : j < ages.length := by omega
      rw [hkill j hjl]
      have hmem : ages[j] ∈ ages.take k := by
        rw [List.mem_iff_getElem]
        refine ⟨j, by rw [List.length_take]; omega, ?_⟩
        rw [List.getElem_take]
      have := h2 _ hmem
      simpa using this
  · intro i hi k hk
    rw [ParticleSystem.lifecycle_particle world randomLifetime count _ i hi,
      ParticleSystem.lifecycle_particle world randomLifetime count _ i hi,
      take_succ_getElem ages k hk]
    simp only [Option.map_some', Option.some.injEq, List.any_append, List.any_cons,
      List.any_nil, Bool.or_false, List.any_eq_false, Bool.or_eq_true, List.any_eq_true,
      decide_eq_true_eq]
    constructor
    · rintro ⟨h1, h2⟩
      refine ⟨?_, fun a ha => by have := h1 a ha; omega⟩
      rcases h2 with ⟨a, ha, hgt⟩ | h3
      · exact absurd hgt (h1 a ha)
      · exact h3
    · rintro ⟨h1, h2⟩
      exact ⟨fun a ha => by have := h2 a ha; omega, Or.inr h1⟩

/-- Witness for C14: two particles with lifetimes 600 ms and 900 ms, updated at the ages
500, 700, 950 and 1200 ms. -/
theorem ParticleSystem.swarm_termination_witness :
    (1 ≤ 2 ∧ increasingAges.Pairwise (fun a b => a.micros ≤ b.micros)) ∧
    (ParticleSystem.lifecycle sampleWorld sampleLifetime 2 increasingAges).2.2[2]?
      = some (decide (increasingAges[2].micros > ParticleSystem.terminationAge
          ((List.range 2).map (fun i => milliseconds (sampleLifetime i)))
          ParticleSystem.sMaxAge)) :=
  ⟨⟨by decide, by decide⟩,
    (ParticleSystem.swarm_termination sampleWorld sampleLifetime 2 increasingAges (by decide)
      (by decide)).2.1 2 (by decide)⟩

/-! ### Unknown property names -/

theorem PTree.children_mapChildren (f : List (String × PTree) → List (String × PTree))
    (t : PTree) : (t.mapChildren f).children = f t.children := by
  cases t
  rfl

theorem PTree.data_mapChildren (f : List (String × PTree) → List (String × PTree))
    (t : PTree) : (t.mapChildren f).data = t.data := by
  cases t
  rfl

theorem find_replaceFirst (key : String) (g : PTree → PTree) :
    ∀ cs : List (String × PTree),
      (replaceFirst key g cs).find? (fun kv => decide (kv.1 = key))
        = (cs.find? (fun kv => decide (kv.1 = key))).map (fun kv => (kv.1, g kv.2)) := by
  intro cs
  induction cs with
  | nil => rfl
  | cons kv rest ih =>
    unfold replaceFirst
    by_cases h : kv.1 = key
    · simp [h]
    · simp [h, ih]

theorem find_replaceFirst_other (key key2 : String) (g : PTree → PTree) (h2 : key2 ≠ key) :
    ∀ cs : List (String × PTree),
      (replaceFirst key g cs).find? (fun kv => decide (kv.1 = key2))
        = cs.find? (fun kv => decide (kv.1 = key2)) := by
  intro cs
  induction cs with
  | nil => rfl
  | cons kv rest ih =>
    unfold replaceFirst
    by_cases h : kv.1 = key
    · have h3 : ¬ kv.1 = key2 := fun e => h2 (e.symm.trans h)
      rw [if_pos h, List.find?_cons, List.find?_cons]
      simp [h3]
    · rw [if_neg h, List.find?_cons, List.find?_cons, ih]

theorem PTree.find_replaceFirst_same (key : String) (g : PTree → PTree) (t : PTree) :
    (t.mapChildren (replaceFirst key g)).find key = (t.find key).map g := by
  unfold PTree.find
  rw [PTree.children_mapChildren, find_replaceFirst]
  cases t.children.find? (fun kv => decide (kv.1 = key)) <;> rfl

theorem PTree.find_replaceFirst_diff (key key2 : String) (g : PTree → PTree) (t : PTree)
    (h2 : key2 ≠ key) : (t.mapChildren (replaceFirst key g)).find key2 = t.find key2 := by
  unfold PTree.find
  rw [PTree.children_mapChildren, find_replaceFirst_other key key2 g h2]

theorem PTree.get_child_modifyAt (f : PTree → PTree) :
    ∀ (path : List String) (t : PTree),
      (t.modifyAt path f).get_child path = (t.get_child path).map f := by
  intro path
  induction path with
  | nil => intro t; rfl
  | cons k ks ih =>
    intro t
    show ((t.mapChildren (replaceFirst k (PTree.modifyAt ks f))).get_child (k :: ks)) = _
    unfold PTree.get_child
    rw [PTree.find_replaceFirst_same]
    cases t.find k with
    | none => rfl
    | some child => exact ih child

theorem PTree.get_child_modifyAt_other (f : PTree → PTree) (k k2 : String)
    (ks q : List String) (t : PTree) (h2 : k2 ≠ k) :
    (t.modifyAt (k :: ks) f).get_child (k2 :: q) = t.get_child (k2 :: q) := by
  show ((t.mapChildren (replaceFirst k (PTree.modifyAt ks f))).get_child (k2 :: q)) = _
  unfold PTree.get_child
  rw [PTree.find_replaceFirst_diff k k2 _ t h2]

theorem PTree.get_child_modifyAt_under (f : PTree → PTree) (k1 k k2 : String)
    (ks q : List String) (t : PTree) (h2 : k2 ≠ k) :
    (t.modifyAt (k1 :: k :: ks) f).get_child (k1 :: k2 :: q) = t.get_child (k1 :: k2 :: q) := by
  show ((t.mapChildren (replaceFirst k1 (PTree.modifyAt (k :: ks) f))).get_child
    (k1 :: k2 :: q)) = _
  rw [PTree.get_child, PTree.get_child, PTree.find_replaceFirst_same]
  cases t.find k1 with
  | none => rfl
  | some child => exact PTree.get_child_modifyAt_other f k k2 ks q child h2

theorem PTree.get_congr {α : Type} (t t2 : PTree) (path : List String)
    (tr : String → Option α) (h : t2.get_child path = t.get_child path) :
    t2.get path tr = t.get path tr := by
  unfold PTree.get
  rw [h]

theorem PTree.getString_congr (t t2 : PTree) (path : List String)
    (h : t2.get_child path = t.get_child path) : t2.getString path = t.getString path :=
  PTree.get_congr t t2 path some h

theorem PTree.getD_congr {α : Type} (t t2 : PTree) (path : List String)
    (tr : String → Option α) (dflt : α) (h : t2.get_child path = t.get_child path) :
    t2.getD path tr dflt = t.getD path tr dflt := by
  unfold PTree.getD
  rw [PTree.get_congr t t2 path tr h]

theorem insertAt_zero {α : Type} (x : α) (xs : List α) : insertAt x 0 xs = x :: xs := rfl

theorem insertAt_succ_nil {α : Type} (x : α) (n : Nat) : insertAt x (n + 1) [] = [x] := rfl

theorem insertAt_succ_cons {α : Type} (x y : α) (n : Nat) (xs : List α) :
    insertAt x (n + 1) (y :: xs) = y :: insertAt x n xs := rfl

theorem Level.evalMapProperty_unknown (env : Library) (l : Level) (propName : String)
    (property : PTree) (h : propName ∉ mapPropertyNames) :
    l.evalMapProperty env propName property = l := by
  simp only [mapPropertyNames, List.mem_cons, List.mem_singleton, List.not_mem_nil, or_false,
    not_or] at h
  obtain ⟨h1, h2, h3, h4, h5, h6, h7, h8, h9, h10⟩ := h
  unfold Level.evalMapProperty
  rw [if_neg h1, if_neg h2, if_neg h3, if_neg h4, if_neg h5, if_neg h6, if_neg h7, if_neg h8,
    if_neg h9, if_neg h10]

theorem Level.evalMapProperties_unknown (env : Library) (pi : String × PTree)
    (propName : String) (hkey : pi.1 = "property")
    (hname : pi.2.getString ["<xmlattr>", "name"] = some propName)
    (h : to_lower propName ∉ mapPropertyNames) (rest : List (String × PTree)) (l : Level) :
    Level.evalMapProperties env (pi :: rest) l = Level.evalMapProperties env rest l := by
  obtain ⟨key, property⟩ := pi
  simp only at hkey hname
  rw [Level.evalMapProperties, if_pos hkey]
  simp only [hname]
  rw [Level.evalMapProperty_unknown env l _ property h]

theorem Level.evalMapProperties_insertAt (env : Library) (pi : String × PTree)
    (propName : String) (hkey : pi.1 = "property")
    (hname : pi.2.getString ["<xmlattr>", "name"] = some propName)
    (h : to_lower propName ∉ mapPropertyNames) :
    ∀ (n : Nat) (cs : List (String × PTree)) (l : Level),
      Level.evalMapProperties env (insertAt pi n cs) l = Level.evalMapProperties env cs l := by
  intro n
  induction n with
  | zero =>
    intro cs l
    rw [insertAt_zero]
    exact Level.evalMapProperties_unknown env pi propName hkey hname h cs l
  | succ n ih =>
    intro cs l
    cases cs with
    | nil =>
      rw [insertAt_succ_nil]
      exact Level.evalMapProperties_unknown env pi propName hkey hname h [] l
    | cons c cs =>
      rw [insertAt_succ_cons]
      obtain ⟨key, property⟩ := c
      unfold Level.evalMapProperties
      by_cases hk : key = "property"
      · rw [if_pos hk, if_pos hk]
        cases property.getString ["<xmlattr>", "name"] with
        | none => rfl
        | some nm => exact ih cs _
      · rw [if_neg hk, if_neg hk]
        exact ih cs l

theorem Level.evalLevelProperties_congr (env : Library) (pt pt2 : PTree) (l : Level)
    (h : ∀ l1 : Level,
      (match pt2.get_child ["map", "properties"] with
        | none => l1
        | some layerProperties => Level.evalMapProperties env layerProperties.children l1)
      = (match pt.get_child ["map", "properties"] with
        | none => l1
        | some layerProperties => Level.evalMapProperties env layerProperties.children l1)) :
    l.evalLevelProperties env pt2 = l.evalLevelProperties env pt := by
  unfold Level.evalLevelProperties
  exact h _

theorem Level.evalLevelProperties_insertMapProperty (env : Library) (pi : String × PTree)
    (propName : String) (hkey : pi.1 = "property")
    (hname : pi.2.getString ["<xmlattr>", "name"] = some propName)
    (h : to_lower propName ∉ mapPropertyNames) (n : Nat) (pt : PTree) (l : Level) :
    l.evalLevelProperties env (insertMapProperty pi n pt) = l.evalLevelProperties env pt := by
  apply Level.evalLevelProperties_congr
  intro l1
  unfold insertMapProperty
  rw [PTree.get_child_modifyAt]
  cases pt.get_child ["map", "properties"] with
  | none => rfl
  | some layerProperties =>
    show Level.evalMapProperties env (layerProperties.mapChildren (insertAt pi n)).children l1
      = Level.evalMapProperties env layerProperties.children l1
    rw [PTree.children_mapChildren]
    exact Level.evalMapProperties_insertAt env pi propName hkey hname h n _ l1

theorem Level.evalBackgroundColor_congr (pt pt2 : PTree) (l : Level)
    (h : ∀ q : List String,
      pt2.get_child ("map" :: "<xmlattr>" :: q) = pt.get_child ("map" :: "<xmlattr>" :: q)) :
    l.evalBackgroundColor pt2 = l.evalBackgroundColor pt := by
  unfold Level.evalBackgroundColor
  rw [PTree.getString_congr pt pt2 _ (h _)]

theorem Level.evalBackgroundImage_congr (env : Library) (levelPath : String) (pt pt2 : PTree)
    (l : Level)
    (h1 : ∀ q : List String,
      pt2.get_child ("map" :: "layer" :: q) = pt.get_child ("map" :: "layer" :: q))
    (h2 : ∀ q : List String,
      pt2.get_child ("map" :: "imagelayer" :: q) = pt.get_child ("map" :: "imagelayer" :: q)) :
    l.evalBackgroundImage env levelPath pt2 = l.evalBackgroundImage env levelPath pt := by
  unfold Level.evalBackgroundImage
  rw [PTree.getD_congr pt pt2 _ env.tr.toBool true (h1 _),
    PTree.getString_congr pt pt2 _ (h2 _),
    PTree.getD_congr pt pt2 _ env.tr.toFloat 1 (h2 _)]

theorem Level.evalBoundary_congr (env : Library) (pt pt2 : PTree) (l : Level)
    (h : ∀ q : List String,
      pt2.get_child ("map" :: "objectgroup" :: q) = pt.get_child ("map" :: "objectgroup" :: q)) :
    l.evalBoundary env pt2 = l.evalBoundary env pt := by
  unfold Level.evalBoundary
  rw [h]

theorem Level.parseMap_congr (env : Env) (levelPath : String) (pt pt2 : PTree) (l : Level)
    (h : ∀ (k2 : String) (q : List String), k2 ≠ "properties" → k2 ≠ "tileset" →
      pt2.get_child ("map" :: k2 :: q) = pt.get_child ("map" :: k2 :: q))
    (ht : ∀ l1 : Level, l1.evalTileset env.toLibrary levelPath pt2
      = l1.evalTileset env.toLibrary levelPath pt) :
    l.parseMap env levelPath pt2 = l.parseMap env levelPath pt := by
  have hattr := fun q => h "<xmlattr>" q (by decide) (by decide)
  have hlayer := fun q => h "layer" q (by decide) (by decide)
  have himage := fun q => h "imagelayer" q (by decide) (by decide)
  have hobject := fun q => h "objectgroup" q (by decide) (by decide)
  have e1 : ∀ l1 : Level, l1.evalBackgroundColor pt2 = l1.evalBackgroundColor pt :=
    fun l1 => Level.evalBackgroundColor_congr pt pt2 l1 hattr
  have e2 : ∀ l1 : Level, l1.evalBackgroundImage env.toLibrary levelPath pt2
      = l1.evalBackgroundImage env.toLibrary levelPath pt :=
    fun l1 => Level.evalBackgroundImage_congr env.toLibrary levelPath pt pt2 l1 hlayer himage
  have e3 : ∀ l1 : Level, l1.evalBoundary env.toLibrary pt2 = l1.evalBoundary env.toLibrary pt :=
    fun l1 => Level.evalBoundary_congr env.toLibrary pt pt2 l1 hobject
  unfold Level.parseMap
  rw [PTree.getString_congr pt pt2 _ (hlayer _),
    PTree.get_congr pt pt2 _ env.tr.toInt (hattr ["tilewidth"]),
    PTree.get_congr pt pt2 _ env.tr.toInt (hattr ["tileheight"]),
    PTree.get_congr pt pt2 _ env.tr.toInt (hattr ["width"]),
    PTree.get_congr pt pt2 _ env.tr.toInt (hattr ["height"])]
  simp only [e1, e2, e3, ht]

theorem evalTileProperty_unknown (env : Library) (tileParam : TileParam) (propName : String)
    (property : PTree) (h : propName ∉ tilePropertyNames) :
    evalTileProperty env tileParam propName property = some tileParam := by
  simp only [tilePropertyNames, List.mem_cons, List.mem_singleton, List.not_mem_nil, or_false,
    not_or] at h
  obtain ⟨h1, h2, h3, h4, h5, h6, h7, h8, h9, h10, h11, h12, h13, h14, h15, h16, h17, h18,
    h19, h20, h21⟩ := h
  unfold evalTileProperty
  rw [if_neg h1, if_neg h2, if_neg h3, if_neg h4, if_neg h5, if_neg h6, if_neg h7, if_neg h8,
    if_neg h9, if_neg h10, if_neg h11, if_neg h12, if_neg h13, if_neg h14, if_neg h15,
    if_neg h16, if_neg h17, if_neg h18, if_neg h19, if_neg h20, if_neg h21]

theorem evalTilePropertyElement_unknown (env : Library) (tileParam : TileParam)
    (pi : String × PTree) (propName : String) (hkey : pi.1 = "property")
    (hname : pi.2.getString ["<xmlattr>", "name"] = some propName)
    (h : to_lower propName ∉ tilePropertyNames) :
    evalTilePropertyElement env tileParam pi = tileParam := by
  unfold evalTilePropertyElement
  rw [if_pos hkey]
  simp only [hname]
  rw [evalTileProperty_unknown env tileParam _ pi.2 h]

theorem evalTileProperties_insertAt (env : Library) (pi : String × PTree)
    (propName : String) (hkey : pi.1 = "property")
    (hname : pi.2.getString ["<xmlattr>", "name"] = some propName)
    (h : to_lower propName ∉ tilePropertyNames) (n : Nat) (cs : List (String × PTree))
    (tileParam : TileParam) :
    evalTileProperties env (insertAt pi n cs) tileParam
      = evalTileProperties env cs tileParam := by
  unfold evalTileProperties insertAt
  rw [List.foldl_append, List.foldl_cons,
    evalTilePropertyElement_unknown env _ pi propName hkey hname h, ← List.foldl_append,
    List.take_append_drop]

theorem parseTileProperties_insertAt (env : Library) (pi : String × PTree)
    (propName : String) (hkey : pi.1 = "property")
    (hname : pi.2.getString ["<xmlattr>", "name"] = some propName)
    (h : to_lower propName ∉ tilePropertyNames) (n : Nat) (texture : Texture)
    (tileProperties : PTree) :
    parseTileProperties env texture (tileProperties.mapChildren (insertAt pi n))
      = parseTileProperties env texture tileProperties := by
  unfold parseTileProperties
  rw [PTree.children_mapChildren,
    evalTileProperties_insertAt env pi propName hkey hname h n]

theorem Level.evalTile_insert (env : Library) (levelPath : String) (pi : String × PTree)
    (propName : String) (hkey : pi.1 = "property")
    (hname : pi.2.getString ["<xmlattr>", "name"] = some propName)
    (h : to_lower propName ∉ tilePropertyNames) (n : Nat) (tile : PTree) (l : Level) :
    l.evalTile env levelPath
        (tile.modifyAt ["properties"] (PTree.mapChildren (insertAt pi n)))
      = l.evalTile env levelPath tile := by
  unfold Level.evalTile
  rw [PTree.get_congr tile _ ["<xmlattr>", "id"] env.tr.toInt
      (PTree.get_child_modifyAt_other _ "properties" "<xmlattr>" [] ["id"] tile (by decide)),
    PTree.getString_congr tile _ ["image", "<xmlattr>", "source"]
      (PTree.get_child_modifyAt_other _ "properties" "image" [] ["<xmlattr>", "source"] tile
        (by decide)),
    PTree.get_child_modifyAt]
  cases tile.get_child ["properties"] with
  | none => rfl
  | some tileProperties =>
    simp only [Option.map_some', parseTileProperties_insertAt env pi propName hkey hname h n]

theorem Level.evalTiles_modifyChild (env : Library) (levelPath : String) (g : PTree → PTree)
    (hg : ∀ (tile : PTree) (l : Level),
      l.evalTile env levelPath (g tile) = l.evalTile env levelPath tile) :
    ∀ (cs : List (String × PTree)) (i : Nat) (l : Level),
      Level.evalTiles env levelPath (modifyChild g i cs) l
        = Level.evalTiles env levelPath cs l := by
  intro cs
  induction cs with
  | nil => intro i l; cases i <;> rfl
  | cons kv rest ih =>
    intro i l
    obtain ⟨key, tile⟩ := kv
    cases i with
    | zero =>
      show Level.evalTiles env levelPath ((key, g tile) :: rest) l = _
      unfold Level.evalTiles
      rw [hg]
    | succ i =>
      show Level.evalTiles env levelPath ((key, tile) :: modifyChild g i rest) l = _
      unfold Level.evalTiles
      rw [show Level.evalTiles env levelPath (modifyChild g i rest)
        = Level.evalTiles env levelPath rest from funext (ih i)]

theorem filter_modifyChild_length (g : PTree → PTree) (key : String) :
    ∀ (cs : List (String × PTree)) (i : Nat),
      ((modifyChild g i cs).filter (fun kv => decide (kv.1 = key))).length
        = (cs.filter (fun kv => decide (kv.1 = key))).length := by
  intro cs
  induction cs with
  | nil => intro i; cases i <;> rfl
  | cons kv rest ih =>
    intro i
    cases i with
    | zero =>
      show (((kv.1, g kv.2) :: rest).filter _).length = _
      rw [List.filter_cons, List.filter_cons]
      by_cases hk : kv.1 = key <;> simp [hk]
    | succ i =>
      show ((kv :: modifyChild g i rest).filter _).length = _
      rw [List.filter_cons, List.filter_cons]
      by_cases hk : kv.1 = key <;> simp [hk, ih i]

theorem find_modifyChild (g : PTree → PTree) (key : String) :
    ∀ (cs : List (String × PTree)) (i : Nat),
      (modifyChild g i cs).find? (fun kv => decide (kv.1 = key))
          = cs.find? (fun kv => decide (kv.1 = key)) ∨
        (modifyChild g i cs).find? (fun kv => decide (kv.1 = key))
          = (cs.find? (fun kv => decide (kv.1 = key))).map (fun kv => (kv.1, g kv.2)) := by
  intro cs
  induction cs with
  | nil => intro i; left; cases i <;> rfl
  | cons kv rest ih =>
    intro i
    cases i with
    | zero =>
      show List.find? _ ((kv.1, g kv.2) :: rest) = _ ∨ List.find? _ ((kv.1, g kv.2) :: rest) = _
      rw [List.find?_cons, List.find?_cons]
      by_cases hk : kv.1 = key
      · right
        simp [hk]
      · left
        simp [hk]
    | succ i =>
      show List.find? _ (kv :: modifyChild g i rest) = _
        ∨ List.find? _ (kv :: modifyChild g i rest) = _
      rw [List.find?_cons, List.find?_cons]
      by_cases hk : kv.1 = key
      · left
        simp [hk]
      · simp only [hk, decide_False]
        exact ih i

theorem PTree.get_child_modifyChild (g : PTree → PTree)
    (hg : ∀ (x : PTree) (k2 : String) (q : List String), k2 ≠ "properties" →
      (g x).get_child (k2 :: q) = x.get_child (k2 :: q))
    (i : Nat) (t : PTree) (k k2 : String) (q : List String) (h2 : k2 ≠ "properties") :
    (t.mapChildren (modifyChild g i)).get_child (k :: k2 :: q) = t.get_child (k :: k2 :: q) := by
  rw [PTree.get_child, PTree.get_child]
  unfold PTree.find
  rw [PTree.children_mapChildren]
  rcases find_modifyChild g k t.children i with h | h
  · rw [h]
  · rw [h]
    cases t.children.find? (fun kv => decide (kv.1 = k)) with
    | none => rfl
    | some kv => exact hg kv.2 k2 q h2

theorem PTree.count_modifyChild (g : PTree → PTree) (i : Nat) (t : PTree) (key : String) :
    (t.mapChildren (modifyChild g i)).count key = t.count key := by
  unfold PTree.count
  rw [PTree.children_mapChildren, filter_modifyChild_length]

theorem Level.evalTileset_insertTileProperty (env : Library) (levelPath : String)
    (pi : String × PTree) (propName : String) (hkey : pi.1 = "property")
    (hname : pi.2.getString ["<xmlattr>", "name"] = some propName)
    (h : to_lower propName ∉ tilePropertyNames) (i n : Nat) (pt : PTree) (l : Level) :
    l.evalTileset env levelPath (insertTileProperty pi i n pt)
      = l.evalTileset env levelPath pt := by
  unfold Level.evalTileset insertTileProperty
  rw [PTree.get_child_modifyAt]
  cases pt.get_child ["map", "tileset"] with
  | none => rfl
  | some tileset =>
    simp only [Option.map_some']
    rw [PTree.get_congr tileset _ ["<xmlattr>", "firstgid"] env.tr.toUInt32
        (PTree.get_child_modifyChild _
          (fun x k2 q hk => PTree.get_child_modifyAt_other _ "properties" k2 [] q x hk)
          i tileset "<xmlattr>" "firstgid" [] (by decide)),
      PTree.count_modifyChild, PTree.children_mapChildren]
    cases tileset.get ["<xmlattr>", "firstgid"] env.tr.toUInt32 with
    | none => rfl
    | some firstgid =>
      simp only []
      exact Level.evalTiles_modifyChild env levelPath _
        (Level.evalTile_insert env levelPath pi propName hkey hname h n) _ i _

theorem Level.loadZip_editDescriptor (env : Env) (edit : PTree → PTree) (l : Level)
    (zipFilename : String)
    (h : ∀ (pt : PTree) (l1 : Level) (levelPath : String),
      (l1.evalLevelProperties env.toLibrary (edit pt)).parseMap env levelPath (edit pt)
        = (l1.evalLevelProperties env.toLibrary pt).parseMap env levelPath pt) :
    Level.loadZip (env.editDescriptor edit) l zipFilename = Level.loadZip env l zipFilename := by
  have h1 : chdirAborts (env.editDescriptor edit) zipFilename = chdirAborts env zipFilename :=
    rfl
  have h2 : extractedFiles (env.editDescriptor edit) zipFilename
      = extractedFiles env zipFilename := rfl
  have h3 : extractionPath (env.editDescriptor edit) zipFilename
      = extractionPath env zipFilename := rfl
  have h4 : (env.editDescriptor edit).fileExists = env.fileExists := rfl
  have h5 : (env.editDescriptor edit).stripPath = env.stripPath := rfl
  have h6 : (env.editDescriptor edit).toLibrary = env.toLibrary := rfl
  have h7 : ∀ (levelPath : String) (pt : PTree) (l1 : Level),
      l1.parseMap (env.editDescriptor edit) levelPath pt = l1.parseMap env levelPath pt :=
    fun _ _ _ => rfl
  have h8 : ∀ f : String, (env.editDescriptor edit).read_xml f = (env.read_xml f).map edit :=
    fun _ => rfl
  unfold Level.loadZip
  simp only [h1, h2, h3, h4, h5, h6, h7, h8]
  cases env.read_xml (extractedFiles env zipFilename).1 with
  | none => rfl
  | some pt => simp only [Option.map_some', h]

theorem Level.evalTileset_congr (env : Library) (levelPath : String) (pt pt2 : PTree)
    (l : Level) (h : pt2.get_child ["map", "tileset"] = pt.get_child ["map", "tileset"]) :
    l.evalTileset env levelPath pt2 = l.evalTileset env levelPath pt := by
  unfold Level.evalTileset
  rw [h]

/-- What the two edits do to the descriptor: the map-level property list, resp. the
property list of the child `i` of the tileset, gets the element at position `n`. -/
theorem insert_property_lists (pi : String × PTree) (i n : Nat) (pt : PTree) :
    (insertMapProperty pi n pt).get_child ["map", "properties"]
        = (pt.get_child ["map", "properties"]).map (PTree.mapChildren (insertAt pi n)) ∧
      (insertTileProperty pi i n pt).get_child ["map", "tileset"]
        = (pt.get_child ["map", "tileset"]).map
            (PTree.mapChildren (modifyChild
              (PTree.modifyAt ["properties"] (PTree.mapChildren (insertAt pi n))) i)) ∧
      ∀ tile : PTree,
        (tile.modifyAt ["properties"] (PTree.mapChildren (insertAt pi n))).get_child
            ["properties"]
          = (tile.get_child ["properties"]).map (PTree.mapChildren (insertAt pi n)) :=
  ⟨PTree.get_child_modifyAt _ _ pt, PTree.get_child_modifyAt _ _ pt,
    fun tile => PTree.get_child_modifyAt _ _ tile⟩

/-- The two edits on the scenario: the names of the map-level property list and of the
property list of the first tile after inserting a property `Comment`, and the gravity the
load ends with when a second property `Gravity` is inserted instead. -/
theorem insert_property_samples :
    ((insertMapProperty (propertyElement "Comment" "x") 1 scenarioDescriptor).get_child
        ["map", "properties"]).map
        (fun t => t.children.map (fun kv => kv.2.getString ["<xmlattr>", "name"]))
      = some [some "Gravity", some "Comment"] ∧
    ((insertTileProperty (propertyElement "Comment" "x") 1 0 scenarioDescriptor).get_child
        ["map", "tileset", "tile", "properties"]).map
        (fun t => t.children.map (fun kv => kv.2.getString ["<xmlattr>", "name"]))
      = some [some "Comment", some "Name"] ∧
    (Level.loadZip (sampleEnv scenarioDescriptor) loadedLevel
        "levels/0001.zip").level.mGravity = 3 ∧
    (Level.loadZip ((sampleEnv scenarioDescriptor).editDescriptor
        (insertMapProperty (propertyElement "Gravity" "7") 1)) loadedLevel
        "levels/0001.zip").level.mGravity = 7 := by
  refine ⟨by decide, by decide, by decide, by decide⟩

/-- C12 (unknown property names are ignored).  For every environment, level and archive,
and every well-formed property element (key `property`, with a name attribute): when its
lower-cased name is none of the names the map-level loop compares with, inserting it at any
position of the map-level property list of the descriptor leaves the outcome of
`Level::loadZip` (how the call ends, the success flag and every member of the level, the
tile table included) as it is; when it is none of the names the tile loop compares with,
so does inserting it at any position of the property list of any child of the tileset. -/
theorem unknown_properties_ignored (env : Env) (l : Level) (zipFilename : String)
    (pi : String × PTree) (propName : String) (hkey : pi.1 = "property")
    (hname : pi.2.getString ["<xmlattr>", "name"] = some propName) :
    (to_lower propName ∉ mapPropertyNames → ∀ n : Nat,
      Level.loadZip (env.editDescriptor (insertMapProperty pi n)) l zipFilename
        = Level.loadZip env l zipFilename) ∧
    (to_lower propName ∉ tilePropertyNames → ∀ i n : Nat,
      Level.loadZip (env.editDescriptor (insertTileProperty pi i n)) l zipFilename
        = Level.loadZip env l zipFilename) := by
  constructor
  · intro h n
    apply Level.loadZip_editDescriptor
    intro pt l1 levelPath
    rw [Level.evalLevelProperties_insertMapProperty env.toLibrary pi propName hkey hname h]
    apply Level.parseMap_congr
    · intro k2 q hk _
      exact PTree.get_child_modifyAt_under _ "map" "properties" k2 [] q pt hk
    · intro l2
      apply Level.evalTileset_congr
      exact PTree.get_child_modifyAt_under _ "map" "properties" "tileset" [] [] pt (by decide)
  · intro h i n
    apply Level.loadZip_editDescriptor
    intro pt l1 levelPath
    have hprops : (insertTileProperty pi i n pt).get_child ["map", "properties"]
        = pt.get_child ["map", "properties"] :=
      PTree.get_child_modifyAt_under _ "map" "tileset" "properties" [] [] pt (by decide)
    rw [Level.evalLevelProperties_congr env.toLibrary pt (insertTileProperty pi i n pt) l1
      (fun l2 => by rw [hprops])]
    apply Level.parseMap_congr
    · intro k2 q _ hk
      exact PTree.get_child_modifyAt_under _ "map" "tileset" k2 [] q pt hk
    · intro l2
      exact Level.evalTileset_insertTileProperty env.toLibrary levelPath pi propName hkey
        hname h i n pt l2

/-- Witness for C12: a property `Comment` inserted into the scenario, at the end of the
map-level property list and at the start of the property list of the first tile. -/
theorem unknown_properties_ignored_witness :
    ((propertyElement "Comment" "x").1 = "property" ∧
      (propertyElement "Comment" "x").2.getString ["<xmlattr>", "name"] = some "Comment" ∧
      to_lower "Comment" ∉ mapPropertyNames ∧ to_lower "Comment" ∉ tilePropertyNames) ∧
    Level.loadZip ((sampleEnv scenarioDescriptor).editDescriptor
        (insertMapProperty (propertyElement "Comment" "x") 1)) loadedLevel "levels/0001.zip"
      = Level.loadZip (sampleEnv scenarioDescriptor) loadedLevel "levels/0001.zip" ∧
    Level.loadZip ((sampleEnv scenarioDescriptor).editDescriptor
        (insertTileProperty (propertyElement "Comment" "x") 1 0)) loadedLevel "levels/0001.zip"
      = Level.loadZip (sampleEnv scenarioDescriptor) loadedLevel "levels/0001.zip" :=
  have hkey : (propertyElement "Comment" "x").1 = "property" := rfl
  have hname : (propertyElement "Comment" "x").2.getString ["<xmlattr>", "name"]
      = some "Comment" := by decide
  have hmap : to_lower "Comment" ∉ mapPropertyNames := by decide
  have htile : to_lower "Comment" ∉ tilePropertyNames := by decide
  ⟨⟨hkey, hname, hmap, htile⟩,
    (unknown_properties_ignored (sampleEnv scenarioDescriptor) loadedLevel "levels/0001.zip"
      (propertyElement "Comment" "x") "Comment" hkey hname).1 hmap 1,
    (unknown_properties_ignored (sampleEnv scenarioDescriptor) loadedLevel "levels/0001.zip"
      (propertyElement "Comment" "x") "Comment" hkey hname).2 htile 1 0⟩

end Impact
